import Mathlib

/-!
# NTree (gpu_voxels/octree/NTree.hpp): host-side control logic

A shallow embedding of the host code of `NTree.hpp`.  Device kernels and the
`LoadBalancer` classes live in other headers; wherever the host code calls one
of them the call appears here as an explicit parameter (an oracle for what the
call reports), and the host logic around it is transcribed statement by
statement.  Machine integers are natural numbers with explicit reduction
modulo `2 ^ 32` wherever the source computes in `uint32_t`.
-/

namespace NTree

/-! ## Machine integers -/

/-- Number of values of a `uint32_t`. -/
def UINT32 : Nat := 2 ^ 32

/-- Number of values of a `VoxelID` (`uint64_t`). -/
def UINT64 : Nat := 2 ^ 64

/-! ## Powers computed in floating point

The source computes integer powers with the library function `pow` on `double` and converts
the result back to an integer.  A `double` holds 53 significant bits; a power that has more
is returned as one of the two neighbouring doubles, and which of the two is the choice of
the library.  That choice is an input of the model. -/

/-- The bit length of `x`, for `fuel` at least that length. -/
def bitLengthAux : Nat → Nat → Nat
  | 0, _ => 0
  | fuel + 1, x => if x = 0 then 0 else bitLengthAux fuel (x / 2) + 1

/-- The number of low-order bits of `x` that a `double` cannot hold: the bit length of `x`
minus 53. -/
def doubleShift (x : Nat) : Nat := bitLengthAux x x - 53

/-- The largest `double` that is at most `x`. -/
def doubleBelow (x : Nat) : Nat := x / 2 ^ doubleShift x * 2 ^ doubleShift x

/-- The next `double` after `doubleBelow x`. -/
def doubleAbove (x : Nat) : Nat := doubleBelow x + 2 ^ doubleShift x

/-- Whether `x` is exactly a `double`. -/
def isDouble (x : Nat) : Bool := doubleBelow x == x

/-- The value of `pow(b, e)` for integer arguments: the exact power when that is a `double`,
otherwise the neighbouring `double` above or below it, as `roundUp b e` tells (the choice of
the library for these arguments). -/
def powDouble (roundUp : Nat → Nat → Bool) (b e : Nat) : Nat :=
  if isDouble (b ^ e) then b ^ e
  else if roundUp b e then doubleAbove (b ^ e) else doubleBelow (b ^ e)

/-! ## `build`: sorting and the range check (source lines 474-498) -/

/-- Outcome of the range check of `build`. -/
inductive BuildCheck where
  /-- The branch of line 493 is taken: the error is logged and `assert(false)` is reached. -/
  | rangeError (biggest_value : Nat)
  /-- The branch is skipped and `build` goes on to the level loop. -/
  | pass (biggest_value : Nat)
  deriving DecidableEq, Repr

/-- Line 474, `thrust::sort(d_voxels.begin(), d_voxels.end())`: the Morton ids in ascending
order. -/
def sortVoxels (d_voxels : List Nat) : List Nat :=
  d_voxels.insertionSort (fun a b => a ≤ b)

/-- Lines 474-498 of `build`, for `branching_factor = B` and `level_count = L`:
the ids are sorted, `biggest_value = d_voxels.back()` is read, and the error branch is taken
when `biggest_value >= (VoxelID) pow(branching_factor, level_count - 1)`.
`back()` on an empty vector has no defined value, and neither has the conversion to
`VoxelID` of a `double` that does not fit 64 bits: both are `none` here.  `pow` is the
floating-point power `powDouble`, with `roundUp` the rounding of the library. -/
def buildRangeCheck (roundUp : Nat → Nat → Bool) (B L : Nat) (d_voxels : List Nat) :
    Option BuildCheck :=
  match (sortVoxels d_voxels).getLast? with
  | none => none
  | some biggest_value =>
    if powDouble roundUp B (L - 1) < UINT64 then
      if biggest_value ≥ powDouble roundUp B (L - 1) then
        some (BuildCheck.rangeError biggest_value)
      else some (BuildCheck.pass biggest_value)
    else none

/-- Arguments of one `LoadBalancer::Extract<..., A5, A6>` pass as the host code builds it: the
last two template arguments and the constructor arguments.  The count-only pass of
`extractCubes` and `rebuild` (under `COUNT_BEFORE_EXTRACT`) is instantiated with
`<..., false, true>`, a `NULL` buffer and size `0`, so the sixth template argument is the
count mode; the fill pass of `extractCubes` uses `<..., true, false>` and the one of `rebuild`
uses `<..., false, false>`. -/
structure ExtractArgs where
  /-- Fifth template argument. -/
  arg5 : Bool
  /-- Sixth template argument: `true` selects the count-only mode. -/
  count_mode : Bool
  /-- Whether the buffer pointer handed to the constructor is non-`NULL`. -/
  has_buffer : Bool
  /-- The buffer size handed to the constructor. -/
  size : Nat
  /-- Whether the status selection is the default `m_extract_status_selection`. -/
  default_selection : Bool
  /-- The minimum level. -/
  min_level : Nat
  deriving DecidableEq, Repr

/-- What `load_balancer.run()` reports in `m_num_elements` for given arguments on the tree at
hand.  The balancer is defined in another header, so its report is a parameter of every
function below; the report is stored in a `uint32_t`. -/
abbrev LoadBalancer := ExtractArgs → Nat

/-- One executed pass: its arguments and the `uint32_t` count read back from it. -/
structure ExtractRun where
  args : ExtractArgs
  m_num_elements : Nat
  deriving DecidableEq, Repr

/-- Runs a pass and reads `m_num_elements` into a `uint32_t`. -/
def runPass (lb : LoadBalancer) (a : ExtractArgs) : ExtractRun :=
  { args := a, m_num_elements := lb a % UINT32 }

/-! ## `extractCubes` (source lines 2505-2635) -/

/-- What a call of `extractCubes` did. -/
structure ExtractCubesOutcome where
  /-- The passes `load_balancer.run()` executed, in order. -/
  runs : List ExtractRun
  /-- Whether `exit(0)` of line 2579 was reached. -/
  exited : Bool
  /-- The value line 2565 assigned to `m_extract_buffer_size`, when that line ran. -/
  grown : Option Nat
  /-- Size of `d_node_data` when control leaves the buffer handling. -/
  d_node_data_size : Nat
  /-- The member `m_extract_buffer_size` when control leaves the function. -/
  m_extract_buffer_size : Nat
  /-- The returned `used_size`; `none` when the process exited. -/
  result : Option Nat
  /-- The size of `d_cubes` after `d_cubes.resize(used_size)` at line 2585; `none` when the
  process exited before. -/
  d_cubes_size : Option Nat
  deriving DecidableEq, Repr

/-- The passes of an outcome that ran in fill mode (sixth template argument `false`). -/
def fillPasses (runs : List ExtractRun) : List ExtractRun :=
  runs.filter (fun r => !r.args.count_mode)

/-- Lines 2621-2622: `if (4*used_size < m) m = max(m/2, INITIAL)`, with `4*used_size`
computed in `uint32_t`. -/
def shrinkBuffer (INITIAL : Nat) (used_size m : Nat) : Nat :=
  if 4 * used_size % UINT32 < m then max (m / 2) INITIAL else m

/-- The count-only pass of lines 2520-2533: `Extract<..., false, true>` with a `NULL` buffer
of size `0`. -/
def extractCountArgs (default_selection : Bool) (min_level : Nat) : ExtractArgs :=
  { arg5 := false, count_mode := true, has_buffer := false, size := 0,
    default_selection := default_selection, min_level := min_level }

/-- The fill pass of lines 2542-2554 and 2567-2572: `Extract<..., true, false>` on
`d_node_data` with the given buffer size. -/
def extractFillArgs (default_selection : Bool) (min_level : Nat) (size : Nat) : ExtractArgs :=
  { arg5 := true, count_mode := false, has_buffer := true, size := size,
    default_selection := default_selection, min_level := min_level }

/-- The buffer handling of `extractCubes`.  `INITIAL` is `INITIAL_EXTRACT_BUFFER_SIZE`,
`COUNT_BEFORE_EXTRACT` tells whether that preprocessor symbol is defined,
`default_selection` whether `d_status_selection` is `NULL` on entry (it is then replaced by the
default selection), and `m_extract_buffer_size` is the member on entry.
The `used_size` declared at line 2574 shadows the one of line 2556, so the value tested at
line 2621 and returned at line 2634 is the count of the first fill pass. -/
def extractCubes (INITIAL : Nat) (COUNT_BEFORE_EXTRACT : Bool) (lb : LoadBalancer)
    (default_selection : Bool) (min_level : Nat) (m_extract_buffer_size : Nat) :
    ExtractCubesOutcome :=
  -- lines 2515-2535
  let counting : List ExtractRun :=
    if COUNT_BEFORE_EXTRACT then [runPass lb (extractCountArgs default_selection min_level)]
    else []
  let needed_size : Nat :=
    if COUNT_BEFORE_EXTRACT then
      (runPass lb (extractCountArgs default_selection min_level)).m_num_elements
    else m_extract_buffer_size
  -- lines 2541-2556
  let first := runPass lb (extractFillArgs default_selection min_level needed_size)
  let used_size := first.m_num_elements
  if used_size > needed_size then
    -- lines 2563-2574
    let grown := used_size * 5 % UINT32 / 4
    let second := runPass lb (extractFillArgs default_selection min_level used_size)
    if second.m_num_elements > used_size then
      -- lines 2578-2579
      { runs := counting ++ [first, second], exited := true, grown := some grown,
        d_node_data_size := used_size, m_extract_buffer_size := grown, result := none,
        d_cubes_size := none }
    else
      -- lines 2585-2634
      { runs := counting ++ [first, second], exited := false, grown := some grown,
        d_node_data_size := used_size,
        m_extract_buffer_size := shrinkBuffer INITIAL used_size grown,
        result := some used_size, d_cubes_size := some used_size }
  else
    -- lines 2585-2634
    { runs := counting ++ [first], exited := false, grown := none,
      d_node_data_size := needed_size,
      m_extract_buffer_size := shrinkBuffer INITIAL used_size m_extract_buffer_size,
      result := some used_size, d_cubes_size := some used_size }

/-! ## The extraction of `rebuild` (source lines 2809-2886) -/

/-- What the extraction part of `rebuild` did, up to the call of `internal_rebuild`. -/
structure RebuildExtractOutcome where
  /-- The passes `load_balancer.run()` executed, in order. -/
  runs : List ExtractRun
  /-- Whether `exit(0)` of line 2882 was reached. -/
  exited : Bool
  /-- The local `needed_size` at line 2885. -/
  needed_size : Nat
  /-- The member `m_rebuild_buffer_size` when control leaves the extraction. -/
  m_rebuild_buffer_size : Nat
  /-- The `num_cubes` handed to `internal_rebuild`; `none` when the process exited. -/
  num_cubes : Option Nat
  deriving DecidableEq, Repr

/-- The fill pass `rebuild` builds at lines 2839-2851 and 2870-2875:
`Extract<..., false, false>` on `d_node_data` with the default selection and level `0`. -/
def rebuildFillArgs (needed_size : Nat) : ExtractArgs :=
  { arg5 := false, count_mode := false, has_buffer := true, size := needed_size,
    default_selection := true, min_level := 0 }

/-- Lines 2809-2886 of `rebuild`.  `INITIAL` is `INITIAL_REBUILD_BUFFER_SIZE`. -/
def rebuildExtract (INITIAL : Nat) (COUNT_BEFORE_EXTRACT : Bool) (lb : LoadBalancer)
    (m_rebuild_buffer_size : Nat) : RebuildExtractOutcome :=
  -- lines 2809-2829
  let counting : List ExtractRun :=
    if COUNT_BEFORE_EXTRACT then [runPass lb (extractCountArgs true 0)] else []
  let needed_size : Nat :=
    if COUNT_BEFORE_EXTRACT then (runPass lb (extractCountArgs true 0)).m_num_elements
    else m_rebuild_buffer_size
  -- lines 2834-2853
  let first := runPass lb (rebuildFillArgs needed_size)
  let num_cubes := first.m_num_elements
  if num_cubes > needed_size then
    -- lines 2865-2877
    let needed_size := num_cubes
    let grown := num_cubes * 5 % UINT32 / 4
    let second := runPass lb (rebuildFillArgs needed_size)
    let num_cubes := second.m_num_elements
    if num_cubes > needed_size then
      { runs := counting ++ [first, second], exited := true, needed_size := needed_size,
        m_rebuild_buffer_size := grown, num_cubes := none }
    else
      { runs := counting ++ [first, second], exited := false, needed_size := needed_size,
        m_rebuild_buffer_size := shrinkBuffer INITIAL needed_size grown,
        num_cubes := some num_cubes }
  else
    { runs := counting ++ [first], exited := false, needed_size := needed_size,
      m_rebuild_buffer_size := shrinkBuffer INITIAL needed_size m_rebuild_buffer_size,
      num_cubes := some num_cubes }

/-! ## The status mapping built by the constructor (source lines 311-327) -/

/-- The `NodeStatus` bit constants the constructor uses.  They are declared in another
header, so they are parameters here. -/
structure StatusBits where
  ns_FREE : Nat
  ns_UNKNOWN : Nat
  ns_OCCUPIED : Nat
  ns_COLLISION : Nat
  deriving DecidableEq, Repr

/-- The `VoxelType` enumerators the constructor uses, declared in another header. -/
structure VoxelTypes where
  eVT_FREE : Nat
  eVT_UNKNOWN : Nat
  eVT_OCCUPIED : Nat
  eVT_COLLISION : Nat
  deriving DecidableEq, Repr

/-- The assignment `mapping[i] = v` into a `uint8_t` array. -/
def storeByte (mapping : List Nat) (i v : Nat) : List Nat :=
  mapping.set i (v % 256)

/-- The loop of lines 325-327 run for `i = 0 .. n-1`. -/
def collisionLoop (ns_COLLISION eVT_COLLISION : Nat) (n : Nat) (mapping : List Nat) : List Nat :=
  (List.range n).foldl
    (fun m i => if i &&& ns_COLLISION = ns_COLLISION then storeByte m i eVT_COLLISION else m)
    mapping

/-- Lines 311-327: the array `mapping` the constructor copies to `m_status_mapping`. -/
def statusMapping (s : StatusBits) (v : VoxelTypes) : List Nat :=
  let mapping_size := 256
  let mapping := List.replicate mapping_size 0
  let mapping := storeByte mapping s.ns_FREE v.eVT_FREE
  let mapping := storeByte mapping (s.ns_FREE ||| s.ns_UNKNOWN) v.eVT_FREE
  let mapping := storeByte mapping s.ns_UNKNOWN v.eVT_UNKNOWN
  let mapping := storeByte mapping s.ns_OCCUPIED v.eVT_OCCUPIED
  let mapping := storeByte mapping (s.ns_OCCUPIED ||| s.ns_FREE) v.eVT_OCCUPIED
  let mapping := storeByte mapping (s.ns_OCCUPIED ||| s.ns_FREE ||| s.ns_UNKNOWN) v.eVT_OCCUPIED
  let mapping := storeByte mapping (s.ns_OCCUPIED ||| s.ns_UNKNOWN) v.eVT_OCCUPIED
  collisionLoop s.ns_COLLISION v.eVT_COLLISION mapping_size mapping

/-- The constants are four different bits of a byte. -/
def StatusBits.distinctBits (s : StatusBits) : Prop :=
  ∃ f u o c : Nat, f < 8 ∧ u < 8 ∧ o < 8 ∧ c < 8 ∧
    f ≠ u ∧ f ≠ o ∧ f ≠ c ∧ u ≠ o ∧ u ≠ c ∧ o ≠ c ∧
    s.ns_FREE = 2 ^ f ∧ s.ns_UNKNOWN = 2 ^ u ∧ s.ns_OCCUPIED = 2 ^ o ∧ s.ns_COLLISION = 2 ^ c

/-- The enumerators fit the `uint8_t` entries of the table. -/
def VoxelTypes.fitByte (v : VoxelTypes) : Prop :=
  v.eVT_FREE < 256 ∧ v.eVT_UNKNOWN < 256 ∧ v.eVT_OCCUPIED < 256 ∧ v.eVT_COLLISION < 256

/-! ## Streams -/

/-- A `std::istream` as the host code sees it: the bytes not yet consumed and the state
bits `eofbit` and `failbit`. -/
structure IStream where
  data : List Nat
  eof : Bool
  fail : Bool
  deriving DecidableEq, Repr

/-- A fresh stream over the given bytes. -/
def IStream.ofBytes (data : List Nat) : IStream :=
  { data := data, eof := false, fail := false }

/-- The test `good()` every input operation starts with. -/
def IStream.good (s : IStream) : Bool := !s.eof && !s.fail

/-- A `NodeData` record as the raw bytes of its object representation
(`sizeof(NodeData)` of them); the type is declared in another header. -/
abbrev NodeData := List Nat

/-- The members of the tree that `serialize` writes and `deserialize` assigns. -/
structure NTreeConfig where
  numBlocks : Nat
  numThreadsPerBlock : Nat
  m_resolution : Nat
  deriving DecidableEq, Repr

/-- The call `out.write((char*) &x, sizeof(uint32_t))`: the four bytes of `x`, least
significant first (the byte order of the hosts CUDA runs on). -/
def writeU32 (x : Nat) : List Nat :=
  [x % 256, x / 256 % 256, x / 65536 % 256, x / 16777216 % 256]

/-- The call `in.read((char*) &x, sizeof(uint32_t))` into an uninitialised `uint32_t`: the
value of `x` afterwards, `none` when `x` was not completely written (the stream was not
good, or held fewer than four bytes), and the stream afterwards. -/
def readU32 (s : IStream) : Option Nat × IStream :=
  if s.good then
    match s.data with
    | b0 :: b1 :: b2 :: b3 :: rest =>
      (some (b0 + 256 * b1 + 65536 * b2 + 16777216 * b3), { s with data := rest })
    | _ => (none, { data := [], eof := true, fail := true })
  else (none, { s with fail := true })

/-- Decimal digits of `x`, most significant first, as ASCII codes. -/
def decimalAux : Nat → Nat → List Nat → List Nat
  | 0, _, acc => acc
  | fuel + 1, x, acc =>
    if x < 10 then (48 + x) :: acc else decimalAux fuel (x / 10) ((48 + x % 10) :: acc)

/-- The characters `out << x` emits for a `uint32_t`. -/
def printU32 (x : Nat) : List Nat := decimalAux 10 (x % UINT32) []

/-- The line feed `"\n"`. -/
def LF : Nat := 10

/-- The characters `isspace` accepts in the classic locale. -/
def isSpace (c : Nat) : Bool := c == 32 || (9 ≤ c && c ≤ 13)

/-- The characters `'0' .. '9'`. -/
def isDigit (c : Nat) : Bool := 48 ≤ c && c ≤ 57

/-- The value of a string of decimal digits. -/
def digitsValue (ds : List Nat) : Nat := ds.foldl (fun a c => 10 * a + (c - 48)) 0

/-- The extraction `in >> x` for an uninitialised `uint32_t`: the value of `x` afterwards
(`none` when the extraction did not touch `x`) and the stream afterwards.  The sentry fails
on a stream that is not good or that ends while white space is skipped; a field without
digits stores `0` and sets `failbit`; a value that does not fit stores the largest
`uint32_t` and sets `failbit`.  Sign characters are outside this model (they count as
non-digits). -/
def extractU32 (s : IStream) : Option Nat × IStream :=
  if s.good then
    let rest := s.data.dropWhile isSpace
    if rest = [] then (none, { data := [], eof := true, fail := true })
    else
      let digits := rest.takeWhile isDigit
      let rest' := rest.dropWhile isDigit
      if digits = [] then (some 0, { data := rest, eof := false, fail := true })
      else if digitsValue digits < UINT32 then
        (some (digitsValue digits), { data := rest', eof := rest' = [], fail := false })
      else (some (UINT32 - 1), { data := rest', eof := rest' = [], fail := true })
  else (none, { s with fail := true })

/-! ## `serialize` (source lines 3139-3201) -/

/-- The first pass of `serialize` (lines 3158-3164): `MyLBCounter` with a `NULL` buffer. -/
def serializeCountArgs : ExtractArgs :=
  { arg5 := false, count_mode := true, has_buffer := false, size := 0,
    default_selection := true, min_level := 0 }

/-- The second pass of `serialize` (lines 3171-3177): declared as `MyLBCounter`, that is
`Extract<..., false, true>`, and handed `d_node_data` and `needed_size`.  The typedef
`MyLoadBalancer` (`Extract<..., false, false>`) of lines 3151-3157 is not used. -/
def serializeBufferArgs (needed_size : Nat) : ExtractArgs :=
  { arg5 := false, count_mode := true, has_buffer := true, size := needed_size,
    default_selection := true, min_level := 0 }

/-- Lines 3183-3190: the bytes written in binary mode.  The records are the first
`num_cubes * sizeof(NodeData)` bytes at `&h_node_data[0]`; `none` when that range reaches
past the vector. -/
def serializeBin (sizeofNodeData : Nat) (t : NTreeConfig) (num_cubes : Nat)
    (h_node_data : List NodeData) : Option (List Nat) :=
  if num_cubes * sizeofNodeData ≤ h_node_data.flatten.length then
    some (writeU32 t.numBlocks ++ (writeU32 t.numThreadsPerBlock ++ (writeU32 t.m_resolution ++
      (writeU32 num_cubes ++ h_node_data.flatten.take (num_cubes * sizeofNodeData)))))
  else none

/-- Lines 3191-3198: the characters written in text mode.  `printNodeData` is the
`operator<<` of `NodeData`, declared in another header; `none` when `h_node_data[i]` is
read past the vector. -/
def serializeText (printNodeData : NodeData → List Nat) (t : NTreeConfig) (num_cubes : Nat)
    (h_node_data : List NodeData) : Option (List Nat) :=
  if num_cubes ≤ h_node_data.length then
    some (printU32 t.numThreadsPerBlock ++ (LF :: (printU32 t.m_resolution ++ (LF ::
      (printU32 num_cubes ++ (LF ::
        ((h_node_data.take num_cubes).map (fun r => printNodeData r ++ [LF])).flatten))))))
  else none

/-- What a call of `serialize` did. -/
structure SerializeOutcome where
  /-- The passes `load_balancer.run()` executed, in order. -/
  runs : List ExtractRun
  /-- The record count written to the header. -/
  num_cubes : Nat
  /-- The host copy of the buffer. -/
  h_node_data : List NodeData
  /-- The bytes written to `out`; `none` when the vector is read out of bounds. -/
  out : Option (List Nat)
  deriving DecidableEq, Repr

/-- The whole of `serialize`.  `buffer_after` is what a pass leaves in the buffer it was
handed (the balancer is defined in another header), `default_node` the value-initialised
`NodeData` the vector is created with. -/
def serialize (bin_mode : Bool) (sizeofNodeData : Nat) (printNodeData : NodeData → List Nat)
    (lb : LoadBalancer) (buffer_after : ExtractArgs → List NodeData → List NodeData)
    (default_node : NodeData) (t : NTreeConfig) : SerializeOutcome :=
  -- lines 3158-3165
  let counting := runPass lb serializeCountArgs
  let needed_size := counting.m_num_elements
  -- lines 3170-3179
  let d_node_data := List.replicate needed_size default_node
  let second := runPass lb (serializeBufferArgs needed_size)
  let num_cubes := second.m_num_elements
  let h_node_data := buffer_after (serializeBufferArgs needed_size) d_node_data
  -- lines 3183-3198
  { runs := [counting, second], num_cubes := num_cubes, h_node_data := h_node_data,
    out := if bin_mode then serializeBin sizeofNodeData t num_cubes h_node_data
           else serializeText printNodeData t num_cubes h_node_data }

/-! ## `deserialize` (source lines 3203-3247) -/

/-- What a call of `deserialize` did. -/
structure DeserializeOutcome where
  /-- The members assigned at lines 3241-3243. -/
  config : NTreeConfig
  /-- The record count read from the header. -/
  size : Nat
  /-- How many complete records were taken from the stream. -/
  records_read : Nat
  /-- The vector handed to `internal_rebuild`. -/
  rebuild_data : List NodeData
  /-- The count handed to `internal_rebuild`. -/
  rebuild_num_cubes : Nat
  /-- The value returned. -/
  returned : Bool
  deriving DecidableEq, Repr

/-- Lines 3207-3221: the four header variables, in the order they are read. -/
def readHeader (bin_mode : Bool) (s : IStream) :
    (Option Nat × Option Nat × Option Nat × Option Nat) × IStream :=
  let rd := if bin_mode then readU32 else extractU32
  let numBlocks := rd s
  let numThreadsPerBlock := rd numBlocks.2
  let resolution := rd numThreadsPerBlock.2
  let size := rd resolution.2
  ((numBlocks.1, numThreadsPerBlock.1, resolution.1, size.1), size.2)

/-- Cuts `n` records of `sz` bytes out of a byte buffer. -/
def splitRecords (sz : Nat) : Nat → List Nat → List NodeData
  | 0, _ => []
  | n + 1, mem => mem.take sz :: splitRecords sz n (mem.drop sz)

/-- Line 3228: `in.read((char*) &h_node_data[0], size * sizeof(NodeData))` over a vector of
`size` default records: the records afterwards, the number of complete records read, and
the stream. -/
def readRecordsBin (sizeofNodeData size : Nat) (default_node : NodeData) (s : IStream) :
    List NodeData × Nat × IStream :=
  let h_node_data := List.replicate size default_node
  if s.good then
    let n := size * sizeofNodeData
    let got := s.data.take n
    let mem := got ++ h_node_data.flatten.drop got.length
    (splitRecords sizeofNodeData size mem, got.length / sizeofNodeData,
      { data := s.data.drop n, eof := got.length < n, fail := got.length < n })
  else (h_node_data, 0, { s with fail := true })

/-- Lines 3232-3233: `in >> h_node_data[i]` for each element in turn.  `scanNodeData` is the
`operator>>` of `NodeData`, declared in another header: from the element and the stream
before to the element and the stream after.  A record counts as read when the stream has
not failed after its extraction. -/
def readRecordsText (scanNodeData : NodeData → IStream → NodeData × IStream) :
    List NodeData → IStream → List NodeData × Nat × IStream
  | [], s => ([], 0, s)
  | d :: ds, s =>
    let r := scanNodeData d s
    let rest := readRecordsText scanNodeData ds r.2
    (r.1 :: rest.1, (if r.2.fail then 0 else 1) + rest.2.1, rest.2.2)

/-- The whole of `deserialize`: `none` when one of the four header variables is used without
having been written, otherwise what the call did.  There is no test of the stream state and
no comparison of `size` with what was read anywhere in the function. -/
def deserialize (bin_mode : Bool) (sizeofNodeData : Nat)
    (scanNodeData : NodeData → IStream → NodeData × IStream) (default_node : NodeData)
    (s : IStream) : Option DeserializeOutcome :=
  match readHeader bin_mode s with
  | ((some numBlocks, some numThreadsPerBlock, some resolution, some size), s') =>
    -- lines 3223-3235
    let records :=
      if bin_mode then readRecordsBin sizeofNodeData size default_node s'
      else readRecordsText scanNodeData (List.replicate size default_node) s'
    -- lines 3241-3246
    some { config := { numBlocks := numBlocks, numThreadsPerBlock := numThreadsPerBlock,
                       m_resolution := resolution },
           size := size, records_read := records.2.1, rebuild_data := records.1,
           rebuild_num_cubes := size, returned := true }
  | _ => none

/-- A sample text format for records, used to run the text mode on concrete input: a
record of one byte printed as one decimal field. -/
def samplePrintNodeData (r : NodeData) : List Nat := printU32 (r.headD 0)

/-- The reader matching `samplePrintNodeData`: one decimal field per record. -/
def sampleScanNodeData (d : NodeData) (s : IStream) : NodeData × IStream :=
  match extractU32 s with
  | (some v, s') => ([v], s')
  | (none, s') => (d, s')

/-! ## Node constants, payloads and the root node -/

/-- The two node-type pairs the tree is instantiated with: `Environment::InnerNode` (basic
status) and `Environment::InnerNodeProb` / `NodeProb` (probabilistic occupancy). -/
inductive NodeKind where
  | basic
  | prob
  deriving DecidableEq, Repr

/-- Constants of the node headers that the host code of `NTree.hpp` uses; they are declared
in other headers, so they are parameters here. -/
structure NodeConsts where
  ns_UNKNOWN : Nat
  ns_PART : Nat
  ns_STATIC_MAP : Nat
  ns_DYNAMIC_MAP : Nat
  STATUS_OCCUPANCY_MASK : Nat
  nf_UPDATE_SUBTREE : Nat
  UNKNOWN_OCCUPANCY : Int
  MIN_OCCUPANCY : Int
  MAX_OCCUPANCY : Int
  deriving DecidableEq, Repr

/-- A `NodeData::BasicData` value as the host code constructs it: `BasicData(status, flags)`
for the basic kind and `BasicData(status, flags, occupancy)` for the probabilistic kind. -/
inductive BasicData where
  | basic (m_status : Nat) (m_flags : Nat)
  | prob (m_status : Nat) (m_flags : Nat) (m_occupancy : Int)
  deriving DecidableEq, Repr

/-- The status byte of a payload. -/
def BasicData.status : BasicData → Nat
  | BasicData.basic st _ => st
  | BasicData.prob st _ _ => st

/-- Lines 231-234 and 257-260: `getHardInsertResetData`. -/
def getHardInsertResetData (c : NodeConsts) : NodeKind → BasicData
  | NodeKind.basic => BasicData.basic (c.STATUS_OCCUPANCY_MASK ||| c.ns_PART) 0
  | NodeKind.prob => BasicData.prob (c.STATUS_OCCUPANCY_MASK ||| c.ns_PART) 0 0

/-- Lines 239-242 and 266-269: `getSoftInsertResetData`.  The overload for the basic kind
is commented "Still cut the sub-tree for the inersted voxel in deterministic case" and builds
the same value as the hard reset. -/
def getSoftInsertResetData (c : NodeConsts) : NodeKind → BasicData
  | NodeKind.basic => BasicData.basic (c.STATUS_OCCUPANCY_MASK ||| c.ns_PART) 0
  | NodeKind.prob => BasicData.prob c.STATUS_OCCUPANCY_MASK 0 0

/-- Lines 248-252 and 275-278: `getFreeBoxResetData`. -/
def getFreeBoxResetData (c : NodeConsts) : NodeKind → BasicData
  | NodeKind.basic => BasicData.basic (c.STATUS_OCCUPANCY_MASK ||| c.ns_PART) c.nf_UPDATE_SUBTREE
  | NodeKind.prob => BasicData.prob c.STATUS_OCCUPANCY_MASK c.nf_UPDATE_SUBTREE 0

/-- Lines 177-185: `getRebuildResetData`. -/
def getRebuildResetData (c : NodeConsts) : NodeKind → BasicData
  | NodeKind.basic => BasicData.basic 0xFF 0xFF
  | NodeKind.prob => BasicData.prob 0xFF 0xFF c.MIN_OCCUPANCY

/-- The members of an `InnerNode` that the host code reads and writes. -/
structure InnerNode where
  m_status : Nat
  m_occupancy : Int
  deriving DecidableEq, Repr

/-- Lines 135-145: `initRoot`, which sets the unknown bit of a basic node and the unknown
occupancy of a probabilistic node. -/
def initRoot (c : NodeConsts) : NodeKind → InnerNode → InnerNode
  | NodeKind.basic, n => { n with m_status := n.m_status ||| c.ns_UNKNOWN }
  | NodeKind.prob, n => { n with m_occupancy := c.UNKNOWN_OCCUPANCY }

/-! ## Host state and device memory -/

/-- The data members of the tree object that the functions below read or write. -/
structure NTreeState where
  numBlocks : Nat
  numThreadsPerBlock : Nat
  m_resolution : Nat
  allocInnerNodes : Nat
  allocLeafNodes : Nat
  m_extract_buffer_size : Nat
  m_rebuild_buffer_size : Nat
  m_max_memory_usage : Nat
  m_rebuild_counter : Nat
  m_has_data : Bool
  /-- The device pointer `m_root`. -/
  m_root : Nat
  /-- The vector `m_allocation_list` of device pointers. -/
  m_allocation_list : List Nat
  deriving DecidableEq, Repr

/-- The part of the device the host code acts on: blocks are named by handles, a new one
for every allocation. -/
structure Device where
  /-- The handle the next `cudaMalloc` returns. -/
  next : Nat
  /-- The handles given to `cudaFree`, in call order. -/
  freed : List Nat
  /-- The `InnerNode` values copied from the host to a block, latest first. -/
  copied : List (Nat × InnerNode)
  deriving DecidableEq, Repr

/-- A call of `cudaMalloc`: the new block and the device afterwards. -/
def cudaMalloc (d : Device) : Nat × Device := (d.next, { d with next := d.next + 1 })

/-- The loop `cudaFree(m_allocation_list[i])` over a whole list. -/
def cudaFreeAll (blocks : List Nat) (d : Device) : Device :=
  { d with freed := d.freed ++ blocks }

/-- The node the host last copied to a block. -/
def Device.nodeAt (d : Device) (block : Nat) : Option InnerNode :=
  (d.copied.find? (fun e => e.1 == block)).map (fun e => e.2)

/-- Lines 3249-3266: `clear`.  `default_node` is what `new InnerNode()` constructs. -/
def clear (c : NodeConsts) (kind : NodeKind) (default_node : InnerNode) (s : NTreeState)
    (d : Device) : NTreeState × Device :=
  -- lines 3252-3254
  let d := cudaFreeAll s.m_allocation_list d
  -- lines 3256-3258
  let r := initRoot c kind default_node
  let r := { r with m_status := r.m_status ||| c.ns_STATIC_MAP ||| c.ns_DYNAMIC_MAP }
  -- lines 3259-3261
  let a := cudaMalloc d
  let d := { a.2 with copied := (a.1, r) :: a.2.copied }
  -- lines 3264-3265
  ({ s with m_root := a.1, m_allocation_list := [a.1], allocInnerNodes := 1,
            allocLeafNodes := 0 }, d)

/-- Lines 349-358: the destructor, as far as the allocation list goes. -/
def destructor (s : NTreeState) (d : Device) : NTreeState × Device :=
  ({ s with m_allocation_list := [] }, cudaFreeAll s.m_allocation_list d)

/-! ## `getMemUsage` and `needsRebuild` (source lines 2896-2906) -/

/-- Lines 2896-2900: `getMemUsage`, computed in `std::size_t` (64 bits). -/
def getMemUsage (sizeofLeafNode sizeofInnerNode : Nat) (s : NTreeState) : Nat :=
  (s.allocLeafNodes * sizeofLeafNode + s.allocInnerNodes * sizeofInnerNode) % UINT64

/-- Lines 2902-2906: `needsRebuild`. -/
def needsRebuild (sizeofLeafNode sizeofInnerNode : Nat) (s : NTreeState) : Bool :=
  s.m_max_memory_usage != 0 &&
    decide (getMemUsage sizeofLeafNode sizeofInnerNode s ≥ s.m_max_memory_usage)

/-! ## The core `insertVoxel` (source lines 1927-2069) -/

/-- What the host code of the core `insertVoxel` sees of one call: the number of voxels and
the contents of `d_neededNodesPerLevel` (a vector of `(numBlocks + 1) * level_count` counts)
after `kernel_insert_countNeededNodes` has run. -/
structure InsertCounts where
  num_voxel : Nat
  d_neededNodesPerLevel : List Nat
  deriving DecidableEq, Repr

/-- An exclusive prefix sum that starts from `acc`. -/
def exclusiveScanFrom : Nat → List Nat → List Nat
  | _, [] => []
  | acc, x :: xs => acc :: exclusiveScanFrom (acc + x) xs

/-- Lines 1964-1965: `thrust::exclusive_scan` in place. -/
def exclusive_scan (xs : List Nat) : List Nat := exclusiveScanFrom 0 xs

/-- Line 1978: `nLeafNodes = neededNodesPerLevel_h[numBlocks]`. -/
def nLeafNodes (numBlocks : Nat) (k : InsertCounts) : Nat :=
  (exclusive_scan k.d_neededNodesPerLevel).getD numBlocks 0

/-- Line 1979: `nInnerNodes = neededNodesPerLevel_h.back() - nLeafNodes`. -/
def nInnerNodes (numBlocks : Nat) (k : InsertCounts) : Nat :=
  (exclusive_scan k.d_neededNodesPerLevel).getLast?.getD 0 - nLeafNodes numBlocks k

/-- The host side of the core `insertVoxel`: the early return of lines 1935-1936, the one
allocation of lines 1985-1991 and the counter updates of lines 2058-2061.  The type
`voxel_count` and the counters are declared in another header; their sums are taken without
wrap-around. -/
def insertVoxel (k : InsertCounts) (s : NTreeState) (d : Device) : NTreeState × Device :=
  if k.num_voxel = 0 then (s, d)
  else
    let a := cudaMalloc d
    ({ s with m_allocation_list := s.m_allocation_list ++ [a.1],
              allocLeafNodes := s.allocLeafNodes + nLeafNodes s.numBlocks k,
              allocInnerNodes := s.allocInnerNodes + nInnerNodes s.numBlocks k,
              m_has_data := true }, a.2)

/-- A run of calls of the core `insertVoxel`, in order. -/
def insertVoxelAll (ks : List InsertCounts) (s : NTreeState) (d : Device) :
    NTreeState × Device :=
  ks.foldl (fun sd k => insertVoxel k sd.1 sd.2) (s, d)

/-! ## The assertions of `packVoxel_Map` (source lines 1473-1522, 1657-1662) -/

/-- Lines 1521-1522: the weight `uint32_t(std::pow(branching_factor, l))` that
`packVoxel_Map` gives a record of level `l`; defined when the power fits 32 bits.  A power
below `2^32` is exactly a `double`; one that is not below `2^32` is not returned as a
`double` below `2^32` either, and its conversion has no defined value. -/
def packWeight (B l : Nat) : Option Nat := if B ^ l < UINT32 then some (B ^ l) else none

/-- How the packing loop of `packVoxel_Map` ends, as far as its two assertions go. -/
inductive PackOutcome where
  /-- The loop ended at level `l` with every assertion passed; `last_level_sum` is given. -/
  | finished (l : Nat) (last_level_sum : Nat)
  /-- The assertion of line 1520 failed in the iteration for level `l`. -/
  | assert1Failed (l : Nat)
  /-- The assertion of line 1522 failed in the iteration for level `l`. -/
  | assert2Failed (l : Nat)
  /-- A weight `uint32_t(std::pow(branching_factor, ..))` does not fit 32 bits. -/
  | undefinedWeight (l : Nat)
  deriving DecidableEq, Repr

/-- The loop of lines 1481-1662 with its assertions, for `branching_factor = B`,
`num_free_voxel = N` and the minimum level `min_level`.  `counts l` are the two sums
`thrust::reduce` returns at lines 1508-1510 in the iteration for level `l` (records of this
level, cells passed on to the next level).  The arguments after `fuel` are the loop
variables `l`, `num_last_level`, `last_level_sum` and `num_next_level`; `fuel` is the number
of levels left below `level_count`.  The type `voxel_count` is declared in another header
and taken as 32 bits wide: the sum of line 1520 is computed in `size_t` (the type of
`branching_factor`), the sums and products of lines 1521-1522 in `uint32_t`. -/
def packLoop (B N min_level : Nat) (PACKING_OF_VOXEL : Bool) (counts : Nat → Nat × Nat) :
    Nat → Nat → Nat → Nat → Nat → PackOutcome
  | 0, l, _, last_level_sum, _ => PackOutcome.finished l last_level_sum
  | fuel + 1, l, num_last_level, last_level_sum, num_next_level =>
    if num_next_level = 0 then PackOutcome.finished l last_level_sum
    else
      -- lines 1508-1510
      let num_this_level := if min_level > l then 0 else (counts l).1 % UINT32
      let num_next_level := (counts l).2 % UINT32
      -- line 1520
      if num_last_level ≠ num_this_level + num_next_level * B then PackOutcome.assert1Failed l
      else
        match packWeight B l, packWeight B (l + 1) with
        | some w, some w1 =>
          -- line 1521
          let last_level_sum := (last_level_sum + num_this_level * w % UINT32) % UINT32
          -- line 1522
          if (last_level_sum + num_next_level * w1 % UINT32) % UINT32 ≠ N % UINT32 then
            PackOutcome.assert2Failed l
          else if PACKING_OF_VOXEL then
            -- line 1657
            packLoop B N min_level PACKING_OF_VOXEL counts fuel (l + 1) num_next_level
              last_level_sum num_next_level
          -- lines 1661-1662
          else PackOutcome.finished l last_level_sum
        | _, _ => PackOutcome.undefinedWeight l

/-- The function `packVoxel_Map` as far as its assertions go: the loop started at the level
`l0 = map_properties.level` with `num_last_level = num_free_voxel`, `last_level_sum = 0` and
`num_next_level = 1` (lines 1473-1480). -/
def packVoxel_Map (B level_count N min_level l0 : Nat) (PACKING_OF_VOXEL : Bool)
    (counts : Nat → Nat × Nat) : PackOutcome :=
  packLoop B N min_level PACKING_OF_VOXEL counts (level_count - l0) l0 (N % UINT32) 0 1

/-! ## `free_bounding_box` (source lines 2988-3113) -/

/-- What the host code of `free_bounding_box` reads back before it inserts: the number of
levels added to `level = 1` at lines 3053-3060, the size `map_properties.size_v` of the map
handed to `packVoxel_Map`, the constant `PACKING_OF_VOXEL`, and the sums `thrust::reduce`
returns inside `packVoxel_Map`. -/
structure FreeBoxPacking where
  extra_levels : Nat
  size_v : Nat
  PACKING_OF_VOXEL : Bool
  packCounts : Nat → Nat × Nat

/-- The function `free_bounding_box` on the host state: the call
`packVoxel_Map(map_properties, h_packed_levels, map_properties.size_v, level)` of line 3088,
whose failed assertion ends the process (`none`), and then the calls of the core
`insertVoxel` for the levels `level_count - 1` down to `0` (lines 3097-3107); `boxCounts l`
is what the call for level `l` sees.  The map starts at the level it is constructed with,
`level`, which is `1` plus the levels added.  The temporary device buffers never enter the
allocation list and are left out. -/
def free_bounding_box (B L : Nat) (packing : FreeBoxPacking) (boxCounts : Nat → InsertCounts)
    (s : NTreeState) (d : Device) : Option (NTreeState × Device) :=
  match packVoxel_Map B L packing.size_v (1 + packing.extra_levels)
      (1 + packing.extra_levels) packing.PACKING_OF_VOXEL packing.packCounts with
  | PackOutcome.finished _ _ =>
    some (insertVoxelAll ((List.range L).reverse.map boxCounts) s d)
  | _ => none

/-! ## The level loop of `build` (source lines 523-666) -/

/-- What the host code of `build` reads back from the kernels of one level, as functions of
the level and of the first `num_points` ids of the current stream. -/
structure BuildKernels where
  /-- The `numNodes = nodeCount[lastThread]` of line 571, after `kernel_countNodes` and the
  inclusive scan. -/
  countNodes : Nat → List Nat → Nat
  /-- The vector `nodeIds` after `kernel_setNodes`. -/
  setNodes : Nat → List Nat → List Nat

/-- The variables the level loop of `build` carries from one level to the next. -/
structure BuildLoopState where
  /-- The first `num_points` ids of `d_voxels`. -/
  d_voxels : List Nat
  tree : NTreeState
  device : Device
  /-- The pointer `childNodes`. -/
  childNodes : Nat
  /-- The `numNodes` of the levels done, lowest level first. -/
  numNodes : List Nat
  deriving DecidableEq, Repr

/-- One iteration of the loop of lines 523-636. -/
def buildLevel (B : Nat) (k : BuildKernels) (st : BuildLoopState) (level : Nat) :
    BuildLoopState :=
  -- line 571
  let numNodes := k.countNodes level st.d_voxels
  -- lines 572-576
  let a := cudaMalloc st.device
  let tree := { st.tree with m_allocation_list := st.tree.m_allocation_list ++ [a.1] }
  -- lines 583-603
  let tree :=
    if level = 0 then { tree with allocLeafNodes := tree.allocLeafNodes + B * numNodes }
    else { tree with allocInnerNodes := tree.allocInnerNodes + B * numNodes }
  -- lines 631-633
  { d_voxels := (k.setNodes level st.d_voxels).take numNodes, tree := tree, device := a.2,
    childNodes := a.1, numNodes := st.numNodes ++ [numNodes] }

/-- Lines 398-399 and the loop of lines 523-636: the counters are reset and the levels
`0 .. level_count - 1` are built in turn from the sorted ids. -/
def buildLoop (B L : Nat) (k : BuildKernels) (d_voxels : List Nat) (s : NTreeState)
    (d : Device) : BuildLoopState :=
  (List.range L).foldl (buildLevel B k)
    { d_voxels := sortVoxels d_voxels,
      tree := { s with allocInnerNodes := 0, allocLeafNodes := 0 },
      device := d, childNodes := 0, numNodes := [] }

/-- What a call of `build` that returns leaves behind. -/
structure BuildOutcome where
  tree : NTreeState
  device : Device
  /-- The `numNodes` of every level, lowest level first. -/
  numNodes : List Nat
  deriving DecidableEq, Repr

/-- The function `build` on the Morton ids of the points, for `branching_factor = B` and
`level_count = L`: `none` when the range check does not pass (or has no defined outcome) and
when an assertion of `packVoxel_Map` fails inside `free_bounding_box`.
`rootRead` is the root node as the kernels left it (read back at line 639);
`withFreeBox` is the flag `free_bounding_box`, and `packing` and `boxCounts` are what the
function `free_bounding_box` reads back when the flag is set. -/
def build (roundUp : Nat → Nat → Bool) (B L : Nat) (k : BuildKernels) (c : NodeConsts)
    (kind : NodeKind) (rootRead : InnerNode) (withFreeBox : Bool) (packing : FreeBoxPacking)
    (boxCounts : Nat → InsertCounts) (d_voxels : List Nat) (s : NTreeState) (d : Device) :
    Option BuildOutcome :=
  match buildRangeCheck roundUp B L d_voxels with
  | some (BuildCheck.pass _) =>
    -- lines 398-399 and 523-636
    let st := buildLoop B L k d_voxels s d
    -- lines 637-643
    let r := initRoot c kind rootRead
    let r := { r with m_status := r.m_status ||| c.ns_STATIC_MAP }
    let tree := { st.tree with m_root := st.childNodes }
    let device := { st.device with copied := (st.childNodes, r) :: st.device.copied }
    -- lines 646-647
    let boxed :=
      if withFreeBox then free_bounding_box B L packing boxCounts tree device
      else some (tree, device)
    -- line 657
    boxed.map (fun b =>
      { tree := { b.1 with m_has_data := true }, device := b.2, numNodes := st.numNodes })
  | _ => none

/-- The ids with every run of equal neighbours reduced to one. -/
def groupHeads : List Nat → List Nat
  | [] => []
  | [a] => [a]
  | a :: b :: rest => if a = b then groupHeads (b :: rest) else a :: groupHeads (b :: rest)

/-- Modelled from the spec: `kernel_countNodes` and `kernel_setNodes`, defined in another
header.  Section 4.2 of the spec: at each level the kernels count "how many ancestor-groups
of ids are needed at this level", one node group is allocated for each, and the id stream is
replaced "with the sequence of parent ids (right-shift by log₂B)" with
`num_points = new node count`.  A group is a run of ids of the sorted stream with the same
parent id `id / B`. -/
def specKernels (B : Nat) : BuildKernels :=
  { countNodes := fun _ stream => (groupHeads (stream.map (fun v => v / B))).length,
    setNodes := fun _ stream => groupHeads (stream.map (fun v => v / B)) }

/-! ## `propagate_bottom_up` (source lines 2439-2474) -/

/-- What a call of `propagate_bottom_up` did to a device tree of any representation. -/
structure PropagateOutcome (Tree : Type) where
  /-- The tree afterwards. -/
  tree : Tree
  /-- The levels for which a kernel was launched. -/
  launched : List Nat
  /-- The levels for which the loop body ran (it calls `cudaDeviceSynchronize` only). -/
  visited : List Nat

/-- Lines 2442-2474: `propagate_bottom_up(d_voxel_id, num_voxel, level)`.  The launch of
`kernel_propagate_bottom_up` at lines 2461-2463 is commented out, so the body of the loop
over `l = level .. level_count - 2` synchronises and logs but starts no kernel and the tree
is not touched. -/
def propagate_bottom_up {Tree : Type} (level_count : Nat) (tree : Tree)
    (_d_voxel_id : List Nat) (num_voxel level : Nat) : PropagateOutcome Tree :=
  if num_voxel = 0 then { tree := tree, launched := [], visited := [] }
  else { tree := tree, launched := [],
         visited := List.range' level (level_count - 1 - level) }

/-- A tree of one inner node and its children, with their status bytes: enough to state
whether an aggregate is the union of the children. -/
structure OneLevelTree where
  parent_status : Nat
  child_status : List Nat
  deriving DecidableEq, Repr

/-- Whether the parent's status is the bitwise union of the statuses of its children. -/
def OneLevelTree.aggregated (t : OneLevelTree) : Bool :=
  t.parent_status == t.child_status.foldl (fun a b => a ||| b) 0

/-! ## `internal_rebuild` (source lines 2637-2782) -/

/-- The functors `internal_rebuild` applies to a record; they are declared in other
headers. -/
structure RecordAccess where
  /-- The level `Comp_has_level(l)` compares with `l`. -/
  level : NodeData → Nat
  /-- The functor `Trafo_NodeData_to_VoxelID`. -/
  voxelId : NodeData → Nat
  /-- The functor `Trafo_to_BasicData`. -/
  basicData : NodeData → BasicData

/-- The arguments of one call of the core `insertVoxel` made by `internal_rebuild`. -/
structure InsertVoxelCall where
  d_voxel_vector : List Nat
  d_set_basic_data : List BasicData
  reset_data : BasicData
  target_level : Nat
  deriving DecidableEq, Repr

/-- Line 2705: `thrust::sort_by_key` on the ids with the payloads as values. -/
def sortByKey (kv : List (Nat × BasicData)) : List (Nat × BasicData) :=
  kv.insertionSort (fun a b => a.1 ≤ b.1)

/-- Lines 2678-2705 for one level `l`: the records of the first `num_cubes` with that level
(`thrust::copy_if`), turned into ids and payloads and sorted by id. -/
def rebuildLevelList (acc : RecordAccess) (d_node_data : List NodeData) (num_cubes l : Nat) :
    List (Nat × BasicData) :=
  sortByKey (((d_node_data.take num_cubes).filter (fun r => acc.level r == l)).map
    (fun r => (acc.voxelId r, acc.basicData r)))

/-- The calls of `insertVoxel` made by the loop of lines 2725-2741, in order: one for each
`l` with `l < level_count - 1`, on the list the loop of lines 2675-2708 built for `l`. -/
def internalRebuildCalls (level_count : Nat) (c : NodeConsts) (kind : NodeKind)
    (acc : RecordAccess) (d_node_data : List NodeData) (num_cubes : Nat) :
    List InsertVoxelCall :=
  (List.range (level_count - 1)).map (fun l =>
    { d_voxel_vector := (rebuildLevelList acc d_node_data num_cubes l).map (fun e => e.1),
      d_set_basic_data := (rebuildLevelList acc d_node_data num_cubes l).map (fun e => e.2),
      reset_data := getRebuildResetData c kind,
      target_level := l })

/-- The triples (id, level, payload) a call hands to `insertVoxel`. -/
def InsertVoxelCall.triples (call : InsertVoxelCall) : List (Nat × Nat × BasicData) :=
  (call.d_voxel_vector.zip call.d_set_basic_data).map (fun e => (e.1, call.target_level, e.2))

/-- The triple (id, level, payload) of an extracted record. -/
def RecordAccess.triple (acc : RecordAccess) (r : NodeData) : Nat × Nat × BasicData :=
  (acc.voxelId r, acc.level r, acc.basicData r)

/-- The host state after `internal_rebuild`: the counter of line 2651, `clear` at line 2722
and the calls of `insertVoxel`; `counts l` is what the call for level `l` reads back from its
counting kernel.  The propagate calls of lines 2738-2763 act on the device tree only. -/
def internal_rebuild (level_count : Nat) (c : NodeConsts) (kind : NodeKind)
    (default_node : InnerNode) (acc : RecordAccess) (counts : Nat → List Nat)
    (d_node_data : List NodeData) (num_cubes : Nat) (s : NTreeState) (d : Device) :
    NTreeState × Device :=
  let s := { s with m_rebuild_counter := s.m_rebuild_counter + 1 }
  let cleared := clear c kind default_node s d
  insertVoxelAll
    ((internalRebuildCalls level_count c kind acc d_node_data num_cubes).map (fun call =>
      { num_voxel := call.d_voxel_vector.length,
        d_neededNodesPerLevel := counts call.target_level }))
    cleared.1 cleared.2

/-! ## `init_const_memory` (source lines 2956-2966) -/

/-- The conversion `VoxelID(x)` of a floating-point value that is a whole number: defined
when the value fits 64 bits. -/
def toVoxelID (x : Nat) : Option Nat := if x < UINT64 then some x else none

/-- Lines 2959-2965: the table copied to `const_voxel_at_level`, with
`temp[i] = VoxelID(pow(branching_factor, i))` for `i` below `const_voxel_at_level_size`.
As in `build`, `pow` is the floating-point power `powDouble`. -/
def const_voxel_at_level (roundUp : Nat → Nat → Bool) (B const_voxel_at_level_size : Nat) :
    List (Option Nat) :=
  (List.range const_voxel_at_level_size).map (fun i => toVoxelID (powDouble roundUp B i))


/-! ## Sample values for concrete runs -/

/-- A sample record layout, used to run `internal_rebuild` on concrete input: byte 0 of a
record is its level, byte 1 its id and byte 2 the status of a basic payload. -/
def sampleRecordAccess : RecordAccess :=
  { level := fun r => r.getD 0 0,
    voxelId := fun r => r.getD 1 0,
    basicData := fun r => BasicData.basic (r.getD 2 0) 0 }

/-- Sample values for the node constants, used to run the functions on concrete input. -/
def sampleNodeConsts : NodeConsts :=
  { ns_UNKNOWN := 2, ns_PART := 8, ns_STATIC_MAP := 64, ns_DYNAMIC_MAP := 128,
    STATUS_OCCUPANCY_MASK := 7, nf_UPDATE_SUBTREE := 1, UNKNOWN_OCCUPANCY := 0,
    MIN_OCCUPANCY := -127, MAX_OCCUPANCY := 127 }

/-- A sample host state, used to run the functions on concrete input. -/
def sampleState : NTreeState :=
  { numBlocks := 2, numThreadsPerBlock := 32, m_resolution := 10, allocInnerNodes := 1,
    allocLeafNodes := 0, m_extract_buffer_size := 1024, m_rebuild_buffer_size := 1024,
    m_max_memory_usage := 4096, m_rebuild_counter := 0, m_has_data := false, m_root := 0,
    m_allocation_list := [0] }

/-- A sample device on which block `0` is the only allocation so far. -/
def sampleDevice : Device := { next := 1, freed := [], copied := [] }

/-! ## The constructor (source lines 284-347) -/

/-- Lines 289-309 of the constructor: the members it sets and the root it allocates.
`INITIAL_EXTRACT` and `INITIAL_REBUILD` are the constants `INITIAL_EXTRACT_BUFFER_SIZE` and
`INITIAL_REBUILD_BUFFER_SIZE`, `default_node` is what `new InnerNode()` constructs.  The
status mapping of lines 311-334 is `statusMapping`. -/
def constructor (INITIAL_EXTRACT INITIAL_REBUILD : Nat) (c : NodeConsts) (kind : NodeKind)
    (default_node : InnerNode) (numBlocks numThreadsPerBlock resolution : Nat) (d : Device) :
    NTreeState × Device :=
  -- lines 301-303
  let r := initRoot c kind default_node
  let r := { r with m_status := r.m_status ||| c.ns_STATIC_MAP ||| c.ns_DYNAMIC_MAP }
  -- lines 304-308
  let a := cudaMalloc d
  let d := { a.2 with copied := (a.1, r) :: a.2.copied }
  -- lines 289-299
  ({ numBlocks := numBlocks, numThreadsPerBlock := numThreadsPerBlock,
     m_resolution := resolution, allocInnerNodes := 0, allocLeafNodes := 0,
     m_extract_buffer_size := INITIAL_EXTRACT, m_rebuild_buffer_size := INITIAL_REBUILD,
     m_max_memory_usage := 200 * 1024 * 1014, m_rebuild_counter := 0, m_has_data := false,
     m_root := a.1, m_allocation_list := [a.1] }, d)

/-! ## The split level of the dual-tree `intersect` (source lines 926-1000) -/

/-- Subtraction in `unsigned long long`, which wraps around. -/
def usub64 (a b : Nat) : Nat := (a % UINT64 + UINT64 - b % UINT64) % UINT64

/-- Lines 932-933 and 939: the worker count `numBlocks * numThreadsPerBlock`, a product of
two `uint32_t` locals. -/
def workerCount (numBlocks numThreadsPerBlock : Nat) : Nat :=
  numBlocks * numThreadsPerBlock % UINT32

/-- Whether the truncated quotient of line 939 is the same however the floating-point
operations round.  With `k` the integer logarithm of `W` to base `B`, the exact quotient
`log W / log B` lies between `k` and `k + 1`; for `9/8 * B^k ≤ W ≤ 7/8 * B^(k+1)` it is more
than `0.005` away from both for every `B < 2^32`, far more than the conversions to `float`,
the two logarithms and the division can be off for `W < 2^32`.  For `W = 1` the quotient is
`0` exactly. -/
def llogRobust (B W : Nat) : Bool :=
  decide (2 ≤ B ∧ B < UINT32 ∧ 1 ≤ W ∧ W < UINT32) &&
    (W == 1 ||
      decide (9 * B ^ Nat.log B W ≤ 8 * W ∧ 8 * W ≤ 7 * B ^ (Nat.log B W + 1)))

/-- Line 939: `llog = (VoxelID) (log(float(W)) / log(float(branching_factor)))` for the
worker count `W`: the quotient of two floating-point logarithms, truncated.  Where rounding
cannot change it (`llogRobust`) it is the integer logarithm of `W` to base `B`; elsewhere,
close to a power of `B`, the result depends on how the library rounds and is the input
`rounded`. -/
def llog (rounded : Nat) (B W : Nat) : Nat :=
  if llogRobust B W then Nat.log B W else rounded

/-- Lines 940-941: `splitLevel = level_count - 1 - min(llog, level_count - 2)`, computed in
`unsigned long long` and stored in a `uint32_t`, for the value `llog` of line 939. -/
def splitLevel (llog L : Nat) : Nat :=
  usub64 (usub64 L 1) (min (llog % UINT64) (usub64 L 2)) % UINT32

/-- Lines 954-955 (`DEFAULT`): the number of entries of the traversal stack,
`numBlocks * numThreadsPerBlock * splitLevel * branching_factor`: the first two products
are taken in `uint32_t` (the locals of lines 932-933 and 940), the last in `std::size_t`
(the type of `branching_factor`). -/
def intersectStackSize (B numBlocks numThreadsPerBlock splitLevel : Nat) : Nat :=
  workerCount numBlocks numThreadsPerBlock * splitLevel % UINT32 * B % UINT64

/-! ## The scan range of `build` (source lines 516-571) -/

/-- The ceiling of `a / b`, as `ceil(double(a) / b)` gives it in exact arithmetic. -/
def ceilDiv (a b : Nat) : Nat := (a + b - 1) / b

/-- Lines 539-540: `ceil(double(num_points) / ceil(double(num_points) / T))`, the value
`lastThread + 1`, for `T = numBlocks * num_threads_per_block`, in exact arithmetic. -/
def usedThreads (num_points T : Nat) : Nat := ceilDiv num_points (ceilDiv num_points T)

/-- Lines 539-540: `lastThread`, the value above minus one, stored in a `uint32_t`. -/
def lastThread (num_points T : Nat) : Nat := (usedThreads num_points T - 1) % UINT32

/-! ## The block the core `insertVoxel` allocates (source lines 1976-2003) -/

/-- Line 1986: `leafLevel_size = size_t(nLeafNodes) * sizeof(LeafNode)`. -/
def leafLevel_size (nLeaf sizeofLeafNode : Nat) : Nat := nLeaf * sizeofLeafNode % UINT64

/-- Lines 1987-1988: `off = leafLevel_size % 128` and
`alignment = (off == 0) ? 0 : 128 - off`. -/
def alignment (nLeaf sizeofLeafNode : Nat) : Nat :=
  if leafLevel_size nLeaf sizeofLeafNode % 128 = 0 then 0
  else 128 - leafLevel_size nLeaf sizeofLeafNode % 128

/-- Line 1989: `nSize = leafLevel_size + alignment + size_t(nInnerNodes) * sizeof(InnerNode)`,
the size handed to `cudaMalloc`. -/
def nSize (nLeaf nInner sizeofLeafNode sizeofInnerNode : Nat) : Nat :=
  (leafLevel_size nLeaf sizeofLeafNode + alignment nLeaf sizeofLeafNode +
    nInner * sizeofInnerNode) % UINT64

/-- Lines 2001-2003: the byte offsets in the block at which the leaf nodes and the inner
nodes start (`leafNodes = d_newNodes`,
`innerNodes = d_newNodes + leafLevel_size + alignment`). -/
def leafNodesOffset : Nat := 0

/-- The byte offset of `innerNodes` in the block. -/
def innerNodesOffset (nLeaf sizeofLeafNode : Nat) : Nat :=
  leafLevel_size nLeaf sizeofLeafNode + alignment nLeaf sizeofLeafNode

/-! ## Calls of the core `insertVoxel` with their arguments -/

/-- The core `insertVoxel` with all of its arguments: the ids, the payloads to set, the reset
payload and the target level of `call`, and `num_voxel`.  `countKernel` is what
`kernel_insert_countNeededNodes` leaves in `d_neededNodesPerLevel` for these arguments. -/
def insertVoxelCall (countKernel : InsertVoxelCall → Nat → List Nat) (call : InsertVoxelCall)
    (num_voxel : Nat) (s : NTreeState) (d : Device) : NTreeState × Device :=
  insertVoxel { num_voxel := num_voxel, d_neededNodesPerLevel := countKernel call num_voxel }
    s d

/-! ## `rebuild` and `deserialize` on the host state -/

/-- The function `rebuild` (source lines 2784-2893): the counter of line 2793, the
extraction of lines 2809-2886 and the call of `internal_rebuild` at line 2892; `none` when
the extraction ends in `exit(0)`.  `d_node_data` is the buffer as the last fill pass left
it. -/
def rebuild (INITIAL : Nat) (COUNT_BEFORE_EXTRACT : Bool) (lb : LoadBalancer)
    (level_count : Nat) (c : NodeConsts) (kind : NodeKind) (default_node : InnerNode)
    (acc : RecordAccess) (counts : Nat → List Nat) (d_node_data : List NodeData)
    (s : NTreeState) (d : Device) : Option (NTreeState × Device) :=
  -- lines 2793-2794
  let s := { s with m_rebuild_counter := s.m_rebuild_counter + 1 }
  -- lines 2809-2886
  let e := rebuildExtract INITIAL COUNT_BEFORE_EXTRACT lb s.m_rebuild_buffer_size
  match e.num_cubes with
  | none => none
  | some num_cubes =>
    -- line 2892
    some (internal_rebuild level_count c kind default_node acc counts d_node_data num_cubes
      { s with m_rebuild_buffer_size := e.m_rebuild_buffer_size } d)

/-- The function `deserialize` on the host state: the members assigned at lines 3241-3243
and the call of `internal_rebuild` at line 3244, with the value returned; `none` when a
header variable is used without having been written. -/
def deserializeTree (bin_mode : Bool) (sizeofNodeData : Nat)
    (scanNodeData : NodeData → IStream → NodeData × IStream) (default_record : NodeData)
    (level_count : Nat) (c : NodeConsts) (kind : NodeKind) (default_node : InnerNode)
    (acc : RecordAccess) (counts : Nat → List Nat) (input : IStream)
    (s : NTreeState) (d : Device) : Option ((NTreeState × Device) × Bool) :=
  match deserialize bin_mode sizeofNodeData scanNodeData default_record input with
  | none => none
  | some o =>
    some (internal_rebuild level_count c kind default_node acc counts o.rebuild_data
      o.rebuild_num_cubes
      { s with numBlocks := o.config.numBlocks,
               numThreadsPerBlock := o.config.numThreadsPerBlock,
               m_resolution := o.config.m_resolution } d, o.returned)

/-! ## The sensor-update `insertVoxel` (source lines 2143-2419) -/

/-- The value `uint32_t(log2(float(x)))`: the binary logarithm truncated, taken at its exact
value.  For `x = 0` the source value is undefined; the result `0` given here makes the
assertions below fail. -/
def log2u (x : Nat) : Nat := Nat.log 2 x

/-- Lines 2156-2163: the four assertions on the two resolutions.  A zero `m_resolution`
makes the remainder undefined, which counts as not passing. -/
def sensorAsserts (m_resolution free_space_resolution object_resolution : Nat) : Bool :=
  m_resolution != 0 &&
  free_space_resolution % m_resolution == 0 &&
  2 ^ log2u (free_space_resolution / m_resolution) % UINT32 ==
    free_space_resolution / m_resolution &&
  object_resolution % m_resolution == 0 &&
  2 ^ log2u (object_resolution / m_resolution) % UINT32 == object_resolution / m_resolution

/-- The calls of the core `insertVoxel` made by the sensor-update `insertVoxel`, in order,
each with its `num_voxel`; `none` when an assertion of lines 2156-2163 fails.
`packed l` are the records `h_packed_levels[l]` holds after `computeFreeSpaceViaRayCast`
(which runs when `has_free_space`, that is `d_free_space_voxel.size() > 0`), `object` the ids
and payloads `kernel_split_voxel_vector` and `getBasicData` produce for the object voxels,
and `trafoVoxelID scale` the functor `Trafo_VoxelID(scale)`; all of these are defined in
other headers or computed by kernels. -/
def sensorInsertCalls (level_count : Nat) (c : NodeConsts) (kind : NodeKind)
    (trafoVoxelID : Nat → Nat → Nat)
    (m_resolution free_space_resolution object_resolution : Nat) (has_free_space : Bool)
    (packed : Nat → List (Nat × BasicData)) (object : List (Nat × BasicData)) :
    Option (List (InsertVoxelCall × Nat)) :=
  if sensorAsserts m_resolution free_space_resolution object_resolution then
    -- line 2195
    let free_space_scale := free_space_resolution / m_resolution
    -- line 2231
    let free_space_min_level := log2u free_space_scale
    -- lines 2234-2264
    let free_calls := (List.range level_count).map (fun l =>
      let records := if has_free_space then packed l else []
      let ids :=
        if records.length ≠ 0 ∧ free_space_scale ≠ 1 then
          records.map (fun e => trafoVoxelID free_space_scale e.1)
        else records.map (fun e => e.1)
      (({ d_voxel_vector := ids, d_set_basic_data := records.map (fun e => e.2),
          reset_data := getSoftInsertResetData c kind,
          target_level := free_space_min_level + l } : InsertVoxelCall), records.length))
    -- lines 2304-2337
    let object_scale := object_resolution / m_resolution
    let object_ids :=
      if object_scale ≠ 1 then object.map (fun e => trafoVoxelID object_scale e.1)
      else object.map (fun e => e.1)
    some (free_calls ++
      [(({ d_voxel_vector := object_ids, d_set_basic_data := object.map (fun e => e.2),
           reset_data := getHardInsertResetData c kind,
           target_level := log2u object_scale } : InsertVoxelCall), object.length)])
  else none

/-! ## Theorems -/

theorem sortVoxels_perm (ids : List Nat) : (sortVoxels ids).Perm ids :=
  List.perm_insertionSort _ ids

theorem sortVoxels_sorted (ids : List Nat) : (sortVoxels ids).Sorted (fun a b => a ≤ b) :=
  List.sorted_insertionSort _ ids

/-- The last element of the sorted ids is the largest id of the input. -/
theorem sortVoxels_getLast (ids : List Nat) (m : Nat) (hm : m ∈ ids)
    (hmax : ∀ x ∈ ids, x ≤ m) : (sortVoxels ids).getLast? = some m := by
  have hperm := sortVoxels_perm ids
  have hsorted := sortVoxels_sorted ids
  have hm' : m ∈ sortVoxels ids := hperm.mem_iff.mpr hm
  cases hlast : (sortVoxels ids).getLast? with
  | none =>
    rw [List.getLast?_eq_none_iff] at hlast
    rw [hlast] at hm'
    exact absurd hm' (List.not_mem_nil m)
  | some b =>
    obtain ⟨ys, hys⟩ := List.getLast?_eq_some_iff.mp hlast
    have hb : b ∈ ids := hperm.mem_iff.mp (by rw [hys]; simp)
    have h1 : b ≤ m := hmax b hb
    have h2 : m ≤ b := by
      rw [hys] at hm' hsorted
      rcases List.mem_append.mp hm' with h | h
      · exact (List.pairwise_append.mp hsorted).2.2 m h b (by simp)
      · simp at h
        omega
    have : b = m := Nat.le_antisymm h1 h2
    rw [this]

/-! ### The floating-point power -/

theorem doubleBelow_le (x : Nat) : doubleBelow x ≤ x := Nat.div_mul_le_self x _

theorem lt_doubleAbove (x : Nat) : x < doubleAbove x := by
  unfold doubleAbove doubleBelow
  exact Nat.lt_div_mul_add (pow_pos (by decide) _)

theorem bitLengthAux_le (fuel x k : Nat) (h : x < 2 ^ k) : bitLengthAux fuel x ≤ k := by
  induction fuel generalizing x k with
  | zero => simp [bitLengthAux]
  | succ fuel ih =>
    rw [bitLengthAux]
    split_ifs with h0
    · omega
    · cases k with
      | zero => simp at h; omega
      | succ k =>
        have : x / 2 < 2 ^ k := by
          rw [Nat.div_lt_iff_lt_mul (by decide)]
          rw [pow_succ] at h
          exact h
        have := ih (x / 2) k this
        omega

/-- Every whole number below `2^53` is exactly a `double`. -/
theorem isDouble_of_lt (x : Nat) (h : x < 2 ^ 53) : isDouble x = true := by
  have h0 : doubleShift x = 0 := by
    unfold doubleShift
    have := bitLengthAux_le x x 53 h
    omega
  simp [isDouble, doubleBelow, h0]

theorem bitLengthAux_two_pow (fuel k : Nat) (h : k < fuel) :
    bitLengthAux fuel (2 ^ k) = k + 1 := by
  induction fuel generalizing k with
  | zero => omega
  | succ fuel ih =>
    rw [bitLengthAux, if_neg (by positivity)]
    cases k with
    | zero => cases fuel <;> simp [bitLengthAux]
    | succ k =>
      have : 2 ^ (k + 1) / 2 = 2 ^ k := by
        rw [pow_succ, Nat.mul_div_cancel _ (by decide)]
      rw [this, ih k (by omega)]

/-- Every power of two is exactly a `double`. -/
theorem isDouble_two_pow (k : Nat) : isDouble (2 ^ k) = true := by
  have hs : doubleShift (2 ^ k) ≤ k := by
    unfold doubleShift
    rw [bitLengthAux_two_pow (2 ^ k) k (Nat.lt_two_pow k)]
    omega
  have : 2 ^ k / 2 ^ doubleShift (2 ^ k) * 2 ^ doubleShift (2 ^ k) = 2 ^ k :=
    Nat.div_mul_cancel (pow_dvd_pow 2 hs)
  simp [isDouble, doubleBelow, this]

/-- The floating-point power is the exact power when that is a `double`; otherwise it lies
strictly above or strictly below it, as the library rounds. -/
theorem powDouble_cases (roundUp : Nat → Nat → Bool) (b e : Nat) :
    (isDouble (b ^ e) = true → powDouble roundUp b e = b ^ e) ∧
    (isDouble (b ^ e) = false → roundUp b e = true → b ^ e < powDouble roundUp b e) ∧
    (isDouble (b ^ e) = false → roundUp b e = false → powDouble roundUp b e < b ^ e) := by
  refine ⟨fun h => by simp [powDouble, h], fun h hr => ?_, fun h hr => ?_⟩
  · simp only [powDouble, h, hr, Bool.false_eq_true, if_false, if_true]
    exact lt_doubleAbove _
  · simp only [powDouble, h, hr, Bool.false_eq_true, if_false]
    have hne : doubleBelow (b ^ e) ≠ b ^ e := by
      intro heq
      simp [isDouble, heq] at h
    have := doubleBelow_le (b ^ e)
    omega

theorem extractFillArgs_count_mode (ds : Bool) (ml n : Nat) :
    (extractFillArgs ds ml n).count_mode = false := rfl

theorem extractCountArgs_count_mode (ds : Bool) (ml : Nat) :
    (extractCountArgs ds ml).count_mode = true := rfl

/-- Without wrap-around the shrink test of line 2621 is false right after a grow. -/
theorem shrinkBuffer_after_grow (INITIAL u : Nat) (hu : u * 5 < UINT32) :
    shrinkBuffer INITIAL u (u * 5 / 4) = u * 5 / 4 := by
  unfold shrinkBuffer
  have : 4 * u % UINT32 = 4 * u := Nat.mod_eq_of_lt (by omega)
  rw [this, if_neg (by omega)]

/-- C2: `extractCubes` runs at most two fill passes.  With `needed` the size of the first
buffer, `u1` the count the first fill pass reports and `u2` the count a pass on the resized
buffer reports: if `u1` fits, exactly one fill pass runs; otherwise the buffer is resized to
`u1`, `m_extract_buffer_size` is assigned `u1*5/4` (in `uint32_t`) and exactly one more fill
pass runs; the process exits exactly when `u1` overflowed and `u2` overflows the resized
buffer. -/
theorem extractCubes_retry_protocol (INITIAL : Nat) (cbe : Bool) (lb : LoadBalancer)
    (ds : Bool) (ml m needed u1 u2 : Nat) (o : ExtractCubesOutcome)
    (hneeded : needed = if cbe then lb (extractCountArgs ds ml) % UINT32 else m)
    (hu1 : u1 = lb (extractFillArgs ds ml needed) % UINT32)
    (hu2 : u2 = lb (extractFillArgs ds ml u1) % UINT32)
    (ho : o = extractCubes INITIAL cbe lb ds ml m) :
    (fillPasses o.runs).length ≤ 2 ∧
    (u1 ≤ needed →
      fillPasses o.runs = [{ args := extractFillArgs ds ml needed, m_num_elements := u1 }] ∧
      o.exited = false ∧ o.grown = none) ∧
    (needed < u1 →
      fillPasses o.runs = [{ args := extractFillArgs ds ml needed, m_num_elements := u1 },
                           { args := extractFillArgs ds ml u1, m_num_elements := u2 }] ∧
      o.d_node_data_size = u1 ∧
      o.grown = some (u1 * 5 % UINT32 / 4) ∧
      (u1 * 5 < UINT32 → o.m_extract_buffer_size = u1 * 5 / 4)) ∧
    (o.exited = true ↔ needed < u1 ∧ u1 < u2) := by
  subst ho
  cases cbe <;> simp only [Bool.false_eq_true, if_false, if_true] at hneeded <;>
    subst hneeded <;> subst hu1 <;> subst hu2 <;>
    simp only [extractCubes, runPass, fillPasses, Bool.false_eq_true, if_false, if_true] <;>
    split_ifs <;>
    simp_all [extractFillArgs_count_mode, extractCountArgs_count_mode] <;>
    intro h5 <;> rw [← Nat.mod_mul_mod, Nat.mod_eq_of_lt h5] <;>
    exact shrinkBuffer_after_grow _ _ h5

theorem extractCubes_retry_protocol_witness :
    (4 = (if false then (fun _ => 12) (extractCountArgs true 0) % UINT32 else 4) ∧
     12 = (fun _ => 12) (extractFillArgs true 0 4) % UINT32 ∧
     12 = (fun _ => 12) (extractFillArgs true 0 12) % UINT32) ∧
    ((fillPasses (extractCubes 4 false (fun _ => 12) true 0 4).runs).length ≤ 2 ∧
     (12 ≤ 4 →
       fillPasses (extractCubes 4 false (fun _ => 12) true 0 4).runs =
         [{ args := extractFillArgs true 0 4, m_num_elements := 12 }] ∧
       (extractCubes 4 false (fun _ => 12) true 0 4).exited = false ∧
       (extractCubes 4 false (fun _ => 12) true 0 4).grown = none) ∧
     (4 < 12 →
       fillPasses (extractCubes 4 false (fun _ => 12) true 0 4).runs =
         [{ args := extractFillArgs true 0 4, m_num_elements := 12 },
          { args := extractFillArgs true 0 12, m_num_elements := 12 }] ∧
       (extractCubes 4 false (fun _ => 12) true 0 4).d_node_data_size = 12 ∧
       (extractCubes 4 false (fun _ => 12) true 0 4).grown = some (12 * 5 % UINT32 / 4) ∧
       (12 * 5 < UINT32 →
         (extractCubes 4 false (fun _ => 12) true 0 4).m_extract_buffer_size = 12 * 5 / 4)) ∧
     ((extractCubes 4 false (fun _ => 12) true 0 4).exited = true ↔ 4 < 12 ∧ 12 < 12)) :=
  ⟨⟨by decide, by decide, by decide⟩,
   extractCubes_retry_protocol 4 false (fun _ => 12) true 0 4 4 12 12 _
     (by decide) (by decide) (by decide) rfl⟩

/-- Where `used_size*5` does not wrap around, a call of `extractCubes` that starts with the
cached size at or above the floor leaves it at or above the floor, and after a grow the cached
size is at least the count that was needed. -/
theorem extractCubes_floor_without_wrap (INITIAL : Nat) (lb : LoadBalancer) (ds : Bool)
    (ml m : Nat) (hm : INITIAL ≤ m)
    (hnowrap : lb (extractFillArgs ds ml m) % UINT32 * 5 < UINT32) :
    INITIAL ≤ (extractCubes INITIAL false lb ds ml m).m_extract_buffer_size ∧
    ((extractCubes INITIAL false lb ds ml m).grown ≠ none →
      lb (extractFillArgs ds ml m) % UINT32 ≤
        (extractCubes INITIAL false lb ds ml m).m_extract_buffer_size) := by
  simp only [extractCubes, runPass, Bool.false_eq_true, if_false]
  have hmod : lb (extractFillArgs ds ml m) % UINT32 * 5 % UINT32 =
      lb (extractFillArgs ds ml m) % UINT32 * 5 := Nat.mod_eq_of_lt hnowrap
  generalize lb (extractFillArgs ds ml m) % UINT32 = u at *
  split_ifs with h1 h2
  · simp only [hmod]
    refine ⟨by omega, fun _ => by omega⟩
  · simp only [hmod, shrinkBuffer_after_grow INITIAL u hnowrap]
    refine ⟨by omega, fun _ => by omega⟩
  · refine ⟨?_, fun h => absurd rfl h⟩
    show INITIAL ≤ shrinkBuffer INITIAL u m
    unfold shrinkBuffer
    split_ifs
    · exact le_max_right _ _
    · exact hm

/-- C3: a fill pass that reports `used_size = 858993460` on a smaller buffer makes
`used_size*5` wrap around in `uint32_t`: the call returns with
`m_extract_buffer_size = 1`, below the floor `INITIAL_EXTRACT_BUFFER_SIZE` it started at or
above, and below the count `used_size` that was just needed. -/
theorem extractCubes_grow_wraps (INITIAL m : Nat) (hI : 2 ≤ INITIAL) (_hm : INITIAL ≤ m)
    (hlt : m < 858993460) :
    (extractCubes INITIAL false (fun _ => 858993460) true 0 m).exited = false ∧
    (extractCubes INITIAL false (fun _ => 858993460) true 0 m).result = some 858993460 ∧
    (extractCubes INITIAL false (fun _ => 858993460) true 0 m).grown = some 1 ∧
    (extractCubes INITIAL false (fun _ => 858993460) true 0 m).m_extract_buffer_size = 1 ∧
    (extractCubes INITIAL false (fun _ => 858993460) true 0 m).m_extract_buffer_size
      < INITIAL ∧
    (extractCubes INITIAL false (fun _ => 858993460) true 0 m).m_extract_buffer_size
      < 858993460 := by
  have e1 : 858993460 % UINT32 = 858993460 := by decide
  have e2 : 858993460 * 5 % UINT32 / 4 = 1 := by decide
  have e3 : shrinkBuffer INITIAL 858993460 1 = 1 := by
    unfold shrinkBuffer
    have : ¬ (4 * 858993460 % UINT32 < 1) := by decide
    rw [if_neg this]
  simp only [extractCubes, runPass, Bool.false_eq_true, if_false, e1, e2]
  rw [if_pos (by omega), if_neg (by omega)]
  simp only [e3]
  refine ⟨trivial, trivial, trivial, trivial, by omega, by omega⟩

theorem extractCubes_grow_wraps_witness :
    (2 ≤ 10000 ∧ 10000 ≤ 10000 ∧ 10000 < 858993460) ∧
    (extractCubes 10000 false (fun _ => 858993460) true 0 10000).m_extract_buffer_size = 1 :=
  ⟨⟨by decide, by decide, by decide⟩,
   (extractCubes_grow_wraps 10000 10000 (by decide) (by decide) (by decide)).2.2.2.1⟩

theorem storeByte_length (m : List Nat) (i v : Nat) : (storeByte m i v).length = m.length := by
  simp [storeByte]

theorem storeByte_get (m : List Nat) (i v j : Nat) :
    (storeByte m i v)[j]? = if i = j then (if i < m.length then some (v % 256) else none)
      else m[j]? := by
  simp [storeByte, List.getElem?_set]

theorem collisionLoop_succ (c e n : Nat) (m : List Nat) :
    collisionLoop c e (n + 1) m =
      (if n &&& c = c then storeByte (collisionLoop c e n m) n e else collisionLoop c e n m) := by
  simp [collisionLoop, List.range_succ, List.foldl_append]

theorem collisionLoop_length (c e n : Nat) (m : List Nat) :
    (collisionLoop c e n m).length = m.length := by
  induction n with
  | zero => simp [collisionLoop]
  | succ n ih =>
    rw [collisionLoop_succ]
    split_ifs
    · rw [storeByte_length, ih]
    · exact ih

/-- The table after the loop of lines 325-327 has run over `0 .. n-1`. -/
theorem collisionLoop_get (c e n : Nat) (m : List Nat) (j : Nat) :
    (collisionLoop c e n m)[j]? =
      if j < n ∧ j &&& c = c ∧ j < m.length then some (e % 256) else m[j]? := by
  induction n with
  | zero => simp [collisionLoop]
  | succ n ih =>
    rw [collisionLoop_succ]
    by_cases hn : n &&& c = c
    · rw [if_pos hn, storeByte_get, collisionLoop_length]
      by_cases hj : n = j
      · subst hj
        by_cases hl : n < m.length
        · simp [hn, hl]
        · have : m[n]? = none := List.getElem?_eq_none (by omega)
          simp [hl, this]
      · rw [if_neg hj, ih]
        have : (j < n + 1) ↔ (j < n) := by omega
        simp only [this]
    · rw [if_neg hn, ih]
      by_cases hj : n = j
      · subst hj
        simp [hn]
      · have : (j < n + 1) ↔ (j < n) := by omega
        simp only [this]

/-- C4: every 8-bit status value with the collision bit set maps to `eVT_COLLISION`,
whatever its other bits are. -/
theorem statusMapping_collision (s : StatusBits) (v : VoxelTypes) (i : Nat) (hi : i < 256)
    (hfit : v.eVT_COLLISION < 256) (hbit : i &&& s.ns_COLLISION = s.ns_COLLISION) :
    (statusMapping s v)[i]? = some v.eVT_COLLISION := by
  unfold statusMapping
  rw [collisionLoop_get]
  have hlen : i < (storeByte (storeByte (storeByte (storeByte (storeByte (storeByte (storeByte
      (List.replicate 256 0) s.ns_FREE v.eVT_FREE) (s.ns_FREE ||| s.ns_UNKNOWN) v.eVT_FREE)
      s.ns_UNKNOWN v.eVT_UNKNOWN) s.ns_OCCUPIED v.eVT_OCCUPIED) (s.ns_OCCUPIED ||| s.ns_FREE)
      v.eVT_OCCUPIED) (s.ns_OCCUPIED ||| s.ns_FREE ||| s.ns_UNKNOWN) v.eVT_OCCUPIED)
      (s.ns_OCCUPIED ||| s.ns_UNKNOWN) v.eVT_OCCUPIED).length := by
    simp only [storeByte_length, List.length_replicate]
    exact hi
  rw [if_pos ⟨hi, hbit, hlen⟩, Nat.mod_eq_of_lt hfit]

theorem statusMapping_collision_witness :
    (39 < 256 ∧ 2 < 256 ∧ 39 &&& 32 = 32) ∧
    (statusMapping { ns_FREE := 1, ns_UNKNOWN := 2, ns_OCCUPIED := 4, ns_COLLISION := 32 }
      { eVT_FREE := 0, eVT_UNKNOWN := 3, eVT_OCCUPIED := 1, eVT_COLLISION := 2 })[39]? =
        some 2 :=
  ⟨⟨by decide, by decide, by decide⟩,
   statusMapping_collision
     { ns_FREE := 1, ns_UNKNOWN := 2, ns_OCCUPIED := 4, ns_COLLISION := 32 }
     { eVT_FREE := 0, eVT_UNKNOWN := 3, eVT_OCCUPIED := 1, eVT_COLLISION := 2 }
     39 (by decide) (by decide) (by decide)⟩

/-- Two numbers that differ in one bit are different. -/
theorem bit_ne (x y k : Nat) (hx : x.testBit k = true) (hy : y.testBit k = false) : x ≠ y := by
  intro h
  rw [h, hy] at hx
  exact Bool.noConfusion hx

/-- The seven table keys of lines 316-324 are pairwise different when the three status
bits are: each key is compared with the keys assigned after it. -/
theorem statusKeys_ne (f u o : Nat) (hfu : f ≠ u) (hfo : f ≠ o) (huo : u ≠ o) :
    (2 ^ f ||| 2 ^ u ≠ 2 ^ f) ∧
    (2 ^ u ≠ 2 ^ f) ∧
    (2 ^ o ≠ 2 ^ f) ∧
    (2 ^ o ||| 2 ^ f ≠ 2 ^ f) ∧
    (2 ^ o ||| 2 ^ f ||| 2 ^ u ≠ 2 ^ f) ∧
    (2 ^ o ||| 2 ^ u ≠ 2 ^ f) ∧
    (2 ^ u ≠ 2 ^ f ||| 2 ^ u) ∧
    (2 ^ o ≠ 2 ^ f ||| 2 ^ u) ∧
    (2 ^ o ||| 2 ^ f ≠ 2 ^ f ||| 2 ^ u) ∧
    (2 ^ o ||| 2 ^ f ||| 2 ^ u ≠ 2 ^ f ||| 2 ^ u) ∧
    (2 ^ o ||| 2 ^ u ≠ 2 ^ f ||| 2 ^ u) ∧
    (2 ^ o ≠ 2 ^ u) ∧
    (2 ^ o ||| 2 ^ f ≠ 2 ^ u) ∧
    (2 ^ o ||| 2 ^ f ||| 2 ^ u ≠ 2 ^ u) ∧
    (2 ^ o ||| 2 ^ u ≠ 2 ^ u) ∧
    (2 ^ o ||| 2 ^ f ≠ 2 ^ o) ∧
    (2 ^ o ||| 2 ^ f ||| 2 ^ u ≠ 2 ^ o) ∧
    (2 ^ o ||| 2 ^ u ≠ 2 ^ o) ∧
    (2 ^ o ||| 2 ^ f ||| 2 ^ u ≠ 2 ^ o ||| 2 ^ f) ∧
    (2 ^ o ||| 2 ^ u ≠ 2 ^ o ||| 2 ^ f) ∧
    (2 ^ o ||| 2 ^ u ≠ 2 ^ o ||| 2 ^ f ||| 2 ^ u) := by
  have huf := Ne.symm hfu
  have hof := Ne.symm hfo
  have hou := Ne.symm huo
  refine ⟨?_, ?_, ?_, ?_, ?_, ?_, ?_, ?_, ?_, ?_, ?_, ?_, ?_, ?_, ?_, ?_, ?_, ?_, ?_, ?_,
    ?_⟩ <;>
  first
  | (apply bit_ne _ _ f <;>
      (simp [Nat.testBit_or, Nat.testBit_two_pow, hfu, hfo, huo, huf, hof, hou]; done))
  | (apply bit_ne _ _ u <;>
      (simp [Nat.testBit_or, Nat.testBit_two_pow, hfu, hfo, huo, huf, hof, hou]; done))
  | (apply bit_ne _ _ o <;>
      (simp [Nat.testBit_or, Nat.testBit_two_pow, hfu, hfo, huo, huf, hof, hou]; done))
  | (apply Ne.symm; apply bit_ne _ _ f <;>
      simp [Nat.testBit_or, Nat.testBit_two_pow, hfu, hfo, huo, huf, hof, hou])

/-- None of the seven table keys has the collision bit when that bit is a fourth one. -/
theorem statusKeys_no_collision (f u o c : Nat) (hfc : f ≠ c) (huc : u ≠ c) (hoc : o ≠ c) :
    ¬ ((2 ^ f) &&& 2 ^ c = 2 ^ c) ∧
    ¬ ((2 ^ f ||| 2 ^ u) &&& 2 ^ c = 2 ^ c) ∧
    ¬ ((2 ^ u) &&& 2 ^ c = 2 ^ c) ∧
    ¬ ((2 ^ o) &&& 2 ^ c = 2 ^ c) ∧
    ¬ ((2 ^ o ||| 2 ^ f) &&& 2 ^ c = 2 ^ c) ∧
    ¬ ((2 ^ o ||| 2 ^ f ||| 2 ^ u) &&& 2 ^ c = 2 ^ c) ∧
    ¬ ((2 ^ o ||| 2 ^ u) &&& 2 ^ c = 2 ^ c) := by
  refine ⟨?_, ?_, ?_, ?_, ?_, ?_, ?_⟩ <;>
  · intro h
    have := congrArg (fun x => x.testBit c) h
    simp [Nat.testBit_or, Nat.testBit_and, Nat.testBit_two_pow, hfc, huc, hoc] at this

/-- C5: with the collision bit clear, `free` and `free|unknown` map to `eVT_FREE`, `unknown`
alone maps to `eVT_UNKNOWN`, and each of `occupied`, `occupied|free`, `occupied|unknown` and
`occupied|free|unknown` maps to `eVT_OCCUPIED`. -/
theorem statusMapping_free_unknown_occupied (s : StatusBits) (v : VoxelTypes)
    (hs : s.distinctBits) (hv : v.fitByte) :
    (statusMapping s v)[s.ns_FREE]? = some v.eVT_FREE ∧
    (statusMapping s v)[s.ns_FREE ||| s.ns_UNKNOWN]? = some v.eVT_FREE ∧
    (statusMapping s v)[s.ns_UNKNOWN]? = some v.eVT_UNKNOWN ∧
    (statusMapping s v)[s.ns_OCCUPIED]? = some v.eVT_OCCUPIED ∧
    (statusMapping s v)[s.ns_OCCUPIED ||| s.ns_FREE]? = some v.eVT_OCCUPIED ∧
    (statusMapping s v)[s.ns_OCCUPIED ||| s.ns_UNKNOWN]? = some v.eVT_OCCUPIED ∧
    (statusMapping s v)[s.ns_OCCUPIED ||| s.ns_FREE ||| s.ns_UNKNOWN]? = some v.eVT_OCCUPIED := by
  obtain ⟨f, u, o, c, hf, hu, ho, _, hfu, hfo, hfc, huo, huc, hoc, eF, eU, eO, eC⟩ := hs
  obtain ⟨vF, vU, vO, _⟩ := hv
  have p256 : ∀ k : Nat, k < 8 → 2 ^ k < 2 ^ 8 :=
    fun k hk => Nat.pow_lt_pow_right (by norm_num) hk
  obtain ⟨nBA, nCA, nDA, nEA, nGA, nHA, nCB, nDB, nEB, nGB, nHB, nDC, nEC, nGC, nHC,
    nED, nGD, nHD, nGE, nHE, nHG⟩ := statusKeys_ne f u o hfu hfo huo
  obtain ⟨cA, cB, cC, cD, cE, cG, cH⟩ := statusKeys_no_collision f u o c hfc huc hoc
  have bA : 2 ^ f < 256 := p256 _ hf
  have bC : 2 ^ u < 256 := p256 _ hu
  have bD : 2 ^ o < 256 := p256 _ ho
  have bB : 2 ^ f ||| 2 ^ u < 256 := Nat.or_lt_two_pow (p256 _ hf) (p256 _ hu)
  have bE : 2 ^ o ||| 2 ^ f < 256 := Nat.or_lt_two_pow (p256 _ ho) (p256 _ hf)
  have bH : 2 ^ o ||| 2 ^ u < 256 := Nat.or_lt_two_pow (p256 _ ho) (p256 _ hu)
  have bG : 2 ^ o ||| 2 ^ f ||| 2 ^ u < 256 := Nat.or_lt_two_pow bE (p256 _ hu)
  unfold statusMapping
  simp only [eF, eU, eO, eC, collisionLoop_get, storeByte_get, storeByte_length,
    List.length_replicate]
  refine ⟨?_, ?_, ?_, ?_, ?_, ?_, ?_⟩
  · simp [nBA, nCA, nDA, nEA, nGA, nHA, cA, bA, Nat.mod_eq_of_lt vF]
  · simp [nCB, nDB, nEB, nGB, nHB, cB, bB, Nat.mod_eq_of_lt vF]
  · simp [nDC, nEC, nGC, nHC, cC, bC, Nat.mod_eq_of_lt vU]
  · simp [nED, nGD, nHD, cD, bD, Nat.mod_eq_of_lt vO]
  · simp [nGE, nHE, cE, bE, Nat.mod_eq_of_lt vO]
  · simp [cH, bH, Nat.mod_eq_of_lt vO]
  · simp [nHG, cG, bG, Nat.mod_eq_of_lt vO]

theorem statusMapping_free_unknown_occupied_witness :
    (StatusBits.distinctBits
       { ns_FREE := 1, ns_UNKNOWN := 2, ns_OCCUPIED := 4, ns_COLLISION := 32 } ∧
     VoxelTypes.fitByte
       { eVT_FREE := 0, eVT_UNKNOWN := 3, eVT_OCCUPIED := 1, eVT_COLLISION := 2 }) ∧
    (statusMapping { ns_FREE := 1, ns_UNKNOWN := 2, ns_OCCUPIED := 4, ns_COLLISION := 32 }
      { eVT_FREE := 0, eVT_UNKNOWN := 3, eVT_OCCUPIED := 1, eVT_COLLISION := 2 })[1 ||| 2]? =
        some 0 :=
  have hs : StatusBits.distinctBits
      { ns_FREE := 1, ns_UNKNOWN := 2, ns_OCCUPIED := 4, ns_COLLISION := 32 } :=
    ⟨0, 1, 2, 5, by decide, by decide, by decide, by decide, by decide, by decide, by decide,
      by decide, by decide, by decide, rfl, rfl, rfl, rfl⟩
  have hv : VoxelTypes.fitByte
      { eVT_FREE := 0, eVT_UNKNOWN := 3, eVT_OCCUPIED := 1, eVT_COLLISION := 2 } :=
    ⟨by decide, by decide, by decide, by decide⟩
  ⟨⟨hs, hv⟩, (statusMapping_free_unknown_occupied _ _ hs hv).2.1⟩

/-- Reading back the four bytes `writeU32` produced gives the value written. -/
theorem readU32_writeU32 (x : Nat) (hx : x < UINT32) (rest : List Nat) :
    readU32 (IStream.ofBytes (writeU32 x ++ rest)) = (some x, IStream.ofBytes rest) := by
  have hx' : x < 4294967296 := hx
  have e : x % 256 + 256 * (x / 256 % 256) + 65536 * (x / 65536 % 256) +
      16777216 * (x / 16777216 % 256) = x := by omega
  simp [readU32, writeU32, IStream.ofBytes, IStream.good, e]

/-- The bytes of `sz`-byte records, cut again into records. -/
theorem splitRecords_flatten (sz : Nat) (recs : List NodeData) (tail : List Nat)
    (hrec : ∀ r ∈ recs, r.length = sz) :
    splitRecords sz recs.length (recs.flatten ++ tail) = recs := by
  induction recs with
  | nil => simp [splitRecords]
  | cons r rs ih =>
    have hr : r.length = sz := hrec r (List.mem_cons_self r rs)
    have hrs : ∀ q ∈ rs, q.length = sz := fun q hq => hrec q (List.mem_cons_of_mem r hq)
    simp only [List.length_cons, splitRecords, List.flatten_cons, List.append_assoc]
    rw [← hr, List.take_left, List.drop_left, hr, ih hrs]

theorem flatten_length_records (sz : Nat) (recs : List NodeData)
    (hrec : ∀ r ∈ recs, r.length = sz) : recs.flatten.length = recs.length * sz := by
  induction recs with
  | nil => simp
  | cons r rs ih =>
    have hr : r.length = sz := hrec r (List.mem_cons_self r rs)
    have hrs : ∀ q ∈ rs, q.length = sz := fun q hq => hrec q (List.mem_cons_of_mem r hq)
    simp only [List.flatten_cons, List.length_append, List.length_cons, ih hrs, hr]
    rw [Nat.add_mul, Nat.one_mul, Nat.add_comm]

/-- Reading `recs.length` records back from the bytes of `recs`. -/
theorem readRecordsBin_flatten (sz : Nat) (hsz : 0 < sz) (default_node : NodeData)
    (recs : List NodeData) (rest : List Nat) (hrec : ∀ r ∈ recs, r.length = sz) :
    readRecordsBin sz recs.length default_node (IStream.ofBytes (recs.flatten ++ rest)) =
      (recs, recs.length, IStream.ofBytes rest) := by
  have hlen := flatten_length_records sz recs hrec
  have htake : (recs.flatten ++ rest).take (recs.length * sz) = recs.flatten := by
    rw [← hlen, List.take_left]
  have hdrop : (recs.flatten ++ rest).drop (recs.length * sz) = rest := by
    rw [← hlen, List.drop_left]
  simp only [readRecordsBin, IStream.ofBytes, IStream.good, Bool.not_false, Bool.and_self,
    if_true, htake, hdrop, hlen, splitRecords_flatten sz recs _ hrec, Nat.lt_irrefl,
    decide_False, Nat.mul_div_cancel _ hsz]

/-- C6: in binary mode `deserialize` reads back what `serialize` wrote: the header fields
`numBlocks`, `numThreadsPerBlock`, resolution and record count in the order written,
followed by `record count` records, equal to the configuration and the records written. -/
theorem serialize_deserialize_bin (sz : Nat)
    (scanNodeData : NodeData → IStream → NodeData × IStream) (default_node : NodeData)
    (t : NTreeConfig) (recs : List NodeData) (rest : List Nat) (hsz : 0 < sz)
    (hb : t.numBlocks < UINT32) (ht : t.numThreadsPerBlock < UINT32)
    (hr : t.m_resolution < UINT32) (hn : recs.length < UINT32)
    (hrec : ∀ r ∈ recs, r.length = sz) :
    serializeBin sz t recs.length recs =
      some (writeU32 t.numBlocks ++ (writeU32 t.numThreadsPerBlock ++
        (writeU32 t.m_resolution ++ (writeU32 recs.length ++ recs.flatten)))) ∧
    ∀ bytes, serializeBin sz t recs.length recs = some bytes →
      deserialize true sz scanNodeData default_node (IStream.ofBytes (bytes ++ rest)) =
        some { config := t, size := recs.length, records_read := recs.length,
               rebuild_data := recs, rebuild_num_cubes := recs.length, returned := true } := by
  have hlen := flatten_length_records sz recs hrec
  have hser : serializeBin sz t recs.length recs =
      some (writeU32 t.numBlocks ++ (writeU32 t.numThreadsPerBlock ++
        (writeU32 t.m_resolution ++ (writeU32 recs.length ++ recs.flatten)))) := by
    unfold serializeBin
    rw [if_pos (by rw [hlen]), ← hlen, List.take_length]
  refine ⟨hser, ?_⟩
  intro bytes hbytes
  rw [hser] at hbytes
  cases hbytes
  have hhead : readHeader true (IStream.ofBytes
      ((writeU32 t.numBlocks ++ (writeU32 t.numThreadsPerBlock ++
        (writeU32 t.m_resolution ++ (writeU32 recs.length ++ recs.flatten)))) ++ rest)) =
      ((some t.numBlocks, some t.numThreadsPerBlock, some t.m_resolution, some recs.length),
        IStream.ofBytes (recs.flatten ++ rest)) := by
    simp only [readHeader, if_true, List.append_assoc, readU32_writeU32 _ hb,
      readU32_writeU32 _ ht, readU32_writeU32 _ hr, readU32_writeU32 _ hn]
  simp only [deserialize, hhead, if_true, readRecordsBin_flatten sz hsz default_node recs rest hrec]

theorem serialize_deserialize_bin_witness :
    (0 < 2 ∧ 2048 < UINT32 ∧ 128 < UINT32 ∧ 10 < UINT32 ∧
      [[7, 8], [9, 10]].length < UINT32 ∧ ∀ r ∈ [[7, 8], [9, 10]], r.length = 2) ∧
    deserialize true 2 (fun d s => (d, s)) [0, 0]
        (IStream.ofBytes ([0, 8, 0, 0, 128, 0, 0, 0, 10, 0, 0, 0, 2, 0, 0, 0, 7, 8, 9, 10] ++ [])) =
      some { config := { numBlocks := 2048, numThreadsPerBlock := 128, m_resolution := 10 },
             size := 2, records_read := 2, rebuild_data := [[7, 8], [9, 10]],
             rebuild_num_cubes := 2, returned := true } :=
  ⟨⟨by decide, by decide, by decide, by decide, by decide, by decide⟩,
   (serialize_deserialize_bin 2 (fun d s => (d, s)) [0, 0]
      { numBlocks := 2048, numThreadsPerBlock := 128, m_resolution := 10 }
      [[7, 8], [9, 10]] [] (by decide) (by decide) (by decide) (by decide) (by decide)
      (by decide)).2 _ (by decide)⟩

/-- C7: in text mode `serialize` writes `numThreadsPerBlock`, the resolution and the record
count but not `numBlocks`, while `deserialize` reads four header fields.  For a tree with
`numBlocks = 2048`, `numThreadsPerBlock = 128`, resolution `10` and one record printed as
`7`, the text is `128\n10\n1\n7\n` and `deserialize` reads back `numBlocks = 128`,
`numThreadsPerBlock = 10`, resolution `1` and record count `7`. -/
theorem serialize_text_omits_numBlocks :
    serializeText samplePrintNodeData
        { numBlocks := 2048, numThreadsPerBlock := 128, m_resolution := 10 } 1 [[7]] =
      some [49, 50, 56, 10, 49, 48, 10, 49, 10, 55, 10] ∧
    deserialize false 1 sampleScanNodeData [0]
        (IStream.ofBytes [49, 50, 56, 10, 49, 48, 10, 49, 10, 55, 10]) =
      some { config := { numBlocks := 128, numThreadsPerBlock := 10, m_resolution := 1 },
             size := 7, records_read := 0,
             rebuild_data := [[0], [0], [0], [0], [0], [0], [0]],
             rebuild_num_cubes := 7, returned := true } := by
  constructor <;> decide

theorem decimalAux_append (fuel x : Nat) (acc : List Nat) :
    decimalAux fuel x acc = decimalAux fuel x [] ++ acc := by
  induction fuel generalizing x acc with
  | zero => simp [decimalAux]
  | succ fuel ih =>
    unfold decimalAux
    split_ifs
    · simp
    · rw [ih (x / 10) ((48 + x % 10) :: acc), ih (x / 10) [48 + x % 10]]
      simp

theorem digitsValue_append_singleton (ds : List Nat) (c : Nat) :
    digitsValue (ds ++ [c]) = 10 * digitsValue ds + (c - 48) := by
  simp [digitsValue, List.foldl_append]

/-- The digits printed for `x` are a non-empty string of digits whose value is `x`. -/
theorem decimalAux_spec (fuel x : Nat) (hx : x < 10 ^ (fuel + 1)) :
    decimalAux (fuel + 1) x [] ≠ [] ∧
      (∀ c ∈ decimalAux (fuel + 1) x [], isDigit c = true) ∧
      digitsValue (decimalAux (fuel + 1) x []) = x := by
  induction fuel generalizing x with
  | zero =>
    have h : x < 10 := by simpa using hx
    simp only [decimalAux, if_pos h]
    refine ⟨by simp, ?_, by simp [digitsValue]⟩
    intro c hc
    simp only [List.mem_singleton] at hc
    subst hc
    simp only [isDigit, Bool.and_eq_true, decide_eq_true_eq]
    omega
  | succ fuel ih =>
    rw [decimalAux]
    by_cases h : x < 10
    · rw [if_pos h]
      refine ⟨by simp, ?_, by simp [digitsValue]⟩
      intro c hc
      simp only [List.mem_singleton] at hc
      subst hc
      simp only [isDigit, Bool.and_eq_true, decide_eq_true_eq]
      omega
    · rw [if_neg h, decimalAux_append]
      have hx10 : x / 10 < 10 ^ (fuel + 1) := by
        rw [Nat.div_lt_iff_lt_mul (by norm_num)]
        rw [pow_succ] at hx
        exact hx
      obtain ⟨_, hd, hv⟩ := ih (x / 10) hx10
      refine ⟨by simp, ?_, ?_⟩
      · intro c hc
        rcases List.mem_append.mp hc with hc | hc
        · exact hd c hc
        · simp only [List.mem_singleton] at hc
          subst hc
          simp only [isDigit, Bool.and_eq_true, decide_eq_true_eq]
          omega
      · rw [digitsValue_append_singleton, hv]
        omega

theorem printU32_spec (x : Nat) (hx : x < UINT32) :
    printU32 x ≠ [] ∧ (∀ c ∈ printU32 x, isDigit c = true) ∧
      digitsValue (printU32 x) = x := by
  have hx' : x < 4294967296 := hx
  have hmod : x % UINT32 = x := Nat.mod_eq_of_lt hx
  unfold printU32
  rw [hmod]
  exact decimalAux_spec 9 x (by omega)

theorem isSpace_of_isDigit (c : Nat) (h : isDigit c = true) : ¬ isSpace c = true := by
  simp only [isDigit, Bool.and_eq_true, decide_eq_true_eq] at h
  simp only [isSpace, Bool.or_eq_true, beq_iff_eq, Bool.and_eq_true, decide_eq_true_eq]
  omega

/-- The extraction `in >> x` on a good stream that holds optional white space, then a decimal
field that fits a `uint32_t`, then a line feed: the field's value is stored and the stream
stays good in front of the line feed. -/
theorem extractU32_field (ws ds rest : List Nat) (hws : ∀ c ∈ ws, isSpace c = true)
    (hne : ds ≠ []) (hds : ∀ c ∈ ds, isDigit c = true) (hval : digitsValue ds < UINT32) :
    extractU32 (IStream.ofBytes (ws ++ (ds ++ LF :: rest))) =
      (some (digitsValue ds), IStream.ofBytes (LF :: rest)) := by
  obtain ⟨d, ds', rfl⟩ := List.exists_cons_of_ne_nil hne
  have hd : ¬ isSpace d = true := isSpace_of_isDigit d (hds d (List.mem_cons_self d ds'))
  have h1 : (ws ++ (d :: ds' ++ LF :: rest)).dropWhile isSpace = d :: ds' ++ LF :: rest := by
    rw [List.dropWhile_append_of_pos hws]
    exact List.dropWhile_cons_of_neg hd
  have hLF : ¬ isDigit LF = true := by decide
  have h2 : (d :: ds' ++ LF :: rest).takeWhile isDigit = d :: ds' := by
    rw [List.takeWhile_append_of_pos hds, List.takeWhile_cons_of_neg hLF, List.append_nil]
  have h3 : (d :: ds' ++ LF :: rest).dropWhile isDigit = LF :: rest := by
    rw [List.dropWhile_append_of_pos hds, List.dropWhile_cons_of_neg hLF]
  simp only [extractU32, IStream.ofBytes, IStream.good, Bool.not_false, Bool.and_self, if_true,
    h1, h2, h3]
  simp [hval]

/-- In text mode the header `deserialize` reads from the output of `serialize` is shifted by
one field for every tree: `numBlocks` receives the `numThreadsPerBlock` written,
`numThreadsPerBlock` the resolution and the resolution the record count; the fourth field
is taken from the text of the records. -/
theorem readHeader_serializeText (printNodeData : NodeData → List Nat) (t : NTreeConfig)
    (num_cubes : Nat) (h_node_data : List NodeData) (text : List Nat)
    (ht : t.numThreadsPerBlock < UINT32) (hr : t.m_resolution < UINT32)
    (hn : num_cubes < UINT32)
    (h : serializeText printNodeData t num_cubes h_node_data = some text) :
    (readHeader false (IStream.ofBytes text)).1.1 = some t.numThreadsPerBlock ∧
    (readHeader false (IStream.ofBytes text)).1.2.1 = some t.m_resolution ∧
    (readHeader false (IStream.ofBytes text)).1.2.2.1 = some num_cubes := by
  unfold serializeText at h
  split_ifs at h
  cases h
  obtain ⟨n1, d1, v1⟩ := printU32_spec _ ht
  obtain ⟨n2, d2, v2⟩ := printU32_spec _ hr
  obtain ⟨n3, d3, v3⟩ := printU32_spec _ hn
  have hLF : ∀ c ∈ [LF], isSpace c = true := by decide
  have e1 := extractU32_field [] (printU32 t.numThreadsPerBlock)
    (printU32 t.m_resolution ++ LF :: (printU32 num_cubes ++ LF ::
      ((h_node_data.take num_cubes).map (fun r => printNodeData r ++ [LF])).flatten))
    (by simp) n1 d1 (by rw [v1]; exact ht)
  have e2 := extractU32_field [LF] (printU32 t.m_resolution)
    (printU32 num_cubes ++ LF ::
      ((h_node_data.take num_cubes).map (fun r => printNodeData r ++ [LF])).flatten)
    hLF n2 d2 (by rw [v2]; exact hr)
  have e3 := extractU32_field [LF] (printU32 num_cubes)
    (((h_node_data.take num_cubes).map (fun r => printNodeData r ++ [LF])).flatten)
    hLF n3 d3 (by rw [v3]; exact hn)
  rw [v1] at e1
  rw [v2] at e2
  rw [v3] at e3
  simp only [List.nil_append, List.singleton_append] at e1 e2 e3
  simp only [readHeader, Bool.false_eq_true, if_false, e1, e2, e3, and_self]

theorem splitRecords_length (sz n : Nat) (mem : List Nat) :
    (splitRecords sz n mem).length = n := by
  induction n generalizing mem with
  | zero => rfl
  | succ n ih => simp [splitRecords, ih]

theorem readRecordsBin_length (sz size : Nat) (default_node : NodeData) (s : IStream) :
    (readRecordsBin sz size default_node s).1.length = size := by
  unfold readRecordsBin
  split_ifs
  · exact splitRecords_length sz size _
  · simp

theorem readRecordsText_length (scanNodeData : NodeData → IStream → NodeData × IStream)
    (ds : List NodeData) (s : IStream) :
    (readRecordsText scanNodeData ds s).1.length = ds.length := by
  induction ds generalizing s with
  | nil => rfl
  | cons d ds ih => simp [readRecordsText, ih]

/-- C8 (as the code behaves): a binary stream whose header announces two records but which
holds only one is accepted: `deserialize` hands two records to `internal_rebuild`, the
second one still default-constructed, and returns `true`. -/
theorem deserialize_accepts_count_mismatch :
    deserialize true 2 (fun d s => (d, s)) [0, 0]
        (IStream.ofBytes [1, 0, 0, 0, 2, 0, 0, 0, 3, 0, 0, 0, 2, 0, 0, 0, 7, 8]) =
      some { config := { numBlocks := 1, numThreadsPerBlock := 2, m_resolution := 3 },
             size := 2, records_read := 1, rebuild_data := [[7, 8], [0, 0]],
             rebuild_num_cubes := 2, returned := true } ∧
    (1 : Nat) ≠ 2 := by
  constructor <;> decide

/-- C8 (amended): `deserialize` never compares the record count of the header with the
records actually read.  Whenever the four header fields have been read, in either mode and
whatever follows them in the stream, it reads into a vector of `size` default-constructed
records, hands that vector and `size` to `internal_rebuild`, and returns `true`. -/
theorem deserialize_ignores_record_count (bin_mode : Bool) (sz : Nat)
    (scanNodeData : NodeData → IStream → NodeData × IStream) (default_node : NodeData)
    (s s' : IStream) (numBlocks numThreadsPerBlock resolution size : Nat)
    (hh : readHeader bin_mode s =
      ((some numBlocks, some numThreadsPerBlock, some resolution, some size), s')) :
    ∃ o, deserialize bin_mode sz scanNodeData default_node s = some o ∧
      o.returned = true ∧
      o.config = { numBlocks := numBlocks, numThreadsPerBlock := numThreadsPerBlock,
                   m_resolution := resolution } ∧
      o.size = size ∧ o.rebuild_num_cubes = size ∧ o.rebuild_data.length = size := by
  refine ⟨_, by simp only [deserialize, hh]; rfl, rfl, rfl, rfl, rfl, ?_⟩
  cases bin_mode
  · simp [readRecordsText_length]
  · simp [readRecordsBin_length]

theorem deserialize_ignores_record_count_witness :
    readHeader true (IStream.ofBytes [1, 0, 0, 0, 2, 0, 0, 0, 3, 0, 0, 0, 2, 0, 0, 0, 7, 8]) =
      ((some 1, some 2, some 3, some 2), IStream.ofBytes [7, 8]) ∧
    ∃ o, deserialize true 2 (fun d s => (d, s)) [0, 0]
        (IStream.ofBytes [1, 0, 0, 0, 2, 0, 0, 0, 3, 0, 0, 0, 2, 0, 0, 0, 7, 8]) = some o ∧
      o.returned = true ∧
      o.config = { numBlocks := 1, numThreadsPerBlock := 2, m_resolution := 3 } ∧
      o.size = 2 ∧ o.rebuild_num_cubes = 2 ∧ o.rebuild_data.length = 2 :=
  ⟨by decide,
   deserialize_ignores_record_count true 2 (fun d s => (d, s)) [0, 0] _ (IStream.ofBytes [7, 8])
     1 2 3 2 (by decide)⟩

/-- C9: both passes of `serialize` run in count-only mode.  The pass that is handed the
output buffer is `Extract<..., false, true>`, not the `Extract<..., false, false>` of the
fill pass of `rebuild`; every pass of `rebuild` that is handed a buffer runs in fill mode. -/
theorem serialize_buffer_pass_is_count_only (bin_mode : Bool) (sz : Nat)
    (printNodeData : NodeData → List Nat) (lb : LoadBalancer)
    (buffer_after : ExtractArgs → List NodeData → List NodeData) (default_node : NodeData)
    (t : NTreeConfig) (INITIAL : Nat) (cbe : Bool) (m_rebuild_buffer_size : Nat) :
    (∀ r ∈ (serialize bin_mode sz printNodeData lb buffer_after default_node t).runs,
      r.args.count_mode = true) ∧
    (∃ r ∈ (serialize bin_mode sz printNodeData lb buffer_after default_node t).runs,
      r.args.has_buffer = true ∧ r.args.count_mode = true ∧
      r.args ≠ rebuildFillArgs r.args.size) ∧
    (∀ r ∈ (rebuildExtract INITIAL cbe lb m_rebuild_buffer_size).runs,
      r.args.has_buffer = true → r.args.count_mode = false ∧
        r.args = rebuildFillArgs r.args.size) := by
  refine ⟨?_, ?_, ?_⟩
  · intro r hr
    simp only [serialize, List.mem_cons, List.mem_singleton, List.not_mem_nil, or_false] at hr
    rcases hr with h | h <;> subst h <;> rfl
  · refine ⟨runPass lb (serializeBufferArgs (runPass lb serializeCountArgs).m_num_elements),
      by simp [serialize], rfl, rfl, ?_⟩
    intro h
    have := congrArg ExtractArgs.count_mode h
    simp [runPass, serializeBufferArgs, rebuildFillArgs] at this
  · cases cbe <;>
      simp only [rebuildExtract, Bool.false_eq_true, if_false, if_true] <;>
      split_ifs <;>
      simp [runPass, extractCountArgs, rebuildFillArgs]

/-! ### `internal_rebuild` -/

theorem zip_map_fst_map_snd (l : List (Nat × BasicData)) :
    (l.map (fun e => e.1)).zip (l.map (fun e => e.2)) = l :=
  (List.zip_of_prod rfl rfl).symm

/-- The triples of the call for level `l` are a rearrangement of the triples of the records
of that level. -/
theorem rebuildLevel_triples_perm (acc : RecordAccess) (recs : List NodeData) (l : Nat) :
    ((sortByKey ((recs.filter (fun r => acc.level r == l)).map
        (fun r => (acc.voxelId r, acc.basicData r)))).map (fun e => (e.1, l, e.2))).Perm
      ((recs.filter (fun r => acc.level r == l)).map acc.triple) := by
  have h1 : (sortByKey ((recs.filter (fun r => acc.level r == l)).map
      (fun r => (acc.voxelId r, acc.basicData r)))).Perm
      ((recs.filter (fun r => acc.level r == l)).map
        (fun r => (acc.voxelId r, acc.basicData r))) := List.perm_insertionSort _ _
  have h2 := h1.map (fun e => (e.1, l, e.2))
  refine h2.trans ?_
  rw [List.map_map]
  have h3 : List.map ((fun e : Nat × BasicData => (e.1, l, e.2)) ∘
        fun r => (acc.voxelId r, acc.basicData r))
      (recs.filter (fun r => acc.level r == l)) =
      (recs.filter (fun r => acc.level r == l)).map acc.triple := by
    apply List.map_congr_left
    intro r hr
    have hl : acc.level r = l := by simpa using (List.mem_filter.mp hr).2
    simp [RecordAccess.triple, hl]
  rw [h3]

/-- Splitting the records below level `n + 1` into those below `n` and those of level `n`. -/
theorem filter_level_succ_perm (acc : RecordAccess) (recs : List NodeData) (n : Nat) :
    (recs.filter (fun r => decide (acc.level r < n + 1))).Perm
      (recs.filter (fun r => decide (acc.level r < n)) ++
        recs.filter (fun r => acc.level r == n)) := by
  induction recs with
  | nil => simp
  | cons r rs ih =>
    rcases Nat.lt_trichotomy (acc.level r) n with h | h | h
    · have h1 : acc.level r < n + 1 := by omega
      have h2 : ¬ acc.level r = n := by omega
      simp only [List.filter_cons, h, h1, h2, decide_True, decide_False, if_true,
        beq_iff_eq, if_false, List.cons_append]
      exact List.Perm.cons r ih
    · have h1 : acc.level r < n + 1 := by omega
      have h2 : ¬ acc.level r < n := by omega
      have h3 : (acc.level r == n) = true := by simp [h]
      simp only [List.filter_cons, h1, h2, h3, decide_True, decide_False, if_true, if_false]
      exact (List.Perm.cons r ih).trans List.perm_middle.symm
    · have h1 : ¬ acc.level r < n + 1 := by omega
      have h2 : ¬ acc.level r < n := by omega
      have h3 : ¬ acc.level r = n := by omega
      simp only [List.filter_cons, h1, h2, h3, decide_False, beq_iff_eq, if_false]
      exact ih

/-- The triples of all calls for the levels below `n`. -/
theorem rebuild_triples_perm (acc : RecordAccess) (recs : List NodeData) (n : Nat) :
    (((List.range n).map (fun l =>
        (sortByKey ((recs.filter (fun r => acc.level r == l)).map
          (fun r => (acc.voxelId r, acc.basicData r)))).map
            (fun e => (e.1, l, e.2)))).flatten).Perm
      ((recs.filter (fun r => decide (acc.level r < n))).map acc.triple) := by
  induction n with
  | zero => simp
  | succ n ih =>
    rw [List.range_succ, List.map_append, List.flatten_append]
    have hsplit := (filter_level_succ_perm acc recs n).map acc.triple
    rw [List.map_append] at hsplit
    refine List.Perm.trans ?_ hsplit.symm
    refine List.Perm.append ih ?_
    simpa using rebuildLevel_triples_perm acc recs n

/-- C11 (as the code behaves): with `level_count = 3`, a record of level `2` (the top level)
among the extracted records is handed to no call of `insertVoxel`; only the record of level
`0` is reinserted. -/
theorem internalRebuildCalls_drops_top_level :
    ((internalRebuildCalls 3 sampleNodeConsts NodeKind.basic sampleRecordAccess
        [[2, 0, 4], [0, 5, 4]] 2).map InsertVoxelCall.triples).flatten =
      [(5, 0, BasicData.basic 4 0)] ∧
    [[2, 0, 4], [0, 5, 4]].map sampleRecordAccess.triple =
      [(0, 2, BasicData.basic 4 0), (5, 0, BasicData.basic 4 0)] := by
  constructor <;> decide

/-- C11 (amended): `internal_rebuild` calls `insertVoxel` once for each level
`0, 1, .., level_count - 2` in ascending order, with the rebuild reset payload and ids sorted
ascending, and the triples (id, level, payload) handed to these calls are, as a multiset,
the triples of those of the first `num_cubes` records whose level is below
`level_count - 1`. -/
theorem internalRebuildCalls_reinserts (level_count : Nat) (c : NodeConsts) (kind : NodeKind)
    (acc : RecordAccess) (d_node_data : List NodeData) (num_cubes : Nat) :
    (internalRebuildCalls level_count c kind acc d_node_data num_cubes).map
        (fun call => call.target_level) = List.range (level_count - 1) ∧
    (((internalRebuildCalls level_count c kind acc d_node_data num_cubes).map
        InsertVoxelCall.triples).flatten).Perm
      (((d_node_data.take num_cubes).filter
        (fun r => decide (acc.level r < level_count - 1))).map acc.triple) ∧
    (∀ call ∈ internalRebuildCalls level_count c kind acc d_node_data num_cubes,
      call.reset_data = getRebuildResetData c kind ∧
      call.d_voxel_vector.Sorted (fun a b => a ≤ b) ∧
      call.d_set_basic_data.length = call.d_voxel_vector.length) := by
  refine ⟨?_, ?_, ?_⟩
  · simp [internalRebuildCalls, Function.comp_def]
  · have h := rebuild_triples_perm acc (d_node_data.take num_cubes) (level_count - 1)
    simpa [internalRebuildCalls, InsertVoxelCall.triples, rebuildLevelList,
      zip_map_fst_map_snd, Function.comp_def] using h
  · intro call hcall
    simp only [internalRebuildCalls, List.mem_map, List.mem_range] at hcall
    obtain ⟨l, _, rfl⟩ := hcall
    refine ⟨rfl, ?_, by simp⟩
    haveI : IsTotal (Nat × BasicData) (fun a b => a.1 ≤ b.1) :=
      ⟨fun a b => Nat.le_total a.1 b.1⟩
    haveI : IsTrans (Nat × BasicData) (fun a b => a.1 ≤ b.1) :=
      ⟨fun _ _ _ h1 h2 => Nat.le_trans h1 h2⟩
    have hs : (rebuildLevelList acc d_node_data num_cubes l).Sorted (fun a b => a.1 ≤ b.1) :=
      List.sorted_insertionSort _ _
    exact List.pairwise_map.mpr hs

/-! ### `rebuild`, `needsRebuild`, `clear` -/

/-- C12: without `COUNT_BEFORE_EXTRACT`, a `rebuild` whose fill pass fits the buffer never
shrinks the cached size, however few records were extracted: the test of line 2885 is made
on `needed_size`, the size of the buffer, and not on `num_cubes`.  The cached size `m` stays
`m` even when `4 * num_cubes < m`. -/
theorem rebuildExtract_never_shrinks (INITIAL : Nat) (lb : LoadBalancer) (m : Nat)
    (hm : 4 * m < UINT32) (hfit : lb (rebuildFillArgs m) % UINT32 ≤ m) :
    (rebuildExtract INITIAL false lb m).num_cubes = some (lb (rebuildFillArgs m) % UINT32) ∧
    (rebuildExtract INITIAL false lb m).needed_size = m ∧
    (rebuildExtract INITIAL false lb m).m_rebuild_buffer_size = m := by
  have hmod : 4 * m % UINT32 = 4 * m := Nat.mod_eq_of_lt hm
  have hno : ¬ (lb (rebuildFillArgs m) % UINT32 > m) := by omega
  simp only [rebuildExtract, runPass, Bool.false_eq_true, if_false, if_neg hno, shrinkBuffer,
    hmod]
  refine ⟨trivial, trivial, ?_⟩
  rw [if_neg (by omega)]

theorem rebuildExtract_never_shrinks_witness :
    (4 * 4096 < UINT32 ∧ (fun _ => 10) (rebuildFillArgs 4096) % UINT32 ≤ 4096) ∧
    4 * 10 < 4096 ∧ max (4096 / 2) 1024 = 2048 ∧
    (rebuildExtract 1024 false (fun _ => 10) 4096).num_cubes = some 10 ∧
    (rebuildExtract 1024 false (fun _ => 10) 4096).m_rebuild_buffer_size = 4096 :=
  ⟨⟨by decide, by decide⟩, by decide, by decide,
   (rebuildExtract_never_shrinks 1024 (fun _ => 10) 4096 (by decide) (by decide)).1,
   (rebuildExtract_never_shrinks 1024 (fun _ => 10) 4096 (by decide) (by decide)).2.2⟩

/-- C13: `needsRebuild` returns `true` exactly when the cap `m_max_memory_usage` is non-zero
and `getMemUsage() >= m_max_memory_usage`, where `getMemUsage()` is
`allocLeafNodes*sizeof(LeafNode) + allocInnerNodes*sizeof(InnerNode)`; with a cap of `0` it
returns `false` for every usage. -/
theorem needsRebuild_iff (sizeofLeafNode sizeofInnerNode : Nat) (s : NTreeState)
    (hfit : s.allocLeafNodes * sizeofLeafNode + s.allocInnerNodes * sizeofInnerNode < UINT64) :
    getMemUsage sizeofLeafNode sizeofInnerNode s =
      s.allocLeafNodes * sizeofLeafNode + s.allocInnerNodes * sizeofInnerNode ∧
    (needsRebuild sizeofLeafNode sizeofInnerNode s = true ↔
      s.m_max_memory_usage ≠ 0 ∧
      s.allocLeafNodes * sizeofLeafNode + s.allocInnerNodes * sizeofInnerNode ≥
        s.m_max_memory_usage) ∧
    (∀ t : NTreeState, t.m_max_memory_usage = 0 →
      needsRebuild sizeofLeafNode sizeofInnerNode t = false) := by
  have hmem : getMemUsage sizeofLeafNode sizeofInnerNode s =
      s.allocLeafNodes * sizeofLeafNode + s.allocInnerNodes * sizeofInnerNode := by
    unfold getMemUsage
    exact Nat.mod_eq_of_lt hfit
  refine ⟨hmem, ?_, ?_⟩
  · simp [needsRebuild, hmem]
  · intro t ht
    simp [needsRebuild, ht]

theorem needsRebuild_iff_witness :
    (3 * 8 + 2 * 64 < UINT64) ∧
    (needsRebuild 8 64
      { numBlocks := 1, numThreadsPerBlock := 32, m_resolution := 10, allocInnerNodes := 2,
        allocLeafNodes := 3, m_extract_buffer_size := 0, m_rebuild_buffer_size := 0,
        m_max_memory_usage := 152, m_rebuild_counter := 0, m_has_data := true, m_root := 0,
        m_allocation_list := [0] } = true ↔
      (152 : Nat) ≠ 0 ∧ 3 * 8 + 2 * 64 ≥ 152) :=
  ⟨by decide,
   (needsRebuild_iff 8 64
      { numBlocks := 1, numThreadsPerBlock := 32, m_resolution := 10, allocInnerNodes := 2,
        allocLeafNodes := 3, m_extract_buffer_size := 0, m_rebuild_buffer_size := 0,
        m_max_memory_usage := 152, m_rebuild_counter := 0, m_has_data := true, m_root := 0,
        m_allocation_list := [0] } (by decide)).2.1⟩

/-- C14: after `clear`, for every prior state, every block of the old allocation list has
been released, the list holds exactly one block, the new root, `allocLeafNodes = 0` and
`allocInnerNodes = 1`; for the basic-status kind the new root is a freshly constructed node
with the unknown, static-map and dynamic-map bits added to its status, which is
`unknown | static-map | dynamic-map` when a freshly constructed node has status `0`; no
other member changes. -/
theorem clear_resets (c : NodeConsts) (default_node : InnerNode) (s : NTreeState)
    (d : Device) (h0 : default_node.m_status = 0) :
    (clear c NodeKind.basic default_node s d).2.freed = d.freed ++ s.m_allocation_list ∧
    (clear c NodeKind.basic default_node s d).1.m_root = d.next ∧
    (clear c NodeKind.basic default_node s d).1.m_allocation_list = [d.next] ∧
    (clear c NodeKind.basic default_node s d).1.allocLeafNodes = 0 ∧
    (clear c NodeKind.basic default_node s d).1.allocInnerNodes = 1 ∧
    (clear c NodeKind.basic default_node s d).2.nodeAt d.next =
      some { default_node with
        m_status := c.ns_UNKNOWN ||| c.ns_STATIC_MAP ||| c.ns_DYNAMIC_MAP } ∧
    (clear c NodeKind.basic default_node s d).1 =
      { s with m_root := d.next, m_allocation_list := [d.next], allocInnerNodes := 1,
               allocLeafNodes := 0 } := by
  simp [clear, cudaFreeAll, cudaMalloc, initRoot, Device.nodeAt, h0]

theorem clear_resets_witness :
    ((⟨0, 0⟩ : InnerNode).m_status = 0) ∧
    (clear sampleNodeConsts NodeKind.basic ⟨0, 0⟩
      { numBlocks := 1, numThreadsPerBlock := 32, m_resolution := 10, allocInnerNodes := 16,
        allocLeafNodes := 8, m_extract_buffer_size := 0, m_rebuild_buffer_size := 0,
        m_max_memory_usage := 0, m_rebuild_counter := 0, m_has_data := true, m_root := 2,
        m_allocation_list := [0, 1, 2] }
      { next := 3, freed := [], copied := [] }).2.freed = [] ++ [0, 1, 2] :=
  ⟨rfl,
   (clear_resets sampleNodeConsts ⟨0, 0⟩
      { numBlocks := 1, numThreadsPerBlock := 32, m_resolution := 10, allocInnerNodes := 16,
        allocLeafNodes := 8, m_extract_buffer_size := 0, m_rebuild_buffer_size := 0,
        m_max_memory_usage := 0, m_rebuild_counter := 0, m_has_data := true, m_root := 2,
        m_allocation_list := [0, 1, 2] }
      { next := 3, freed := [], copied := [] } rfl).1⟩

/-! ### The allocation list -/

/-- One call of the core `insertVoxel` appends at most one new block and releases none. -/
theorem insertVoxel_allocation (k : InsertCounts) (s : NTreeState) (d : Device) :
    (insertVoxel k s d).1.m_allocation_list =
      s.m_allocation_list ++ (if k.num_voxel = 0 then [] else [d.next]) ∧
    (insertVoxel k s d).2.freed = d.freed := by
  unfold insertVoxel
  split_ifs with h
  · simp
  · simp [cudaMalloc]

/-- A run of calls of the core `insertVoxel` appends blocks and releases none. -/
theorem insertVoxelAll_allocation (ks : List InsertCounts) (s : NTreeState) (d : Device) :
    (∃ new, (insertVoxelAll ks s d).1.m_allocation_list = s.m_allocation_list ++ new) ∧
    (insertVoxelAll ks s d).2.freed = d.freed := by
  induction ks generalizing s d with
  | nil => exact ⟨⟨[], by simp [insertVoxelAll]⟩, rfl⟩
  | cons k ks ih =>
    have h1 := insertVoxel_allocation k s d
    obtain ⟨⟨new, hnew⟩, hfreed⟩ := ih (insertVoxel k s d).1 (insertVoxel k s d).2
    have hstep : insertVoxelAll (k :: ks) s d =
        insertVoxelAll ks (insertVoxel k s d).1 (insertVoxel k s d).2 := rfl
    rw [hstep]
    refine ⟨⟨(if k.num_voxel = 0 then [] else [d.next]) ++ new, ?_⟩, ?_⟩
    · rw [hnew, h1.1, List.append_assoc]
    · rw [hfreed, h1.2]

/-- The level loop of `build` run over the levels `0 .. n-1` appends one new block for each
level and releases none. -/
theorem buildLoop_allocation (B : Nat) (k : BuildKernels) (st : BuildLoopState) (n : Nat) :
    ((List.range n).foldl (buildLevel B k) st).tree.m_allocation_list =
      st.tree.m_allocation_list ++ List.range' st.device.next n ∧
    ((List.range n).foldl (buildLevel B k) st).device.next = st.device.next + n ∧
    ((List.range n).foldl (buildLevel B k) st).device.freed = st.device.freed ∧
    ((List.range n).foldl (buildLevel B k) st).device.copied = st.device.copied := by
  induction n with
  | zero => simp
  | succ n ih =>
    obtain ⟨h1, h2, h3, h4⟩ := ih
    rw [List.range_succ, List.foldl_append]
    simp only [List.foldl_cons, List.foldl_nil]
    refine ⟨?_, ?_, ?_, ?_⟩
    · have : (buildLevel B k ((List.range n).foldl (buildLevel B k) st) n).tree.m_allocation_list
          = ((List.range n).foldl (buildLevel B k) st).tree.m_allocation_list ++
            [((List.range n).foldl (buildLevel B k) st).device.next] := by
        unfold buildLevel
        split_ifs <;> simp [cudaMalloc]
      rw [this, h1, h2, List.range'_concat, List.append_assoc]
      simp
    · simp [buildLevel, cudaMalloc, h2, Nat.add_assoc]
    · simp [buildLevel, cudaMalloc, h3]
    · simp [buildLevel, cudaMalloc, h4]

/-- A run of calls of the core `insertVoxel` appends one new block for every call with a
non-empty input, in call order, and releases none. -/
theorem insertVoxelAll_blocks (ks : List InsertCounts) (s : NTreeState) (d : Device) :
    (insertVoxelAll ks s d).1.m_allocation_list =
      s.m_allocation_list ++ List.range' d.next (ks.countP (fun k => k.num_voxel != 0)) ∧
    (insertVoxelAll ks s d).2.next = d.next + ks.countP (fun k => k.num_voxel != 0) ∧
    (insertVoxelAll ks s d).2.freed = d.freed := by
  induction ks generalizing s d with
  | nil => simp [insertVoxelAll]
  | cons k ks ih =>
    have hstep : insertVoxelAll (k :: ks) s d =
        insertVoxelAll ks (insertVoxel k s d).1 (insertVoxel k s d).2 := rfl
    obtain ⟨h1, h2, h3⟩ := ih (insertVoxel k s d).1 (insertVoxel k s d).2
    rw [hstep, h1, h2, h3]
    by_cases hk : k.num_voxel = 0
    · simp [insertVoxel, hk]
    · have hc : List.countP (fun k => k.num_voxel != 0) (k :: ks) =
          List.countP (fun k => k.num_voxel != 0) ks + 1 := by
        simp [List.countP_cons, hk]
      rw [hc, List.range'_succ]
      simp [insertVoxel, hk, cudaMalloc, Nat.add_assoc, Nat.add_comm 1]

/-- C15: `build` and the core `insertVoxel` only append to the allocation list and release
nothing.  Without the free bounding box a `build` whose range check passes returns, and its
allocation list is the old list followed by one new block for each of the `level_count`
levels.  With the free bounding box a `build` that returns has, after these `level_count`
blocks, one more block for every call of `insertVoxel` with a non-empty input made for the
box.  A call of `insertVoxel` appends one new block for a non-empty input and none for an
empty one.  The blocks of the list are released by `clear` and by the destructor, all of
them at once. -/
theorem allocation_list_grows (roundUp : Nat → Nat → Bool) (B L : Nat) (k : BuildKernels)
    (c : NodeConsts) (kind : NodeKind) (rootRead default_node : InnerNode)
    (packing : FreeBoxPacking) (boxCounts : Nat → InsertCounts) (d_voxels : List Nat)
    (s : NTreeState) (d : Device) (ic : InsertCounts) (biggest : Nat)
    (hpass : buildRangeCheck roundUp B L d_voxels = some (BuildCheck.pass biggest)) :
    (∃ o, build roundUp B L k c kind rootRead false packing boxCounts d_voxels s d =
        some o ∧
      o.tree.m_allocation_list = s.m_allocation_list ++ List.range' d.next L ∧
      o.device.freed = d.freed) ∧
    (∀ o, build roundUp B L k c kind rootRead true packing boxCounts d_voxels s d =
        some o →
      o.tree.m_allocation_list = s.m_allocation_list ++ List.range' d.next L ++
        List.range' (d.next + L)
          (((List.range L).reverse.map boxCounts).countP (fun k => k.num_voxel != 0)) ∧
      o.device.freed = d.freed) ∧
    ((insertVoxel ic s d).1.m_allocation_list =
      s.m_allocation_list ++ (if ic.num_voxel = 0 then [] else [d.next]) ∧
     (insertVoxel ic s d).2.freed = d.freed) ∧
    ((clear c kind default_node s d).2.freed = d.freed ++ s.m_allocation_list ∧
     (destructor s d).2.freed = d.freed ++ s.m_allocation_list) := by
  refine ⟨?_, ?_, insertVoxel_allocation ic s d, by simp [clear, cudaFreeAll, cudaMalloc],
    by simp [destructor, cudaFreeAll]⟩
  · obtain ⟨h1, _, h3, _⟩ := buildLoop_allocation B k
      { d_voxels := sortVoxels d_voxels,
        tree := { s with allocInnerNodes := 0, allocLeafNodes := 0 },
        device := d, childNodes := 0, numNodes := [] } L
    refine ⟨_, by simp only [build, hpass]; rfl, ?_, ?_⟩
    · simpa using h1
    · simpa using h3
  · intro o ho
    obtain ⟨h1, h2, h3, _⟩ := buildLoop_allocation B k
      { d_voxels := sortVoxels d_voxels,
        tree := { s with allocInnerNodes := 0, allocLeafNodes := 0 },
        device := d, childNodes := 0, numNodes := [] } L
    have h1' : (buildLoop B L k d_voxels s d).tree.m_allocation_list =
        s.m_allocation_list ++ List.range' d.next L := h1
    have h2' : (buildLoop B L k d_voxels s d).device.next = d.next + L := h2
    have h3' : (buildLoop B L k d_voxels s d).device.freed = d.freed := h3
    simp only [build, hpass, if_true, free_bounding_box] at ho
    split at ho
    · obtain ⟨b1, b2, b3⟩ := insertVoxelAll_blocks ((List.range L).reverse.map boxCounts)
        { (buildLoop B L k d_voxels s d).tree with
          m_root := (buildLoop B L k d_voxels s d).childNodes }
        { (buildLoop B L k d_voxels s d).device with
          copied := ((buildLoop B L k d_voxels s d).childNodes,
            { initRoot c kind rootRead with
              m_status := (initRoot c kind rootRead).m_status ||| c.ns_STATIC_MAP }) ::
            (buildLoop B L k d_voxels s d).device.copied }
      simp only [Option.map_some', Option.some.injEq] at ho
      subst ho
      refine ⟨?_, ?_⟩
      · show (insertVoxelAll _ _ _).1.m_allocation_list = _
        rw [b1]
        show (buildLoop B L k d_voxels s d).tree.m_allocation_list ++
          List.range' (buildLoop B L k d_voxels s d).device.next _ = _
        rw [h1', h2']
      · show (insertVoxelAll _ _ _).2.freed = _
        rw [b3]
        exact h3'
    · simp at ho

theorem allocation_list_grows_witness :
    buildRangeCheck (fun _ _ => false) 8 3 [5, 63, 2] = some (BuildCheck.pass 63) ∧
    (∃ o, build (fun _ _ => false) 8 3 (specKernels 8) sampleNodeConsts NodeKind.basic
        ⟨0, 0⟩ false
        { extra_levels := 0, size_v := 0, PACKING_OF_VOXEL := true,
          packCounts := fun _ => (0, 0) }
        (fun _ => { num_voxel := 0, d_neededNodesPerLevel := [] }) [5, 63, 2]
        sampleState sampleDevice = some o ∧
      o.tree.m_allocation_list = sampleState.m_allocation_list ++
        List.range' sampleDevice.next 3 ∧
      o.device.freed = sampleDevice.freed) ∧
    (∃ o, build (fun _ _ => false) 8 3 (specKernels 8) sampleNodeConsts NodeKind.basic
        ⟨0, 0⟩ true
        { extra_levels := 0, size_v := 0, PACKING_OF_VOXEL := true,
          packCounts := fun _ => (0, 0) }
        (fun _ => { num_voxel := 0, d_neededNodesPerLevel := [] })
        [5, 63, 2] sampleState sampleDevice = some o ∧
      o.tree.m_allocation_list = sampleState.m_allocation_list ++
        List.range' sampleDevice.next 3 ++ List.range' (sampleDevice.next + 3)
          (((List.range 3).reverse.map (fun _ =>
            ({ num_voxel := 0, d_neededNodesPerLevel := [] } : InsertCounts))).countP
            (fun k => k.num_voxel != 0))) ∧
    (insertVoxel { num_voxel := 1, d_neededNodesPerLevel := [1, 0, 0, 2, 0, 0, 0, 0, 0] }
        sampleState sampleDevice).1.m_allocation_list =
      sampleState.m_allocation_list ++ (if (1 : Nat) = 0 then [] else [sampleDevice.next]) :=
  ⟨by decide,
   (allocation_list_grows (fun _ _ => false) 8 3 (specKernels 8) sampleNodeConsts
      NodeKind.basic ⟨0, 0⟩ ⟨0, 0⟩
      { extra_levels := 0, size_v := 0, PACKING_OF_VOXEL := true,
        packCounts := fun _ => (0, 0) }
      (fun _ => { num_voxel := 0, d_neededNodesPerLevel := [] }) [5, 63, 2]
      sampleState sampleDevice
      { num_voxel := 1, d_neededNodesPerLevel := [1, 0, 0, 2, 0, 0, 0, 0, 0] } 63
      (by decide)).1,
   ⟨_, rfl,
    ((allocation_list_grows (fun _ _ => false) 8 3 (specKernels 8) sampleNodeConsts
      NodeKind.basic ⟨0, 0⟩ ⟨0, 0⟩
      { extra_levels := 0, size_v := 0, PACKING_OF_VOXEL := true,
        packCounts := fun _ => (0, 0) }
      (fun _ => { num_voxel := 0, d_neededNodesPerLevel := [] })
      [5, 63, 2] sampleState sampleDevice
      { num_voxel := 1, d_neededNodesPerLevel := [1, 0, 0, 2, 0, 0, 0, 0, 0] } 63
      (by decide)).2.1 _ rfl).1⟩,
   (allocation_list_grows (fun _ _ => false) 8 3 (specKernels 8) sampleNodeConsts
      NodeKind.basic ⟨0, 0⟩ ⟨0, 0⟩
      { extra_levels := 0, size_v := 0, PACKING_OF_VOXEL := true,
        packCounts := fun _ => (0, 0) }
      (fun _ => { num_voxel := 0, d_neededNodesPerLevel := [] }) [5, 63, 2]
      sampleState sampleDevice
      { num_voxel := 1, d_neededNodesPerLevel := [1, 0, 0, 2, 0, 0, 0, 0, 0] } 63
      (by decide)).2.2.1.1⟩

/-! ### The counters of `insertVoxel` -/

theorem exclusiveScanFrom_getD (xs : List Nat) (acc i : Nat) (hi : i < xs.length) :
    (exclusiveScanFrom acc xs).getD i 0 = acc + (xs.take i).sum := by
  induction xs generalizing acc i with
  | nil => simp at hi
  | cons x xs ih =>
    cases i with
    | zero => simp [exclusiveScanFrom]
    | succ i =>
      have hi' : i < xs.length := by simpa using hi
      have h := ih (acc + x) i hi'
      rw [List.getD_eq_getElem?_getD] at h ⊢
      simp only [exclusiveScanFrom, List.getElem?_cons_succ, List.take_succ_cons,
        List.sum_cons]
      rw [h, Nat.add_assoc]

theorem exclusiveScanFrom_getLast (xs : List Nat) (acc : Nat) (hne : xs ≠ []) :
    (exclusiveScanFrom acc xs).getLast? = some (acc + xs.dropLast.sum) := by
  induction xs generalizing acc with
  | nil => exact absurd rfl hne
  | cons x xs ih =>
    cases xs with
    | nil => simp [exclusiveScanFrom]
    | cons y ys =>
      have h := ih (acc + x) (by simp)
      simp only [exclusiveScanFrom] at h ⊢
      rw [List.getLast?_cons_cons, h]
      simp [Nat.add_assoc]

/-- C16: a call of the core `insertVoxel` on a non-empty input adds to `allocLeafNodes` the
prefix-sum value at index `numBlocks` (the sum of the first `numBlocks` counts) and to
`allocInnerNodes` the last prefix-sum value minus that leaf count, appends exactly one new
block to the allocation list, sets `m_has_data`, and changes no other member. -/
theorem insertVoxel_side_effects (k : InsertCounts) (s : NTreeState) (d : Device)
    (hne : k.num_voxel ≠ 0) (hidx : s.numBlocks < k.d_neededNodesPerLevel.length) :
    (insertVoxel k s d).1 =
      { s with m_allocation_list := s.m_allocation_list ++ [d.next],
               allocLeafNodes := s.allocLeafNodes + nLeafNodes s.numBlocks k,
               allocInnerNodes := s.allocInnerNodes + nInnerNodes s.numBlocks k,
               m_has_data := true } ∧
    nLeafNodes s.numBlocks k = (k.d_neededNodesPerLevel.take s.numBlocks).sum ∧
    nInnerNodes s.numBlocks k =
      k.d_neededNodesPerLevel.dropLast.sum - (k.d_neededNodesPerLevel.take s.numBlocks).sum ∧
    ((insertVoxel k s d).1.m_extract_buffer_size = s.m_extract_buffer_size ∧
     (insertVoxel k s d).1.m_rebuild_buffer_size = s.m_rebuild_buffer_size ∧
     (insertVoxel k s d).1.m_resolution = s.m_resolution ∧
     (insertVoxel k s d).1.m_max_memory_usage = s.m_max_memory_usage ∧
     (insertVoxel k s d).1.m_rebuild_counter = s.m_rebuild_counter ∧
     (insertVoxel k s d).1.numBlocks = s.numBlocks ∧
     (insertVoxel k s d).1.numThreadsPerBlock = s.numThreadsPerBlock ∧
     (insertVoxel k s d).1.m_root = s.m_root) := by
  have hleaf : nLeafNodes s.numBlocks k = (k.d_neededNodesPerLevel.take s.numBlocks).sum := by
    unfold nLeafNodes exclusive_scan
    rw [exclusiveScanFrom_getD _ 0 _ hidx, Nat.zero_add]
  have hnonempty : k.d_neededNodesPerLevel ≠ [] := by
    intro h
    rw [h] at hidx
    simp at hidx
  have hinner : nInnerNodes s.numBlocks k =
      k.d_neededNodesPerLevel.dropLast.sum - (k.d_neededNodesPerLevel.take s.numBlocks).sum := by
    unfold nInnerNodes exclusive_scan
    rw [exclusiveScanFrom_getLast _ 0 hnonempty, hleaf]
    simp
  refine ⟨?_, hleaf, hinner, ?_⟩
  · simp [insertVoxel, hne, cudaMalloc]
  · simp [insertVoxel, hne]

theorem insertVoxel_side_effects_witness :
    ((1 : Nat) ≠ 0 ∧ sampleState.numBlocks < [1, 0, 0, 2, 0, 0, 0, 0, 0].length) ∧
    (insertVoxel { num_voxel := 1, d_neededNodesPerLevel := [1, 0, 0, 2, 0, 0, 0, 0, 0] }
        sampleState sampleDevice).1 =
      { sampleState with
        m_allocation_list := [0, 1], allocLeafNodes := 0 + 1, allocInnerNodes := 1 + 2,
        m_has_data := true } :=
  ⟨⟨by decide, by decide⟩,
   (insertVoxel_side_effects
      { num_voxel := 1, d_neededNodesPerLevel := [1, 0, 0, 2, 0, 0, 0, 0, 0] }
      sampleState sampleDevice (by decide) (by decide)).1⟩

/-! ### Reset payloads, `propagate_bottom_up`, the level table -/

/-- C17 (as the code behaves): for the basic-status kind the soft-insert reset payload is
the hard-insert reset payload, subtree-cut bit `ns_PART` included. -/
theorem softReset_basic_eq_hardReset :
    getSoftInsertResetData sampleNodeConsts NodeKind.basic =
      getHardInsertResetData sampleNodeConsts NodeKind.basic ∧
    getSoftInsertResetData sampleNodeConsts NodeKind.basic = BasicData.basic (7 ||| 8) 0 := by
  constructor <;> decide

/-- C17 (amended): the hard-insert reset payload carries `STATUS_OCCUPANCY_MASK | ns_PART`
for both node kinds.  The soft-insert reset payload carries `STATUS_OCCUPANCY_MASK` alone
for the probabilistic kind, where it differs from the hard one as soon as `ns_PART` is not
part of the mask; for the basic-status kind it is the same value as the hard one. -/
theorem insertResetData_by_kind (c : NodeConsts) :
    (getHardInsertResetData c NodeKind.basic).status = c.STATUS_OCCUPANCY_MASK ||| c.ns_PART ∧
    (getHardInsertResetData c NodeKind.prob).status = c.STATUS_OCCUPANCY_MASK ||| c.ns_PART ∧
    (getSoftInsertResetData c NodeKind.prob).status = c.STATUS_OCCUPANCY_MASK ∧
    getSoftInsertResetData c NodeKind.basic = getHardInsertResetData c NodeKind.basic ∧
    (c.STATUS_OCCUPANCY_MASK ||| c.ns_PART ≠ c.STATUS_OCCUPANCY_MASK →
      getSoftInsertResetData c NodeKind.prob ≠ getHardInsertResetData c NodeKind.prob) := by
  refine ⟨rfl, rfl, rfl, rfl, ?_⟩
  intro hne h
  simp only [getSoftInsertResetData, getHardInsertResetData, BasicData.prob.injEq] at h
  exact hne h.1.symm

/-- C18 (as the code behaves): on a tree whose parent status `0` is not the union of its
children (one child has status `4`), `propagate_bottom_up` with one id at level `0` launches
no kernel and leaves the tree as it was, the parent still not aggregated. -/
theorem propagate_bottom_up_leaves_stale_parent :
    (propagate_bottom_up 2 ({ parent_status := 0, child_status := [4] } : OneLevelTree)
        [0] 1 0).tree = { parent_status := 0, child_status := [4] } ∧
    (propagate_bottom_up 2 ({ parent_status := 0, child_status := [4] } : OneLevelTree)
        [0] 1 0).tree.aggregated = false ∧
    (propagate_bottom_up 2 ({ parent_status := 0, child_status := [4] } : OneLevelTree)
        [0] 1 0).launched = [] ∧
    (propagate_bottom_up 2 ({ parent_status := 0, child_status := [4] } : OneLevelTree)
        [0] 1 0).visited = [0] := by
  refine ⟨?_, ?_, ?_, ?_⟩ <;> decide

/-- C18 (amended): `propagate_bottom_up(ids, n, level)` recomputes nothing.  With `n > 0` its
loop runs for the levels `level .. level_count - 2` in ascending order, but the body only
synchronises: no kernel is launched and the tree is left exactly as it was, whatever the
tree and the ids. -/
theorem propagate_bottom_up_is_noop {Tree : Type} (level_count : Nat) (tree : Tree)
    (d_voxel_id : List Nat) (num_voxel level : Nat) :
    (propagate_bottom_up level_count tree d_voxel_id num_voxel level).tree = tree ∧
    (propagate_bottom_up level_count tree d_voxel_id num_voxel level).launched = [] ∧
    (num_voxel ≠ 0 →
      (propagate_bottom_up level_count tree d_voxel_id num_voxel level).visited =
        List.range' level (level_count - 1 - level)) := by
  unfold propagate_bottom_up
  split_ifs with h
  · exact ⟨rfl, rfl, fun hn => absurd h hn⟩
  · exact ⟨rfl, rfl, fun _ => rfl⟩

/-- C20 (as the code behaves): for `branching_factor = 8` and `level_count = 3` the table
entry and the packing weight of level `0` are `1`, not `8^(3-1-0) = 64`, and those of level
`2` are `64`, not `8^(3-1-2) = 1`, however the library rounds. -/
theorem const_voxel_at_level_is_ascending :
    (const_voxel_at_level (fun _ _ => false) 8 3)[0]? = some (some 1) ∧
    (const_voxel_at_level (fun _ _ => true) 8 3)[0]? = some (some 1) ∧
    packWeight 8 0 = some 1 ∧ 8 ^ (3 - 1 - 0) = 64 ∧
    (const_voxel_at_level (fun _ _ => false) 8 3)[2]? = some (some 64) ∧
    (const_voxel_at_level (fun _ _ => true) 8 3)[2]? = some (some 64) ∧
    packWeight 8 2 = some 64 ∧ 8 ^ (3 - 1 - 2) = 1 := by
  refine ⟨?_, ?_, ?_, ?_, ?_, ?_, ?_, ?_⟩ <;> decide

/-- C20 (amended): a node at level `l`, counted from the leaves at level `0`, covers `B^l`
leaf cells: for every level `l` whose `B^l` is exactly a `double` (as every power below
`2^53` is) and fits 64 bits, entry `l` of the table installed as `const_voxel_at_level` is
`B^l`, and the weight the packing accounting gives a record of level `l` is `B^l` as
well. -/
theorem const_voxel_at_level_entry (roundUp : Nat → Nat → Bool) (B size l : Nat)
    (hl : l < size) (hfit : B ^ l < UINT64) (hd : isDouble (B ^ l) = true) :
    (const_voxel_at_level roundUp B size)[l]? = some (some (B ^ l)) ∧
    (B ^ l < UINT32 → packWeight B l = some (B ^ l)) ∧
    (B ^ l < 2 ^ 53 → isDouble (B ^ l) = true) := by
  refine ⟨?_, fun h => ?_, isDouble_of_lt _⟩
  · simp [const_voxel_at_level, toVoxelID, hl, hfit, (powDouble_cases roundUp B l).1 hd]
  · simp [packWeight, h]

theorem const_voxel_at_level_entry_witness :
    (1 < 3 ∧ 8 ^ 1 < UINT64 ∧ isDouble (8 ^ 1) = true) ∧
    (const_voxel_at_level (fun _ _ => true) 8 3)[1]? = some (some (8 ^ 1)) :=
  ⟨⟨by decide, by decide, by decide⟩,
   (const_voxel_at_level_entry (fun _ _ => true) 8 3 1 (by decide) (by decide)
     (by decide)).1⟩

/-! ### `build` on repeated points -/

theorem groupHeads_replicate (n a : Nat) : groupHeads (List.replicate (n + 1) a) = [a] := by
  induction n with
  | zero => rfl
  | succ n ih =>
    rw [List.replicate_succ, List.replicate_succ, groupHeads, if_pos rfl,
      ← List.replicate_succ]
    exact ih

theorem sortVoxels_replicate (n a : Nat) :
    sortVoxels (List.replicate n a) = List.replicate n a := by
  unfold sortVoxels
  apply List.Sorted.insertionSort_eq
  exact List.pairwise_replicate.mpr (Or.inr (Nat.le_refl a))

/-- Level `0` of `build` on `n + 1` copies of one id: one node group, whatever `n`. -/
theorem buildLevel_zero_replicate (B n id : Nat) (st : BuildLoopState)
    (hst : st.d_voxels = List.replicate (n + 1) id) :
    buildLevel B (specKernels B) st 0 =
      { d_voxels := [id / B],
        tree := { st.tree with
          m_allocation_list := st.tree.m_allocation_list ++ [st.device.next],
          allocLeafNodes := st.tree.allocLeafNodes + B * 1 },
        device := { st.device with next := st.device.next + 1 },
        childNodes := st.device.next,
        numNodes := st.numNodes ++ [1] } := by
  simp [buildLevel, specKernels, hst, List.map_replicate, groupHeads_replicate, cudaMalloc]

/-- The levels above `0` of `build` on a stream of one id: one node group for each level. -/
theorem buildLevels_singleton (B : Nat) (levels : List Nat) (st : BuildLoopState)
    (hst : ∃ x, st.d_voxels = [x]) (hlev : ∀ l ∈ levels, l ≠ 0) :
    (levels.foldl (buildLevel B (specKernels B)) st).numNodes =
      st.numNodes ++ List.replicate levels.length 1 ∧
    (levels.foldl (buildLevel B (specKernels B)) st).tree.allocInnerNodes =
      st.tree.allocInnerNodes + B * levels.length ∧
    (levels.foldl (buildLevel B (specKernels B)) st).tree.allocLeafNodes =
      st.tree.allocLeafNodes := by
  induction levels generalizing st with
  | nil => simp
  | cons l ls ih =>
    obtain ⟨x, hx⟩ := hst
    have hl : l ≠ 0 := hlev l (List.mem_cons_self l ls)
    have hstep : buildLevel B (specKernels B) st l =
        { d_voxels := [x / B],
          tree := { st.tree with
            m_allocation_list := st.tree.m_allocation_list ++ [st.device.next],
            allocInnerNodes := st.tree.allocInnerNodes + B * 1 },
          device := { st.device with next := st.device.next + 1 },
          childNodes := st.device.next,
          numNodes := st.numNodes ++ [1] } := by
      simp [buildLevel, specKernels, hx, groupHeads, cudaMalloc, hl]
    obtain ⟨h1, h2, h3⟩ := ih (buildLevel B (specKernels B) st l) ⟨x / B, by rw [hstep]⟩
      (fun m hm => hlev m (List.mem_cons_of_mem l hm))
    rw [List.foldl_cons]
    refine ⟨?_, ?_, ?_⟩
    · rw [h1, hstep]
      simp [List.replicate_succ]
    · rw [h2, hstep]
      simp only [List.length_cons, Nat.mul_succ, Nat.mul_zero, Nat.zero_add, Nat.mul_one]
      omega
    · rw [h3, hstep]

/-- The level loop of `build` gives the same result on `n + 1` copies of an id as on one. -/
theorem buildLoop_replicate (B L n id : Nat) (s : NTreeState) (d : Device) (hL : 1 ≤ L) :
    buildLoop B L (specKernels B) (List.replicate (n + 1) id) s d =
      buildLoop B L (specKernels B) [id] s d := by
  obtain ⟨L', rfl⟩ : ∃ L', L = L' + 1 := ⟨L - 1, by omega⟩
  unfold buildLoop
  rw [List.range_succ_eq_map, List.foldl_cons, List.foldl_cons,
    buildLevel_zero_replicate B n id _ (sortVoxels_replicate (n + 1) id),
    buildLevel_zero_replicate B 0 id _ (sortVoxels_replicate 1 id)]

/-- C19: with the kernels as section 4.2 of the spec describes them, `build` from `N` copies
of one in-range id returns what `build` from a single copy returns, for every `N >= 1` (where
the range limit `B^(level_count-1)` is exactly a `double`, so that it is the threshold): one
node group is counted at each of the `level_count` levels, so the counters are
`allocLeafNodes = B` (the `B` leaf slots of the one leaf group) and
`allocInnerNodes = B * (level_count - 1)`, independent of `N`. -/
theorem build_duplicates_single_path (roundUp : Nat → Nat → Bool) (B L N id : Nat)
    (c : NodeConsts) (kind : NodeKind) (rootRead : InnerNode) (packing : FreeBoxPacking)
    (boxCounts : Nat → InsertCounts) (s : NTreeState) (d : Device)
    (hL : 1 ≤ L) (hfit : B ^ (L - 1) < UINT64) (hdouble : isDouble (B ^ (L - 1)) = true)
    (hid : id < B ^ (L - 1)) (hN : 1 ≤ N) :
    build roundUp B L (specKernels B) c kind rootRead false packing boxCounts
        (List.replicate N id) s d =
      build roundUp B L (specKernels B) c kind rootRead false packing boxCounts [id] s d ∧
    ∃ o, build roundUp B L (specKernels B) c kind rootRead false packing boxCounts
        (List.replicate N id) s d = some o ∧
      o.numNodes = List.replicate L 1 ∧
      o.tree.allocLeafNodes = B ∧
      o.tree.allocInnerNodes = B * (L - 1) := by
  obtain ⟨n, rfl⟩ : ∃ n, N = n + 1 := ⟨N - 1, by omega⟩
  obtain ⟨L', rfl⟩ : ∃ L', L = L' + 1 := ⟨L - 1, by omega⟩
  have hpow : powDouble roundUp B (L' + 1 - 1) = B ^ (L' + 1 - 1) :=
    (powDouble_cases roundUp B (L' + 1 - 1)).1 hdouble
  have hcheck : ∀ m : Nat, buildRangeCheck roundUp B (L' + 1) (List.replicate (m + 1) id) =
      some (BuildCheck.pass id) := by
    intro m
    have hlast := sortVoxels_getLast (List.replicate (m + 1) id) id (by simp)
      (fun x hx => by rw [List.eq_of_mem_replicate hx])
    unfold buildRangeCheck
    rw [hlast, hpow]
    have hno : ¬ id ≥ B ^ (L' + 1 - 1) := by omega
    simp only [if_pos hfit, if_neg hno]
  have hloop := buildLoop_replicate B (L' + 1) n id s d hL
  have hone : build roundUp B (L' + 1) (specKernels B) c kind rootRead false packing
        boxCounts [id] s d =
      build roundUp B (L' + 1) (specKernels B) c kind rootRead false packing boxCounts
        (List.replicate (n + 1) id) s d := by
    have h0 := hcheck 0
    simp only [Nat.zero_add, List.replicate_one] at h0
    simp only [build, h0, hcheck n, hloop]
  refine ⟨hone.symm, ?_⟩
  have hlevels := buildLevels_singleton B ((List.range L').map Nat.succ)
    (buildLevel B (specKernels B)
      { d_voxels := sortVoxels [id],
        tree := { s with allocInnerNodes := 0, allocLeafNodes := 0 },
        device := d, childNodes := 0, numNodes := [] } 0)
    ⟨id / B, by
      rw [buildLevel_zero_replicate B 0 id _ (sortVoxels_replicate 1 id)]⟩
    (fun l hl => by
      obtain ⟨m, _, rfl⟩ := List.mem_map.mp hl
      exact Nat.succ_ne_zero m)
  have hfold : buildLoop B (L' + 1) (specKernels B) [id] s d =
      ((List.range L').map Nat.succ).foldl (buildLevel B (specKernels B))
        (buildLevel B (specKernels B)
          { d_voxels := sortVoxels [id],
            tree := { s with allocInnerNodes := 0, allocLeafNodes := 0 },
            device := d, childNodes := 0, numNodes := [] } 0) := by
    unfold buildLoop
    rw [List.range_succ_eq_map, List.foldl_cons]
  obtain ⟨h1, h2, h3⟩ := hlevels
  rw [← hfold] at h1 h2 h3
  rw [buildLevel_zero_replicate B 0 id _ (sortVoxels_replicate 1 id)] at h1 h2 h3
  refine ⟨_, by simp only [build, hcheck n, hloop]; rfl, ?_, ?_, ?_⟩
  · simp only [Bool.false_eq_true, if_false]
    rw [h1]
    simp [List.replicate_succ]
  · simp only [Bool.false_eq_true, if_false]
    rw [h3]
    simp
  · simp only [Bool.false_eq_true, if_false]
    rw [h2]
    simp

theorem build_duplicates_single_path_witness :
    (1 ≤ 3 ∧ 2 ^ (3 - 1) < UINT64 ∧ isDouble (2 ^ (3 - 1)) = true ∧ 3 < 2 ^ (3 - 1) ∧
      1 ≤ 4) ∧
    build (fun _ _ => false) 2 3 (specKernels 2) sampleNodeConsts NodeKind.basic ⟨0, 0⟩
        false
        { extra_levels := 0, size_v := 0, PACKING_OF_VOXEL := true,
          packCounts := fun _ => (0, 0) }
        (fun _ => { num_voxel := 0, d_neededNodesPerLevel := [] })
        (List.replicate 4 3) sampleState sampleDevice =
      build (fun _ _ => false) 2 3 (specKernels 2) sampleNodeConsts NodeKind.basic ⟨0, 0⟩
        false
        { extra_levels := 0, size_v := 0, PACKING_OF_VOXEL := true,
          packCounts := fun _ => (0, 0) }
        (fun _ => { num_voxel := 0, d_neededNodesPerLevel := [] })
        [3] sampleState sampleDevice :=
  ⟨⟨by decide, by decide, by decide, by decide, by decide⟩,
   (build_duplicates_single_path (fun _ _ => false) 2 3 4 3 sampleNodeConsts NodeKind.basic
      ⟨0, 0⟩
      { extra_levels := 0, size_v := 0, PACKING_OF_VOXEL := true,
        packCounts := fun _ => (0, 0) }
      (fun _ => { num_voxel := 0, d_neededNodesPerLevel := [] }) sampleState sampleDevice
      (by decide) (by decide) (by decide) (by decide) (by decide)).1⟩

/-- The blocks `internal_rebuild` releases are those of the old allocation list, through
its call of `clear`; the calls of `insertVoxel` that follow release none. -/
theorem internal_rebuild_releases (level_count : Nat) (c : NodeConsts) (kind : NodeKind)
    (default_node : InnerNode) (acc : RecordAccess) (counts : Nat → List Nat)
    (d_node_data : List NodeData) (num_cubes : Nat) (s : NTreeState) (d : Device) :
    (internal_rebuild level_count c kind default_node acc counts d_node_data num_cubes
      s d).2.freed = d.freed ++ s.m_allocation_list := by
  unfold internal_rebuild
  rw [(insertVoxelAll_allocation _ _ _).2]
  simp [clear, cudaFreeAll, cudaMalloc]

/-! ### The split level of the dual-tree `intersect` -/

/-- For a tree of at least two levels the subtractions of lines 940-941 do not wrap around:
the split level is `L - 1 - min(llog, L - 2)` in the natural numbers, whatever the value
`llog` of line 939. -/
theorem splitLevel_eq (v L : Nat) (hL : 2 ≤ L) (hL32 : L < UINT32) :
    splitLevel v L = L - 1 - min (v % UINT64) (L - 2) := by
  simp only [splitLevel, usub64, UINT64, UINT32] at *
  omega

/-- Where rounding cannot change it, the value of line 939 is the integer logarithm. -/
theorem llog_of_robust (rounded B W : Nat) (h : llogRobust B W = true) :
    llog rounded B W = Nat.log B W := by
  simp [llog, h]

theorem log_8_100 : Nat.log 8 100 = 2 := by
  rw [Nat.log_eq_iff (Or.inl (by decide))]
  decide

theorem llogRobust_8_100 : llogRobust 8 100 = true := by
  unfold llogRobust
  rw [log_8_100]
  decide

theorem log_8_two_pow_31 : Nat.log 8 (2 ^ 31) = 10 := by
  rw [Nat.log_eq_iff (Or.inl (by decide))]
  decide

theorem llogRobust_8_two_pow_31 : llogRobust 8 (2 ^ 31) = true := by
  unfold llogRobust
  rw [log_8_two_pow_31]
  decide

/-- C21 (as stated, refuted): for `B = 8`, `L = 9` and `W = 4 * 25 = 100` workers the tree
is deep enough (`8^7 ≥ 100`), the quotient `log 100 / log 8 = 2.21..` is truncated to `2`
however the library rounds, the split level is `6`, and the number of subtrees at the split
level is `8^2 = 64`, fewer than the `100` workers. -/
theorem splitLevel_fewer_subtrees_than_workers :
    workerCount 4 25 = 100 ∧ 100 ≤ 8 ^ (9 - 2) ∧
    (∀ rounded, llog rounded 8 100 = 2) ∧
    (∀ rounded, splitLevel (llog rounded 8 100) 9 = 6) ∧
    (∀ rounded, 8 ^ (9 - 1 - splitLevel (llog rounded 8 100) 9) = 64) ∧ 64 < 100 := by
  have hl : ∀ rounded, llog rounded 8 100 = 2 := fun rounded => by
    rw [llog_of_robust rounded 8 100 llogRobust_8_100, log_8_100]
  have hs : ∀ rounded, splitLevel (llog rounded 8 100) 9 = 6 := fun rounded => by
    rw [hl, splitLevel_eq 2 9 (by decide) (by decide)]
    decide
  refine ⟨by decide, by decide, hl, hs, fun rounded => ?_, by decide⟩
  rw [hs]
  decide

/-- C21 (amended): the number of subtrees at the split level, `B^(L-1-splitLevel)`, is
`B^min(llog, L-2)` for the value `llog` of line 939, whatever it is.  For a worker count `W`
that is not close to a power of `B` (`llogRobust`), `llog` is the integer logarithm of `W`
to base `B`, rounded down, and for a tree deep enough (`B^(L-2) ≥ W`) the number of subtrees
is the largest power of `B` that is at most `W`: at most `W`, more than `W / B`, and fewer
than `W` unless `W = 1`. -/
theorem splitLevel_subtrees_le_workers (rounded B L W : Nat) (hL : 2 ≤ L)
    (hL32 : L < UINT32) (hrobust : llogRobust B W = true) (hdeep : W ≤ B ^ (L - 2)) :
    (∀ v, v < UINT64 → L - 1 - splitLevel v L = min v (L - 2)) ∧
    L - 1 - splitLevel (llog rounded B W) L = Nat.log B W ∧
    B ^ (L - 1 - splitLevel (llog rounded B W) L) ≤ W ∧
    W < B * B ^ (L - 1 - splitLevel (llog rounded B W) L) ∧
    (W ≠ 1 → B ^ (L - 1 - splitLevel (llog rounded B W) L) < W) := by
  have hgen : ∀ v, v < UINT64 → L - 1 - splitLevel v L = min v (L - 2) := fun v hv => by
    rw [splitLevel_eq v L hL hL32, Nat.mod_eq_of_lt hv]
    omega
  have hr := hrobust
  simp only [llogRobust, Bool.and_eq_true, Bool.or_eq_true, decide_eq_true_eq,
    beq_iff_eq] at hr
  obtain ⟨⟨hB, _, hW, _⟩, hreg⟩ := hr
  have hle : Nat.log B W ≤ L - 2 := by
    calc Nat.log B W ≤ Nat.log B (B ^ (L - 2)) := Nat.log_mono_right hdeep
      _ = L - 2 := Nat.log_pow (by omega) _
  have he : L - 1 - splitLevel (llog rounded B W) L = Nat.log B W := by
    rw [llog_of_robust rounded B W hrobust,
      hgen _ (by simp only [UINT32, UINT64] at *; omega), min_eq_left hle]
  rw [he]
  have hpow : B ^ Nat.log B W ≤ W := Nat.pow_log_le_self B (by omega)
  refine ⟨hgen, rfl, hpow, ?_, fun hne => ?_⟩
  · rw [← pow_succ']
    exact Nat.lt_pow_succ_log_self (by omega) W
  · rcases hreg with h1 | ⟨h9, _⟩
    · exact absurd h1 hne
    · have : 0 < B ^ Nat.log B W := pow_pos (by omega) _
      omega

theorem splitLevel_subtrees_le_workers_witness :
    (2 ≤ 9 ∧ 9 < UINT32 ∧ llogRobust 8 100 = true ∧ 100 ≤ 8 ^ (9 - 2)) ∧
    8 ^ (9 - 1 - splitLevel (llog 0 8 100) 9) ≤ 100 ∧
    (100 ≠ 1 → 8 ^ (9 - 1 - splitLevel (llog 0 8 100) 9) < 100) :=
  ⟨⟨by decide, by decide, llogRobust_8_100, by decide⟩,
   (splitLevel_subtrees_le_workers 0 8 9 100 (by decide) (by decide) llogRobust_8_100
     (by decide)).2.2.1,
   (splitLevel_subtrees_le_workers 0 8 9 100 (by decide) (by decide) llogRobust_8_100
     (by decide)).2.2.2.2⟩

/-- C28: for every level count `L ≥ 2` and whatever the value `llog` of line 939, the split
level satisfies `1 ≤ splitLevel ≤ L - 1` and the unsigned subtractions do not wrap around
(the value is `L - 1 - min(llog, L - 2)` in the natural numbers).  The number of entries of
the traversal stack is positive where the product `numBlocks * numThreadsPerBlock *
splitLevel` fits 32 bits, and it is `0` where that product is a multiple of `2^32`. -/
theorem splitLevel_valid_stack_wraps (v B L numBlocks numThreadsPerBlock : Nat) (hL : 2 ≤ L)
    (hL32 : L < UINT32) (hB : 1 ≤ B) (hB32 : B < UINT32)
    (hW : 1 ≤ workerCount numBlocks numThreadsPerBlock) :
    1 ≤ splitLevel v L ∧ splitLevel v L ≤ L - 1 ∧
    splitLevel v L = L - 1 - min (v % UINT64) (L - 2) ∧
    (workerCount numBlocks numThreadsPerBlock * splitLevel v L < UINT32 →
      0 < intersectStackSize B numBlocks numThreadsPerBlock (splitLevel v L)) ∧
    (workerCount numBlocks numThreadsPerBlock * splitLevel v L % UINT32 = 0 →
      intersectStackSize B numBlocks numThreadsPerBlock (splitLevel v L) = 0) := by
  have he := splitLevel_eq v L hL hL32
  have h1 : 1 ≤ splitLevel v L := by
    rw [he]
    omega
  refine ⟨h1, by rw [he]; omega, he, fun hfit => ?_, fun hz => ?_⟩
  · unfold intersectStackSize
    rw [Nat.mod_eq_of_lt hfit]
    have hpos : 0 < workerCount numBlocks numThreadsPerBlock * splitLevel v L :=
      Nat.mul_pos hW h1
    have hlt : workerCount numBlocks numThreadsPerBlock * splitLevel v L * B <
        UINT32 * UINT32 := Nat.mul_lt_mul'' hfit hB32
    rw [Nat.mod_eq_of_lt (by simp only [UINT32, UINT64] at *; omega)]
    exact Nat.mul_pos hpos hB
  · unfold intersectStackSize
    rw [hz]
    simp

theorem splitLevel_valid_stack_wraps_witness :
    (2 ≤ 13 ∧ 13 < UINT32 ∧ 1 ≤ 8 ∧ 8 < UINT32 ∧ 1 ≤ workerCount (2 ^ 21) (2 ^ 10)) ∧
    workerCount (2 ^ 21) (2 ^ 10) = 2 ^ 31 ∧
    (∀ rounded, llog rounded 8 (2 ^ 31) = 10) ∧
    splitLevel 10 13 = 2 ∧
    intersectStackSize 8 (2 ^ 21) (2 ^ 10) (splitLevel 10 13) = 0 :=
  ⟨⟨by decide, by decide, by decide, by decide, by decide⟩, by decide,
   fun rounded => by
     rw [llog_of_robust rounded 8 (2 ^ 31) llogRobust_8_two_pow_31, log_8_two_pow_31],
   by decide,
   (splitLevel_valid_stack_wraps 10 8 13 (2 ^ 21) (2 ^ 10) (by decide) (by decide)
     (by decide) (by decide) (by decide)).2.2.2.2 (by decide)⟩

/-! ### The value `extractCubes` returns -/

/-- C23: on every path of `extractCubes` that returns (no `exit(0)`), the value returned
equals the size of `d_cubes` after the call and the count the first fill pass reported, also
when a second fill pass ran, whose own count is not returned; when the process exits there
is no value. -/
theorem extractCubes_returns_first_fill_count (INITIAL : Nat) (cbe : Bool) (lb : LoadBalancer)
    (ds : Bool) (ml m : Nat) :
    ((extractCubes INITIAL cbe lb ds ml m).exited = false →
      (extractCubes INITIAL cbe lb ds ml m).result =
        some (lb (extractFillArgs ds ml
          (if cbe then lb (extractCountArgs ds ml) % UINT32 else m)) % UINT32) ∧
      (extractCubes INITIAL cbe lb ds ml m).result =
        (fillPasses (extractCubes INITIAL cbe lb ds ml m).runs).head?.map
          (fun r => r.m_num_elements)) ∧
    ((extractCubes INITIAL cbe lb ds ml m).exited = true →
      (extractCubes INITIAL cbe lb ds ml m).result = none) ∧
    ((extractCubes INITIAL cbe lb ds ml m).d_cubes_size =
      (extractCubes INITIAL cbe lb ds ml m).result) := by
  cases cbe <;>
    simp only [extractCubes, runPass, fillPasses, Bool.false_eq_true, if_false, if_true] <;>
    split_ifs <;>
    simp [extractFillArgs_count_mode, extractCountArgs_count_mode]

/-! ### An empty insert -/

/-- C24: the core `insertVoxel` called with `num_voxel = 0` returns at once, for every
target level, payload and reset data and whatever the counting kernel would report: the
tree object and the device are unchanged, in particular the allocation list,
`allocLeafNodes`, `allocInnerNodes` and `m_has_data`. -/
theorem insertVoxel_zero_is_noop (countKernel : InsertVoxelCall → Nat → List Nat)
    (call : InsertVoxelCall) (s : NTreeState) (d : Device) :
    insertVoxelCall countKernel call 0 s d = (s, d) ∧
    (insertVoxelCall countKernel call 0 s d).1.m_allocation_list = s.m_allocation_list ∧
    (insertVoxelCall countKernel call 0 s d).1.allocLeafNodes = s.allocLeafNodes ∧
    (insertVoxelCall countKernel call 0 s d).1.allocInnerNodes = s.allocInnerNodes ∧
    (insertVoxelCall countKernel call 0 s d).1.m_has_data = s.m_has_data := by
  have h : insertVoxelCall countKernel call 0 s d = (s, d) := by
    simp [insertVoxelCall, insertVoxel]
  rw [h]
  exact ⟨rfl, rfl, rfl, rfl, rfl⟩

/-! ### The memory cap set by the constructor -/

/-- C27: the constructor sets `m_max_memory_usage` to `200 * 1024 * 1014 = 207667200`,
which is `2048000` bytes short of the `200 * 1024 * 1024 = 209715200` bytes of 200 MB. -/
theorem constructor_max_memory_usage (INITIAL_EXTRACT INITIAL_REBUILD : Nat) (c : NodeConsts)
    (kind : NodeKind) (default_node : InnerNode) (numBlocks numThreadsPerBlock resolution : Nat)
    (d : Device) :
    (constructor INITIAL_EXTRACT INITIAL_REBUILD c kind default_node numBlocks
      numThreadsPerBlock resolution d).1.m_max_memory_usage = 207667200 ∧
    (constructor INITIAL_EXTRACT INITIAL_REBUILD c kind default_node numBlocks
      numThreadsPerBlock resolution d).1.m_max_memory_usage ≠ 200 * 1024 * 1024 ∧
    (constructor INITIAL_EXTRACT INITIAL_REBUILD c kind default_node numBlocks
      numThreadsPerBlock resolution d).1.m_max_memory_usage + 2048000 = 200 * 1024 * 1024 := by
  have h : (constructor INITIAL_EXTRACT INITIAL_REBUILD c kind default_node numBlocks
      numThreadsPerBlock resolution d).1.m_max_memory_usage = 200 * 1024 * 1014 := rfl
  rw [h]
  norm_num

/-! ### The scan range of `build` -/

/-- The ceiling of a quotient times the divisor reaches the dividend. -/
theorem le_ceilDiv_mul (a b : Nat) (hb : 0 < b) : a ≤ ceilDiv a b * b := by
  unfold ceilDiv
  have := Nat.lt_div_mul_add (a := a + b - 1) hb
  omega

/-- C29: for `num_points ≥ 1` and a thread total `T ≥ 1`, the number of partitions used,
`ceil(num_points / ceil(num_points / T))`, lies in `1 .. T`, so that `lastThread`, one less,
satisfies `lastThread < T`, and so do all indices of the scan range `[0, lastThread]`. -/
theorem lastThread_in_bounds (num_points T : Nat) (hn : 1 ≤ num_points) (hT : 1 ≤ T) :
    1 ≤ usedThreads num_points T ∧ usedThreads num_points T ≤ T ∧
    lastThread num_points T < T ∧
    (∀ i, i ≤ lastThread num_points T → i < T) ∧
    (T < UINT32 → lastThread num_points T + 1 = usedThreads num_points T) := by
  have hc := le_ceilDiv_mul num_points T hT
  have hc1 : 1 ≤ ceilDiv num_points T := by
    rcases Nat.eq_zero_or_pos (ceilDiv num_points T) with h | h
    · rw [h] at hc
      omega
    · exact h
  have hu1 : 1 ≤ usedThreads num_points T := by
    unfold usedThreads
    have := le_ceilDiv_mul num_points (ceilDiv num_points T) hc1
    rcases Nat.eq_zero_or_pos (ceilDiv num_points (ceilDiv num_points T)) with h | h
    · rw [h] at this
      omega
    · exact h
  have huT : usedThreads num_points T ≤ T := by
    unfold usedThreads
    generalize ceilDiv num_points T = c at hc hc1
    unfold ceilDiv
    apply Nat.le_of_lt_succ
    rw [Nat.div_lt_iff_lt_mul hc1]
    show num_points + c - 1 < (T + 1) * c
    have : (T + 1) * c = c * T + c := by ring
    omega
  have hlt : lastThread num_points T < T := by
    unfold lastThread
    have := Nat.mod_le (usedThreads num_points T - 1) UINT32
    omega
  refine ⟨hu1, huT, hlt, fun i hi => by omega, fun h32 => ?_⟩
  unfold lastThread
  rw [Nat.mod_eq_of_lt (by omega)]
  omega

theorem lastThread_in_bounds_witness :
    (1 ≤ 1000 ∧ 1 ≤ 64) ∧ lastThread 1000 64 < 64 :=
  ⟨⟨by decide, by decide⟩, (lastThread_in_bounds 1000 64 (by decide) (by decide)).2.2.1⟩

/-! ### The block the core `insertVoxel` allocates -/

/-- C30: for leaf and inner counts of 32 bits and node sizes up to `2^31` bytes, the
padding satisfies `alignment < 128` and `(leafLevel_size + alignment) mod 128 = 0`; the leaf
nodes start at offset `0` and take `leafLevel_size = nLeaf * sizeof(LeafNode)` bytes, the
inner nodes start at offset `leafLevel_size + alignment`, at or after the end of the leaf
region, and the allocated size `nSize` is that offset plus `nInner * sizeof(InnerNode)`: the
block ends where the inner region ends. -/
theorem insertVoxel_block_layout (nLeaf nInner sizeofLeafNode sizeofInnerNode : Nat)
    (hLeaf : nLeaf < UINT32) (hInner : nInner < UINT32)
    (hsl : sizeofLeafNode ≤ 2 ^ 31) (hsi : sizeofInnerNode ≤ 2 ^ 31) :
    leafLevel_size nLeaf sizeofLeafNode = nLeaf * sizeofLeafNode ∧
    alignment nLeaf sizeofLeafNode < 128 ∧
    (leafLevel_size nLeaf sizeofLeafNode + alignment nLeaf sizeofLeafNode) % 128 = 0 ∧
    innerNodesOffset nLeaf sizeofLeafNode =
      leafLevel_size nLeaf sizeofLeafNode + alignment nLeaf sizeofLeafNode ∧
    leafNodesOffset + leafLevel_size nLeaf sizeofLeafNode ≤
      innerNodesOffset nLeaf sizeofLeafNode ∧
    nSize nLeaf nInner sizeofLeafNode sizeofInnerNode =
      innerNodesOffset nLeaf sizeofLeafNode + nInner * sizeofInnerNode := by
  have h1 : nLeaf * sizeofLeafNode ≤ (2 ^ 32 - 1) * 2 ^ 31 :=
    Nat.mul_le_mul (by simp only [UINT32] at hLeaf; omega) hsl
  have h2 : nInner * sizeofInnerNode ≤ (2 ^ 32 - 1) * 2 ^ 31 :=
    Nat.mul_le_mul (by simp only [UINT32] at hInner; omega) hsi
  have hl : leafLevel_size nLeaf sizeofLeafNode = nLeaf * sizeofLeafNode := by
    unfold leafLevel_size
    apply Nat.mod_eq_of_lt
    simp only [UINT64]
    omega
  have ha : alignment nLeaf sizeofLeafNode < 128 := by
    unfold alignment
    split_ifs <;> omega
  have hm : (leafLevel_size nLeaf sizeofLeafNode + alignment nLeaf sizeofLeafNode) % 128
      = 0 := by
    unfold alignment
    split_ifs <;> omega
  refine ⟨hl, ha, hm, rfl, ?_, ?_⟩
  · unfold innerNodesOffset leafNodesOffset
    omega
  · unfold nSize innerNodesOffset
    apply Nat.mod_eq_of_lt
    rw [hl]
    simp only [UINT64]
    omega

theorem insertVoxel_block_layout_witness :
    (5 < UINT32 ∧ 7 < UINT32 ∧ 12 ≤ 2 ^ 31 ∧ 16 ≤ 2 ^ 31) ∧
    alignment 5 12 < 128 ∧ (leafLevel_size 5 12 + alignment 5 12) % 128 = 0 ∧
    nSize 5 7 12 16 = innerNodesOffset 5 12 + 7 * 16 :=
  ⟨⟨by decide, by decide, by decide, by decide⟩,
   (insertVoxel_block_layout 5 7 12 16 (by decide) (by decide) (by decide) (by decide)).2.1,
   (insertVoxel_block_layout 5 7 12 16 (by decide) (by decide) (by decide) (by decide)).2.2.1,
   (insertVoxel_block_layout 5 7 12 16 (by decide) (by decide) (by decide)
     (by decide)).2.2.2.2.2⟩

/-! ### The levels of the sensor-update `insertVoxel` -/

theorem log2u_pow (k : Nat) : log2u (2 ^ k) = k := Nat.log_pow (by decide) k

/-- Resolutions that are `m_resolution` times a power of two pass the assertions of lines
2156-2163. -/
theorem sensorAsserts_pow (m k j : Nat) (hm : 0 < m) (hk : 2 ^ k < UINT32)
    (hj : 2 ^ j < UINT32) : sensorAsserts m (m * 2 ^ k) (m * 2 ^ j) = true := by
  unfold sensorAsserts
  rw [Nat.mul_div_cancel_left _ hm, Nat.mul_div_cancel_left _ hm, log2u_pow, log2u_pow,
    Nat.mod_eq_of_lt hk, Nat.mod_eq_of_lt hj, Nat.mul_mod_right, Nat.mul_mod_right]
  have : m ≠ 0 := by omega
  simp [this]

/-- C25: for `free_space_resolution = m_resolution * 2^k` and
`object_resolution = m_resolution * 2^j` the assertions pass and the sensor-update
`insertVoxel` calls the core `insertVoxel` `level_count + 1` times: first, for every
`l` in `0 .. level_count-1` in turn, with the packed free-space records of packing level `l`,
the soft-insert reset payload and the tree level `k + l`; then, last, with the object voxels,
the hard-insert reset payload and the tree level `j`. -/
theorem sensorInsertCalls_levels (level_count : Nat) (c : NodeConsts) (kind : NodeKind)
    (trafoVoxelID : Nat → Nat → Nat) (m k j : Nat) (has_free_space : Bool)
    (packed : Nat → List (Nat × BasicData)) (object : List (Nat × BasicData))
    (hm : 0 < m) (hk : 2 ^ k < UINT32) (hj : 2 ^ j < UINT32) :
    ∃ free_calls object_call,
      sensorInsertCalls level_count c kind trafoVoxelID m (m * 2 ^ k) (m * 2 ^ j)
        has_free_space packed object = some (free_calls ++ [object_call]) ∧
      free_calls.length = level_count ∧
      (∀ l, l < level_count → ∃ call, free_calls[l]? = some call ∧
        call.1.target_level = k + l ∧
        call.1.reset_data = getSoftInsertResetData c kind ∧
        call.1.d_set_basic_data =
          (if has_free_space then packed l else []).map (fun e => e.2) ∧
        call.2 = (if has_free_space then packed l else []).length) ∧
      object_call.1.target_level = j ∧
      object_call.1.reset_data = getHardInsertResetData c kind ∧
      object_call.1.d_set_basic_data = object.map (fun e => e.2) ∧
      object_call.2 = object.length := by
  unfold sensorInsertCalls
  rw [if_pos (sensorAsserts_pow m k j hm hk hj)]
  simp only [Nat.mul_div_cancel_left _ hm, log2u_pow]
  refine ⟨_, _, rfl, by simp, ?_, rfl, rfl, rfl, rfl⟩
  intro l hl
  simp [List.getElem?_map, List.getElem?_range hl]

theorem sensorInsertCalls_levels_witness :
    (0 < 10 ∧ 2 ^ 1 < UINT32 ∧ 2 ^ 0 < UINT32) ∧
    ∃ free_calls object_call,
      sensorInsertCalls 3 sampleNodeConsts NodeKind.prob (fun scale id => scale * id)
        10 (10 * 2 ^ 1) (10 * 2 ^ 0) true (fun l => [(l, BasicData.prob 1 0 5)])
        [(7, BasicData.prob 4 0 127)] = some (free_calls ++ [object_call]) ∧
      free_calls.length = 3 ∧
      (∀ l, l < 3 → ∃ call, free_calls[l]? = some call ∧
        call.1.target_level = 1 + l ∧
        call.1.reset_data = getSoftInsertResetData sampleNodeConsts NodeKind.prob ∧
        call.1.d_set_basic_data =
          (if true = true then (fun l => [(l, BasicData.prob 1 0 5)]) l else []).map
            (fun e => e.2) ∧
        call.2 = (if true = true then (fun l => [(l, BasicData.prob 1 0 5)]) l else []).length) ∧
      object_call.1.target_level = 0 ∧
      object_call.1.reset_data = getHardInsertResetData sampleNodeConsts NodeKind.prob ∧
      object_call.1.d_set_basic_data = [(7, BasicData.prob 4 0 127)].map (fun e => e.2) ∧
      object_call.2 = [(7, BasicData.prob 4 0 127)].length :=
  ⟨⟨by decide, by decide, by decide⟩,
   sensorInsertCalls_levels 3 sampleNodeConsts NodeKind.prob (fun scale id => scale * id)
     10 1 0 true (fun l => [(l, BasicData.prob 1 0 5)]) [(7, BasicData.prob 4 0 127)]
     (by decide) (by decide) (by decide)⟩

/-! ### The rebuild counter -/

theorem insertVoxel_rebuild_counter (k : InsertCounts) (s : NTreeState) (d : Device) :
    (insertVoxel k s d).1.m_rebuild_counter = s.m_rebuild_counter := by
  unfold insertVoxel
  split_ifs <;> rfl

theorem insertVoxelAll_rebuild_counter (ks : List InsertCounts) (s : NTreeState)
    (d : Device) : (insertVoxelAll ks s d).1.m_rebuild_counter = s.m_rebuild_counter := by
  induction ks generalizing s d with
  | nil => rfl
  | cons k ks ih =>
    have hstep : insertVoxelAll (k :: ks) s d =
        insertVoxelAll ks (insertVoxel k s d).1 (insertVoxel k s d).2 := rfl
    rw [hstep, ih, insertVoxel_rebuild_counter]

theorem buildLoop_rebuild_counter (B : Nat) (k : BuildKernels) (st : BuildLoopState)
    (n : Nat) :
    ((List.range n).foldl (buildLevel B k) st).tree.m_rebuild_counter =
      st.tree.m_rebuild_counter := by
  induction n with
  | zero => simp
  | succ n ih =>
    rw [List.range_succ, List.foldl_append]
    simp only [List.foldl_cons, List.foldl_nil]
    rw [← ih]
    unfold buildLevel
    split_ifs <;> rfl

/-- A call of `internal_rebuild` increases the rebuild counter by one. -/
theorem internal_rebuild_counter (level_count : Nat) (c : NodeConsts) (kind : NodeKind)
    (default_node : InnerNode) (acc : RecordAccess) (counts : Nat → List Nat)
    (d_node_data : List NodeData) (num_cubes : Nat) (s : NTreeState) (d : Device) :
    (internal_rebuild level_count c kind default_node acc counts d_node_data num_cubes
      s d).1.m_rebuild_counter = s.m_rebuild_counter + 1 := by
  unfold internal_rebuild
  rw [insertVoxelAll_rebuild_counter]
  rfl

/-- The extraction of `rebuild` hands on a count exactly when it did not exit. -/
theorem rebuildExtract_num_cubes (INITIAL : Nat) (cbe : Bool) (lb : LoadBalancer) (m : Nat) :
    (rebuildExtract INITIAL cbe lb m).num_cubes.isSome =
      !(rebuildExtract INITIAL cbe lb m).exited := by
  unfold rebuildExtract
  simp only
  split_ifs <;> rfl

/-- C26: a call of `rebuild` returns exactly when its extraction does not exit, and then
`m_rebuild_counter` is two higher than before; a call of `deserialize` that has a defined
outcome leaves it one higher, as every call of `internal_rebuild` does; `build`, the core
`insertVoxel`, `clear` and the destructor leave it as it was. -/
theorem rebuild_counter_accounting (INITIAL : Nat) (cbe : Bool) (lb : LoadBalancer)
    (level_count : Nat) (c : NodeConsts) (kind : NodeKind) (default_node : InnerNode)
    (acc : RecordAccess) (counts : Nat → List Nat) (d_node_data : List NodeData)
    (num_cubes : Nat) (bin_mode : Bool) (sizeofNodeData : Nat)
    (scanNodeData : NodeData → IStream → NodeData × IStream) (default_record : NodeData)
    (input : IStream) (roundUp : Nat → Nat → Bool) (B L : Nat) (k : BuildKernels)
    (rootRead : InnerNode) (withFreeBox : Bool) (packing : FreeBoxPacking)
    (boxCounts : Nat → InsertCounts) (d_voxels : List Nat)
    (ic : InsertCounts) (s : NTreeState) (d : Device) :
    (rebuild INITIAL cbe lb level_count c kind default_node acc counts d_node_data
        s d).map (fun r => r.1.m_rebuild_counter) =
      (if (rebuildExtract INITIAL cbe lb s.m_rebuild_buffer_size).exited then none
       else some (s.m_rebuild_counter + 2)) ∧
    (deserializeTree bin_mode sizeofNodeData scanNodeData default_record level_count c kind
        default_node acc counts input s d).map (fun r => r.1.1.m_rebuild_counter) =
      (deserialize bin_mode sizeofNodeData scanNodeData default_record input).map
        (fun _ => s.m_rebuild_counter + 1) ∧
    (internal_rebuild level_count c kind default_node acc counts d_node_data num_cubes
      s d).1.m_rebuild_counter = s.m_rebuild_counter + 1 ∧
    (build roundUp B L k c kind rootRead withFreeBox packing boxCounts d_voxels s d).map
        (fun o => o.tree.m_rebuild_counter) =
      (build roundUp B L k c kind rootRead withFreeBox packing boxCounts d_voxels s d).map
        (fun _ => s.m_rebuild_counter) ∧
    (insertVoxel ic s d).1.m_rebuild_counter = s.m_rebuild_counter ∧
    (clear c kind default_node s d).1.m_rebuild_counter = s.m_rebuild_counter ∧
    (destructor s d).1.m_rebuild_counter = s.m_rebuild_counter := by
  refine ⟨?_, ?_, internal_rebuild_counter _ _ _ _ _ _ _ _ _ _, ?_,
    insertVoxel_rebuild_counter _ _ _, rfl, rfl⟩
  · have h := rebuildExtract_num_cubes INITIAL cbe lb s.m_rebuild_buffer_size
    unfold rebuild
    simp only
    cases hn : (rebuildExtract INITIAL cbe lb s.m_rebuild_buffer_size).num_cubes with
    | none =>
      rw [hn] at h
      have he : (rebuildExtract INITIAL cbe lb s.m_rebuild_buffer_size).exited = true := by
        simpa using h.symm
      simp [he]
    | some n =>
      rw [hn] at h
      have he : (rebuildExtract INITIAL cbe lb s.m_rebuild_buffer_size).exited = false := by
        simpa using h.symm
      simp [he, internal_rebuild_counter]
  · unfold deserializeTree
    cases deserialize bin_mode sizeofNodeData scanNodeData default_record input with
    | none => rfl
    | some o => simp [internal_rebuild_counter]
  · unfold build
    split
    · simp only [Option.map_map]
      cases withFreeBox
      · simp only [Bool.false_eq_true, if_false, Option.map_some', Function.comp]
        congr 1
        exact buildLoop_rebuild_counter B k _ L
      · simp only [if_true, free_bounding_box]
        split
        · simp only [Option.map_some', Function.comp, insertVoxelAll_rebuild_counter]
          congr 1
          exact buildLoop_rebuild_counter B k _ L
        · rfl
    · rfl

theorem rebuild_counter_accounting_witness :
    (rebuild 4 false (fun _ => 2) 3 sampleNodeConsts NodeKind.basic
        { m_status := 0, m_occupancy := 0 } sampleRecordAccess (fun _ => [1, 1, 1])
        [[0, 5, 1], [1, 2, 1]] sampleState sampleDevice).map
      (fun r => r.1.m_rebuild_counter) = some 2 ∧
    (deserializeTree true 2 (fun d s => (d, s)) [0, 0] 3 sampleNodeConsts NodeKind.basic
        { m_status := 0, m_occupancy := 0 } sampleRecordAccess (fun _ => [1, 1, 1])
        (IStream.ofBytes [1, 0, 0, 0, 2, 0, 0, 0, 3, 0, 0, 0, 2, 0, 0, 0, 7, 8])
        sampleState sampleDevice).map
      (fun r => r.1.1.m_rebuild_counter) = some 1 :=
  ⟨(rebuild_counter_accounting 4 false (fun _ => 2) 3 sampleNodeConsts NodeKind.basic
      { m_status := 0, m_occupancy := 0 } sampleRecordAccess (fun _ => [1, 1, 1])
      [[0, 5, 1], [1, 2, 1]] 2 true 2 (fun d s => (d, s)) [0, 0]
      (IStream.ofBytes [1, 0, 0, 0, 2, 0, 0, 0, 3, 0, 0, 0, 2, 0, 0, 0, 7, 8])
      (fun _ _ => false) 8 3 (specKernels 8) { m_status := 0, m_occupancy := 0 } false
      { extra_levels := 0, size_v := 0, PACKING_OF_VOXEL := true,
        packCounts := fun _ => (0, 0) }
      (fun _ => { num_voxel := 0, d_neededNodesPerLevel := [] }) [5]
      { num_voxel := 0, d_neededNodesPerLevel := [] } sampleState sampleDevice).1.trans
     (by decide),
   (rebuild_counter_accounting 4 false (fun _ => 2) 3 sampleNodeConsts NodeKind.basic
      { m_status := 0, m_occupancy := 0 } sampleRecordAccess (fun _ => [1, 1, 1])
      [[0, 5, 1], [1, 2, 1]] 2 true 2 (fun d s => (d, s)) [0, 0]
      (IStream.ofBytes [1, 0, 0, 0, 2, 0, 0, 0, 3, 0, 0, 0, 2, 0, 0, 0, 7, 8])
      (fun _ _ => false) 8 3 (specKernels 8) { m_status := 0, m_occupancy := 0 } false
      { extra_levels := 0, size_v := 0, PACKING_OF_VOXEL := true,
        packCounts := fun _ => (0, 0) }
      (fun _ => { num_voxel := 0, d_neededNodesPerLevel := [] }) [5]
      { num_voxel := 0, d_neededNodesPerLevel := [] } sampleState sampleDevice).2.1.trans
     (by decide)⟩

/-! ### The assertions of `packVoxel_Map` -/

theorem packWeight_of_lt (B l : Nat) (h : B ^ l < UINT32) : packWeight B l = some (B ^ l) := by
  simp [packWeight, h]

/-- When the packing starts at level `0`, the assertion of line 1522 never fails: as long as
the assertion of line 1520 holds, `last_level_sum + num_last_level * B^l` stays equal to
`num_free_voxel`. -/
theorem packLoop_second_assert_holds (B N min_level : Nat) (p : Bool)
    (counts : Nat → Nat × Nat) (hN : N < UINT32) (fuel l last sum next k : Nat)
    (hinv : sum + last * B ^ l = N) :
    packLoop B N min_level p counts fuel l last sum next ≠ PackOutcome.assert2Failed k := by
  induction fuel generalizing l last sum next with
  | zero => simp [packLoop]
  | succ fuel ih =>
    rw [packLoop]
    by_cases h0 : next = 0
    · rw [if_pos h0]
      simp
    rw [if_neg h0]
    generalize (if min_level > l then 0 else (counts l).1 % UINT32) = t
    generalize (counts l).2 % UINT32 = n
    dsimp only
    by_cases h1 : last = t + n * B
    · rw [if_neg (not_not.mpr h1)]
      have hsplit : sum + t * B ^ l + n * B ^ (l + 1) = N := by
        rw [← hinv, h1, pow_succ]
        ring
      cases hw : packWeight B l with
      | none => simp
      | some w =>
        cases hw1 : packWeight B (l + 1) with
        | none => simp
        | some w1 =>
          have ew : w = B ^ l := by
            unfold packWeight at hw
            split_ifs at hw
            exact (Option.some.inj hw).symm
          have ew1 : w1 = B ^ (l + 1) := by
            unfold packWeight at hw1
            split_ifs at hw1
            exact (Option.some.inj hw1).symm
          subst ew ew1
          have e1 : t * B ^ l % UINT32 = t * B ^ l := Nat.mod_eq_of_lt (by omega)
          have e2 : (sum + t * B ^ l) % UINT32 = sum + t * B ^ l :=
            Nat.mod_eq_of_lt (by omega)
          have e3 : n * B ^ (l + 1) % UINT32 = n * B ^ (l + 1) :=
            Nat.mod_eq_of_lt (by omega)
          have e4 : N % UINT32 = N := Nat.mod_eq_of_lt hN
          dsimp only
          rw [e1, e2, e3, hsplit, e4, if_neg (not_not.mpr rfl)]
          cases p
          · simp
          · rw [if_pos rfl]
            exact ih (l + 1) n (sum + t * B ^ l) n hsplit
    · rw [if_pos h1]
      simp

/-- Started at level `0`, `packVoxel_Map` never fails its second assertion. -/
theorem packVoxel_Map_level_zero (B L N min_level : Nat) (p : Bool)
    (counts : Nat → Nat × Nat) (hN : N < UINT32) (k : Nat) :
    packVoxel_Map B L N min_level 0 p counts ≠ PackOutcome.assert2Failed k := by
  unfold packVoxel_Map
  apply packLoop_second_assert_holds B N min_level p counts hN
  rw [Nat.mod_eq_of_lt hN]
  simp

/-- C22: started at a map level `l0 ≥ 1` with `num_free_voxel = N > 0` (and `N * B^(l0+1)`
within 32 bits, so that nothing wraps around), `packVoxel_Map` stops in its first iteration
on a failed assertion whatever the kernels count: where the counts satisfy the assertion of
line 1520, `N = this + next * B`, line 1522 compares `this * B^l0 + next * B^(l0+1)`, which
is `B^l0 * N`, with `N`, and fails. -/
theorem packVoxel_Map_asserts_fail (B L N min_level l0 : Nat) (p : Bool)
    (counts : Nat → Nat × Nat) (hB : 2 ≤ B) (hl0 : 1 ≤ l0) (hL : l0 < L) (hN : 0 < N)
    (hfit : N * B ^ (l0 + 1) < UINT32) :
    (N = (if min_level > l0 then 0 else (counts l0).1 % UINT32) +
        (counts l0).2 % UINT32 * B →
      packVoxel_Map B L N min_level l0 p counts = PackOutcome.assert2Failed l0) ∧
    (N ≠ (if min_level > l0 then 0 else (counts l0).1 % UINT32) +
        (counts l0).2 % UINT32 * B →
      packVoxel_Map B L N min_level l0 p counts = PackOutcome.assert1Failed l0) := by
  obtain ⟨fuel, hfuel⟩ : ∃ fuel, L - l0 = fuel + 1 := ⟨L - l0 - 1, by omega⟩
  have hP2 : 2 ≤ B ^ l0 := by
    calc 2 ≤ B := hB
      _ = B ^ 1 := (pow_one B).symm
      _ ≤ B ^ l0 := Nat.pow_le_pow_right (by omega) hl0
  have hPB : B ^ (l0 + 1) = B ^ l0 * B := pow_succ B l0
  have hle1 : B ^ l0 ≤ B ^ (l0 + 1) := Nat.pow_le_pow_right (by omega) (by omega)
  have hNP : N * B ^ l0 ≤ N * B ^ (l0 + 1) := Nat.mul_le_mul_left N hle1
  have hN2 : N * 2 ≤ N * B ^ l0 := Nat.mul_le_mul_left N hP2
  have hB1 : 1 * B ^ (l0 + 1) ≤ N * B ^ (l0 + 1) := Nat.mul_le_mul_right _ hN
  have hN32 : N % UINT32 = N := Nat.mod_eq_of_lt (by omega)
  have hw : packWeight B l0 = some (B ^ l0) := packWeight_of_lt B l0 (by omega)
  have hw1 : packWeight B (l0 + 1) = some (B ^ (l0 + 1)) :=
    packWeight_of_lt B (l0 + 1) (by omega)
  unfold packVoxel_Map
  rw [hfuel, hN32, packLoop]
  generalize (if min_level > l0 then 0 else (counts l0).1 % UINT32) = t
  generalize (counts l0).2 % UINT32 = n
  constructor
  · intro h1
    have hsplit : t * B ^ l0 + n * B ^ (l0 + 1) = N * B ^ l0 := by
      rw [h1, hPB]
      ring
    have e1 : t * B ^ l0 % UINT32 = t * B ^ l0 := Nat.mod_eq_of_lt (by omega)
    have e3 : n * B ^ (l0 + 1) % UINT32 = n * B ^ (l0 + 1) := Nat.mod_eq_of_lt (by omega)
    have e2 : (t * B ^ l0 + n * B ^ (l0 + 1)) % UINT32 = N * B ^ l0 := by
      rw [hsplit]
      exact Nat.mod_eq_of_lt (by omega)
    have hne : N * B ^ l0 ≠ N := by omega
    dsimp only
    rw [if_neg (by decide), if_neg (not_not.mpr h1), hw, hw1]
    dsimp only
    rw [e1, Nat.zero_add, e1, e3, e2, hN32, if_pos hne]
  · intro h1
    dsimp only
    rw [if_neg (by decide), if_pos h1]

theorem packVoxel_Map_asserts_fail_witness :
    (2 ≤ 8 ∧ 1 ≤ 1 ∧ 1 < 3 ∧ 0 < 8 ∧ 8 * 8 ^ (1 + 1) < UINT32) ∧
    8 = (if 1 > 1 then 0 else ((fun _ => (0, 1)) 1 : Nat × Nat).1 % UINT32) +
        ((fun _ => (0, 1)) 1 : Nat × Nat).2 % UINT32 * 8 ∧
    packVoxel_Map 8 3 8 1 1 true (fun _ => (0, 1)) = PackOutcome.assert2Failed 1 :=
  ⟨⟨by decide, by decide, by decide, by decide, by decide⟩, by decide,
   (packVoxel_Map_asserts_fail 8 3 8 1 1 true (fun _ => (0, 1)) (by decide) (by decide)
     (by decide) (by decide) (by decide)).1 (by decide)⟩

/-! ### `build` with the free bounding box -/

/-- Started at a level `l0 ≥ 1` on a non-empty map, the packing loop does not get past its
first iteration. -/
theorem packVoxel_Map_not_finished (B L N min_level l0 : Nat) (p : Bool)
    (counts : Nat → Nat × Nat) (hB : 2 ≤ B) (hl0 : 1 ≤ l0) (hL : l0 < L) (hN : 0 < N)
    (hfit : N * B ^ (l0 + 1) < UINT32) (l sum : Nat) :
    packVoxel_Map B L N min_level l0 p counts ≠ PackOutcome.finished l sum := by
  obtain ⟨fuel, hfuel⟩ : ∃ fuel, L - l0 = fuel + 1 := ⟨L - l0 - 1, by omega⟩
  have hP2 : 2 ≤ B ^ l0 := by
    calc 2 ≤ B := hB
      _ = B ^ 1 := (pow_one B).symm
      _ ≤ B ^ l0 := Nat.pow_le_pow_right (by omega) hl0
  have hPB : B ^ (l0 + 1) = B ^ l0 * B := pow_succ B l0
  have hle1 : B ^ l0 ≤ B ^ (l0 + 1) := Nat.pow_le_pow_right (by omega) (by omega)
  have hNP : N * B ^ l0 ≤ N * B ^ (l0 + 1) := Nat.mul_le_mul_left N hle1
  have hN2 : N * 2 ≤ N * B ^ l0 := Nat.mul_le_mul_left N hP2
  have hB1 : 1 * B ^ (l0 + 1) ≤ N * B ^ (l0 + 1) := Nat.mul_le_mul_right _ hN
  have hN32 : N % UINT32 = N := Nat.mod_eq_of_lt (by omega)
  have hw : packWeight B l0 = some (B ^ l0) := packWeight_of_lt B l0 (by omega)
  have hw1 : packWeight B (l0 + 1) = some (B ^ (l0 + 1)) :=
    packWeight_of_lt B (l0 + 1) (by omega)
  unfold packVoxel_Map
  rw [hfuel, hN32, packLoop]
  generalize (if min_level > l0 then 0 else (counts l0).1 % UINT32) = t
  generalize (counts l0).2 % UINT32 = n
  dsimp only
  rw [if_neg (by decide)]
  by_cases h1 : N = t + n * B
  · have hsplit : t * B ^ l0 + n * B ^ (l0 + 1) = N * B ^ l0 := by
      rw [h1, hPB]
      ring
    have e1 : t * B ^ l0 % UINT32 = t * B ^ l0 := Nat.mod_eq_of_lt (by omega)
    have e3 : n * B ^ (l0 + 1) % UINT32 = n * B ^ (l0 + 1) := Nat.mod_eq_of_lt (by omega)
    have e2 : (t * B ^ l0 + n * B ^ (l0 + 1)) % UINT32 = N * B ^ l0 := by
      rw [hsplit]
      exact Nat.mod_eq_of_lt (by omega)
    have hne : N * B ^ l0 ≠ N := by omega
    rw [if_neg (not_not.mpr h1), hw, hw1]
    dsimp only
    rw [e1, Nat.zero_add, e1, e3, e2, hN32, if_pos hne]
    simp
  · rw [if_pos h1]
    simp

/-- With the free bounding box requested, a `build` whose map is not empty ends on a failed
assertion of `packVoxel_Map` (nothing wrapping around, and the map level below
`level_count`). -/
theorem build_free_box_aborts (roundUp : Nat → Nat → Bool) (B L : Nat) (k : BuildKernels)
    (c : NodeConsts) (kind : NodeKind) (rootRead : InnerNode) (packing : FreeBoxPacking)
    (boxCounts : Nat → InsertCounts) (d_voxels : List Nat) (s : NTreeState) (d : Device)
    (hB : 2 ≤ B) (hlev : 1 + packing.extra_levels < L) (hN : 0 < packing.size_v)
    (hfit : packing.size_v * B ^ (1 + packing.extra_levels + 1) < UINT32) :
    build roundUp B L k c kind rootRead true packing boxCounts d_voxels s d = none := by
  have hnf := packVoxel_Map_not_finished B L packing.size_v (1 + packing.extra_levels)
    (1 + packing.extra_levels) packing.PACKING_OF_VOXEL packing.packCounts hB (by omega)
    hlev hN hfit
  unfold build
  split
  · simp only [if_true, free_bounding_box]
    cases hp : packVoxel_Map B L packing.size_v (1 + packing.extra_levels)
        (1 + packing.extra_levels) packing.PACKING_OF_VOXEL packing.packCounts with
    | finished l sum => exact absurd hp (hnf l sum)
    | assert1Failed l => rfl
    | assert2Failed l => rfl
    | undefinedWeight l => rfl
  · rfl

end NTree
